import Mathlib

/-!
Shallow embedding of the per-slab reference-count engine of
`src/utils/vdo/base/refCounts.c`.

Modelling conventions:
* Machine integers become `Nat` with explicit wrap-around where the C type
  could overflow: 64-bit fields (`free_blocks`, `allocated_count`) use
  `inc64`/`dec64`/`sub64` (mod `2^64`), 8-bit counters use `inc8`/`dec8`
  (mod `2^8`).
* The counter array (one byte per physical block) is a `List Nat` read with
  default `0`; the C array is allocated zero-filled with padding past
  `block_count`, so out-of-range reads of the model (`nth` returning `0`)
  coincide with the C reads of the zeroed tail and padding.
* Pointer-mutating C functions become state-passing functions; calls into
  external collaborators (the slab journal's
  `adjust_slab_journal_block_reference`, the pbn lock's
  `assign_provisional_reference` / `unassign_provisional_reference`) are
  recorded as effect fields of the result.
-/

namespace VdoRefCounts

/-- 2^64, the modulus of the C `uint64_t` / `block_count_t` fields. -/
def W64 : Nat := 2 ^ 64

/-- Modelled from the spec: `EMPTY_REFERENCE_COUNT` (referenceBlock.h is not in
the source tree); the spec fixes `EMPTY` = 0. -/
def EMPTY_REFERENCE_COUNT : Nat := 0

/-- Modelled from the spec: `MAXIMUM_REFERENCE_COUNT = 254`. -/
def MAXIMUM_REFERENCE_COUNT : Nat := 254

/-- Modelled from the spec: `PROVISIONAL_REFERENCE_COUNT` = 255, the sentinel
for an allocated-but-unjournalled reservation. -/
def PROVISIONAL_REFERENCE_COUNT : Nat := 255

/-- `sizeof(uint64_t)`, the word width used by the free-byte search. -/
def BYTES_PER_WORD : Nat := 8

/-- 64-bit increment (`x++` on a `uint64_t`). -/
def inc64 (x : Nat) : Nat := (x + 1) % W64

/-- 64-bit decrement (`x--` on a `uint64_t`). -/
def dec64 (x : Nat) : Nat := (x + (W64 - 1)) % W64

/-- 64-bit subtraction (`x -= y` on a `uint64_t`). -/
def sub64 (x y : Nat) : Nat := (x + (W64 - y % W64)) % W64

/-- 8-bit increment (`(*counter_ptr)++` on a `uint8_t`). -/
def inc8 (x : Nat) : Nat := (x + 1) % 256

/-- 8-bit decrement (`(*counter_ptr)--` on a `uint8_t`). -/
def dec8 (x : Nat) : Nat := (x + 255) % 256

/-- Read a byte of the counter array; the C array is zero-filled past the
in-use range, so a default of 0 models out-of-range reads of the padding. -/
def nth (l : List Nat) (i : Nat) : Nat := l.getD i 0

theorem inc64_eq_succ {x : Nat} (h : x + 1 < W64) : inc64 x = x + 1 := by
  simp [inc64, Nat.mod_eq_of_lt h]

theorem dec64_eq_pred {x : Nat} (h1 : 1 ≤ x) (h2 : x < W64) : dec64 x = x - 1 := by
  unfold dec64 W64 at *
  omega

theorem sub64_eq_sub {x y : Nat} (hyx : y ≤ x) (hx : x < W64) : sub64 x y = x - y := by
  unfold sub64 W64 at *
  have hy : y % 2 ^ 64 = y := Nat.mod_eq_of_lt (lt_of_le_of_lt hyx hx)
  rw [hy]
  omega

theorem dec64_inc64 {x : Nat} (h : x < W64) : dec64 (inc64 x) = x := by
  unfold dec64 inc64 W64 at *
  omega

theorem inc64_dec64 {x : Nat} (h : x < W64) : inc64 (dec64 x) = x := by
  unfold dec64 inc64 W64 at *
  omega

theorem inc8_eq_succ {x : Nat} (h : x + 1 < 256) : inc8 x = x + 1 := by
  simp [inc8, Nat.mod_eq_of_lt h]

theorem dec8_eq_pred {x : Nat} (h1 : 1 ≤ x) (h2 : x < 256) : dec8 x = x - 1 := by
  unfold dec8 at *
  omega

theorem nth_set_self {l : List Nat} {j : Nat} (h : j < l.length) (v : Nat) :
    nth (l.set j v) j = v := by
  simp [nth, List.getD, List.getElem?_set_self, h]

theorem nth_set_ne {l : List Nat} {i j : Nat} (h : i ≠ j) (v : Nat) :
    nth (l.set j v) i = nth l i := by
  simp [nth, List.getD, List.getElem?_set_ne (Ne.symm h)]

/-- Setting a position of a list to the value it already holds (or setting past
the end, which is a no-op) leaves the list unchanged. -/
theorem set_nth_self : ∀ (l : List Nat) (j : Nat), l.set j (nth l j) = l
  | [], _ => by simp
  | _ :: _, 0 => by simp [nth]
  | a :: l, j + 1 => by simpa [nth, List.getD] using set_nth_self l j

/-- `minBlock` from numeric.h: the minimum of two block counts. -/
def minBlock (a b : Nat) : Nat := min a b

/-- Modelled from the spec: `computeBucketCount` (numUtils.h is not in the
source tree); the spec defines the saved size as `ceil(block_count /
COUNTS_PER_BLOCK)`, the usual rounded-up division. -/
def computeBucketCount (count bucket_size : Nat) : Nat :=
  (count + bucket_size - 1) / bucket_size

/-- Modelled from the spec: the on-disk geometry constants `SECTORS_PER_BLOCK`
and `COUNTS_PER_SECTOR` (referenceBlock.h is not in the source tree).  The
spec fixes only the relation `COUNTS_PER_BLOCK = SECTORS_PER_BLOCK *
COUNTS_PER_SECTOR`, so the two factors are carried as parameters. -/
structure geometry where
  SECTORS_PER_BLOCK : Nat
  COUNTS_PER_SECTOR : Nat
deriving DecidableEq, Repr

/-- `COUNTS_PER_BLOCK = SECTORS_PER_BLOCK * COUNTS_PER_SECTOR` (spec §6). -/
def COUNTS_PER_BLOCK (g : geometry) : Nat := g.SECTORS_PER_BLOCK * g.COUNTS_PER_SECTOR

/-- The `reference_status` enumeration of refCountsInternals.h. -/
inductive reference_status where
  | RS_FREE
  | RS_SINGLE
  | RS_PROVISIONAL
  | RS_SHARED
deriving DecidableEq, Repr

/-- `reference_count_to_status` (refCounts.c). -/
def reference_count_to_status (count : Nat) : reference_status :=
  if count = EMPTY_REFERENCE_COUNT then .RS_FREE
  else if count = 1 then .RS_SINGLE
  else if count = PROVISIONAL_REFERENCE_COUNT then .RS_PROVISIONAL
  else .RS_SHARED

/-- Modelled from the spec: `struct journal_point` (journalPoint.h is not in
the source tree): a pair `(sequence_number, entry_count)`. -/
structure journal_point where
  sequence_number : Nat
  entry_count : Nat
deriving DecidableEq, Repr, Inhabited

/-- Modelled from the spec: `is_valid_journal_point`; a null pointer or a zero
sequence number (as during rebuild, spec §4.4) is not a valid point. -/
def is_valid_journal_point : Option journal_point → Bool
  | none => false
  | some point => point.sequence_number != 0

/-- Modelled from the spec: `before_journal_point`, the strict total order on
journal points, lexicographic on `(sequence_number, entry_count)`. -/
def before_journal_point (a b : journal_point) : Bool :=
  decide (a.sequence_number < b.sequence_number) ||
    (a.sequence_number == b.sequence_number && decide (a.entry_count < b.entry_count))

/-- Modelled from the spec: `are_equivalent_journal_points`: equality of the
two fields. -/
def are_equivalent_journal_points (a b : journal_point) : Bool := a == b

/-- `struct reference_block` (referenceBlock.h, modelled from the spec's data
model §3 and the uses in refCounts.c).  The back pointer to the owning
`ref_counts` becomes implicit; the wait-queue membership is tracked by the
parent's `dirty_queue` list of block indices. -/
structure reference_block where
  allocated_count : Nat := 0
  slab_journal_lock : Nat := 0
  slab_journal_lock_to_release : Nat := 0
  commit_points : List journal_point := []
  is_dirty : Bool := false
  is_writing : Bool := false
deriving DecidableEq, Repr, Inhabited

/-- Error codes used by refCounts.c (statusCodes.h is not in the source tree;
the set of codes is taken from the return sites in refCounts.c and spec §7). -/
inductive vdo_error where
  | VDO_INVALID_ADMIN_STATE
  | VDO_OUT_OF_RANGE
  | VDO_REF_COUNT_INVALID
  | VDO_NO_SPACE
  | VDO_NOT_IMPLEMENTED
  | UDS_ASSERTION_FAILED
deriving DecidableEq, Repr

/-- `struct ref_counts` (refCountsInternals.h, reconstructed from the field
uses in refCounts.c and spec §3).  `reference_block_count` is represented by
`blocks.length`; the search cursor's block pointer becomes the index
`cursor_block` (`first_block` is index 0 and `last_block` is index
`blocks.length - 1`); `slab_open` models `is_slab_open(slab)`; `read_only`
models the external read-only notifier latch; `dirty_queue` is the dirty
block wait queue as a list of block indices in enqueue order. -/
structure ref_counts where
  block_count : Nat
  counters : List Nat
  free_blocks : Nat
  blocks : List reference_block
  slab_start : Nat
  origin : Nat
  slab_open : Bool
  slab_journal_point : journal_point
  cursor_block : Nat
  cursor_index : Nat
  cursor_end_index : Nat
  dirty_queue : List Nat
  read_only : Bool
deriving DecidableEq, Repr, Inhabited

/-- `index_to_pbn` (refCounts.c): `slab->start + index`. -/
def index_to_pbn (rc : ref_counts) (index : Nat) : Nat := rc.slab_start + index

/-- Modelled from the spec: `slab_block_number_from_pbn` (slab.c is not in the
source tree).  The SBN is `pbn - slab.start` (spec glossary); a PBN outside
the slab's `block_count` data blocks yields `VDO_OUT_OF_RANGE` (spec §7). -/
def slab_block_number_from_pbn (rc : ref_counts) (pbn : Nat) : Except vdo_error Nat :=
  if pbn < rc.slab_start then .error .VDO_OUT_OF_RANGE
  else if pbn - rc.slab_start < rc.block_count then .ok (pbn - rc.slab_start)
  else .error .VDO_OUT_OF_RANGE

/-- `get_saved_reference_count_size` (refCounts.c). -/
def get_saved_reference_count_size (g : geometry) (block_count : Nat) : Nat :=
  computeBucketCount block_count (COUNTS_PER_BLOCK g)

/-- `reset_search_cursor` (refCounts.c). -/
def reset_search_cursor (g : geometry) (rc : ref_counts) : ref_counts :=
  { rc with
    cursor_block := 0
    cursor_index := 0
    cursor_end_index := minBlock (COUNTS_PER_BLOCK g) rc.block_count }

/-- `advance_search_cursor` (refCounts.c): advance to the next reference
block, wrapping (and returning `false`) from the last block. -/
def advance_search_cursor (g : geometry) (rc : ref_counts) : ref_counts × Bool :=
  if rc.cursor_block = rc.blocks.length - 1 then
    (reset_search_cursor g rc, false)
  else
    let cb := rc.cursor_block + 1
    if cb = rc.blocks.length - 1 then
      ({ rc with
         cursor_block := cb
         cursor_index := rc.cursor_end_index
         cursor_end_index := rc.block_count }, true)
    else
      ({ rc with
         cursor_block := cb
         cursor_index := rc.cursor_end_index
         cursor_end_index := rc.cursor_end_index + COUNTS_PER_BLOCK g }, true)

/-- `make_ref_counts` (refCounts.c).  Allocation failures of the C code are
not modelled; `slab_open` snapshots the external slab's admin state.  The C
counter array is zero-filled over `ref_block_count * COUNTS_PER_BLOCK` bytes
plus padding; the model keeps the first `block_count` bytes and reads the
(never-written) zero tail through `nth`'s default. -/
def make_ref_counts (g : geometry) (block_count slab_start origin : Nat)
    (slab_open : Bool) : ref_counts :=
  let ref_block_count := get_saved_reference_count_size g block_count
  { block_count := block_count
    counters := List.replicate block_count 0
    free_blocks := block_count
    blocks := List.replicate ref_block_count
      { commit_points := List.replicate g.SECTORS_PER_BLOCK ⟨0, 0⟩ }
    slab_start := slab_start
    origin := origin
    slab_open := slab_open
    slab_journal_point := ⟨0, 0⟩
    cursor_block := 0
    cursor_index := 0
    cursor_end_index := minBlock (COUNTS_PER_BLOCK g) block_count
    dirty_queue := []
    read_only := false }

/-- `enqueue_dirty_block` (refCounts.c): `enqueueWaiter` fails only when the
block is already on a queue, in which case the code enters read-only mode. -/
def enqueue_dirty_block (rc : ref_counts) (block_index : Nat) : ref_counts :=
  if rc.dirty_queue.contains block_index then { rc with read_only := true }
  else { rc with dirty_queue := rc.dirty_queue ++ [block_index] }

/-- `dirty_block` (refCounts.c). -/
def dirty_block (rc : ref_counts) (block_index : Nat) : ref_counts :=
  let block := rc.blocks.getD block_index default
  if block.is_dirty then rc
  else
    let rc1 := { rc with blocks := rc.blocks.set block_index { block with is_dirty := true } }
    if block.is_writing then rc1
    else enqueue_dirty_block rc1 block_index

/-- `get_reference_counter` (refCounts.c), returning the counter value rather
than a pointer to it. -/
def get_reference_counter (rc : ref_counts) (pbn : Nat) : Except vdo_error Nat :=
  (slab_block_number_from_pbn rc pbn).map (nth rc.counters)

/-- `get_available_references` (refCounts.c). -/
def get_available_references (rc : ref_counts) (pbn : Nat) : Nat :=
  match get_reference_counter rc pbn with
  | .error _ => 0
  | .ok counter =>
    if counter = PROVISIONAL_REFERENCE_COUNT then MAXIMUM_REFERENCE_COUNT - 1
    else MAXIMUM_REFERENCE_COUNT - counter

/-- `JournalOperation` (journal tags used by the update core).  The three
tags handled by `update_reference_count` plus the remaining block-map tag,
which takes the switch's default branch. -/
inductive journal_operation where
  | DATA_DECREMENT
  | DATA_INCREMENT
  | BLOCK_MAP_DECREMENT
  | BLOCK_MAP_INCREMENT
deriving DecidableEq, Repr

/-- `struct reference_operation` (referenceOperation.h, modelled from the
spec §4.4): operation tag, target PBN, and whether
`get_reference_operation_pbn_lock` yields a (non-null) pbn lock. -/
structure reference_operation where
  type : journal_operation
  pbn : Nat
  lock : Bool
deriving DecidableEq, Repr

/-- The joint effect of one of the three update primitives on the counter,
the containing block's `allocated_count`, the slab's `free_blocks`, and the
`free_status_changed` out-parameter, together with the external pbn-lock
calls the primitive makes (`assign_provisional_reference` /
`unassign_provisional_reference`). -/
structure update_outcome where
  counter : Nat
  allocated_count : Nat
  free_blocks : Nat
  free_status_changed : Bool
  assigned : Bool := false
  unassigned : Bool := false
deriving DecidableEq, Repr

/-- `increment_for_data` (refCounts.c). -/
def increment_for_data (allocated_count free_blocks : Nat)
    (old_status : reference_status) (lock : Bool) (counter : Nat) :
    Except vdo_error update_outcome :=
  let switched : Except vdo_error update_outcome :=
    match old_status with
    | .RS_FREE =>
      .ok { counter := 1
            allocated_count := inc64 allocated_count
            free_blocks := dec64 free_blocks
            free_status_changed := true }
    | .RS_PROVISIONAL =>
      .ok { counter := 1
            allocated_count := allocated_count
            free_blocks := free_blocks
            free_status_changed := false }
    | _ =>
      -- Single or shared
      if MAXIMUM_REFERENCE_COUNT ≤ counter then .error .VDO_REF_COUNT_INVALID
      else
        .ok { counter := inc8 counter
              allocated_count := allocated_count
              free_blocks := free_blocks
              free_status_changed := false }
  match switched with
  | .error e => .error e
  | .ok out => .ok { out with unassigned := lock }

/-- `decrement_for_data` (refCounts.c). -/
def decrement_for_data (allocated_count free_blocks : Nat)
    (old_status : reference_status) (lock : Bool) (counter : Nat) :
    Except vdo_error update_outcome :=
  match old_status with
  | .RS_FREE => .error .VDO_REF_COUNT_INVALID
  | .RS_PROVISIONAL | .RS_SINGLE =>
    if lock then
      -- There is a read lock on this block, so the block must not become
      -- unreferenced.
      .ok { counter := PROVISIONAL_REFERENCE_COUNT
            allocated_count := allocated_count
            free_blocks := free_blocks
            free_status_changed := false
            assigned := true }
    else
      .ok { counter := EMPTY_REFERENCE_COUNT
            allocated_count := dec64 allocated_count
            free_blocks := inc64 free_blocks
            free_status_changed := true }
  | .RS_SHARED =>
    .ok { counter := dec8 counter
          allocated_count := allocated_count
          free_blocks := free_blocks
          free_status_changed := false }

/-- `increment_for_block_map` (refCounts.c). -/
def increment_for_block_map (allocated_count free_blocks : Nat)
    (old_status : reference_status) (lock : Bool) (normal_operation : Bool)
    (counter : Nat) : Except vdo_error update_outcome :=
  match old_status with
  | .RS_FREE =>
    if normal_operation then .error .VDO_REF_COUNT_INVALID
    else
      .ok { counter := MAXIMUM_REFERENCE_COUNT
            allocated_count := inc64 allocated_count
            free_blocks := dec64 free_blocks
            free_status_changed := true }
  | .RS_PROVISIONAL =>
    if !normal_operation then .error .VDO_REF_COUNT_INVALID
    else
      .ok { counter := MAXIMUM_REFERENCE_COUNT
            allocated_count := allocated_count
            free_blocks := free_blocks
            free_status_changed := false
            unassigned := lock }
  | _ => .error .VDO_REF_COUNT_INVALID

/-- Write an `update_outcome` back through the C pointers: the counter into
`counters[slab_block_number]`, the allocated count into the reference block,
and the free count into the `ref_counts`. -/
def commit_outcome (rc : ref_counts) (block_index slab_block_number : Nat)
    (out : update_outcome) : ref_counts :=
  { rc with
    counters := rc.counters.set slab_block_number out.counter
    free_blocks := out.free_blocks
    blocks := rc.blocks.set block_index
      { rc.blocks.getD block_index default with allocated_count := out.allocated_count } }

/-- The final step of `update_reference_count`: advance `slab_journal_point`
when the given journal point is valid. -/
def advance_journal_point (rc : ref_counts) (slab_journal_point : Option journal_point) :
    ref_counts :=
  if is_valid_journal_point slab_journal_point then
    { rc with slab_journal_point := slab_journal_point.getD ⟨0, 0⟩ }
  else rc

/-- The out-parameters of `update_reference_count` on success. -/
structure update_result where
  free_status_changed : Bool := false
  provisional_decrement : Bool := false
  assigned : Bool := false
  unassigned : Bool := false
deriving DecidableEq, Repr

/-- `update_reference_count` (refCounts.c).  `block_index` is the position of
the C `block` pointer inside the block vector; on the unknown-operation
branch the code enters read-only mode.  A decrement of a provisional
reference returns before the journal point advance.  The `provisional_decrement`
flag models the out-pointer, which the caller may pass as NULL and ignore. -/
def update_reference_count (g : geometry) (rc : ref_counts)
    (block_index slab_block_number : Nat)
    (slab_journal_point : Option journal_point) (operation : reference_operation)
    (normal_operation : Bool) : ref_counts × Except vdo_error update_result :=
  let counter := nth rc.counters slab_block_number
  let old_status := reference_count_to_status counter
  let lock := operation.lock
  let block := rc.blocks.getD block_index default
  match operation.type with
  | .DATA_INCREMENT =>
    match increment_for_data block.allocated_count rc.free_blocks old_status lock counter with
    | .error e => (rc, .error e)
    | .ok out =>
      (advance_journal_point (commit_outcome rc block_index slab_block_number out)
         slab_journal_point,
       .ok { free_status_changed := out.free_status_changed
             unassigned := out.unassigned })
  | .DATA_DECREMENT =>
    match decrement_for_data block.allocated_count rc.free_blocks old_status lock counter with
    | .error e => (rc, .error e)
    | .ok out =>
      if old_status = .RS_PROVISIONAL then
        (commit_outcome rc block_index slab_block_number out,
         .ok { free_status_changed := out.free_status_changed
               provisional_decrement := true
               assigned := out.assigned })
      else
        (advance_journal_point (commit_outcome rc block_index slab_block_number out)
           slab_journal_point,
         .ok { free_status_changed := out.free_status_changed
               assigned := out.assigned })
  | .BLOCK_MAP_INCREMENT =>
    match increment_for_block_map block.allocated_count rc.free_blocks old_status lock
        normal_operation counter with
    | .error e => (rc, .error e)
    | .ok out =>
      (advance_journal_point (commit_outcome rc block_index slab_block_number out)
         slab_journal_point,
       .ok { free_status_changed := out.free_status_changed
             unassigned := out.unassigned })
  | _ =>
    ({ rc with read_only := true }, .error .VDO_NOT_IMPLEMENTED)

/-- The result of `adjust_reference_count`: the state, the returned status,
the out-parameters, and the calls made to the slab journal
(`adjust_slab_journal_block_reference (sequence, delta)` event list). -/
structure adjust_result where
  rc : ref_counts
  status : Except vdo_error Unit
  free_status_changed : Bool := false
  provisional_decrement : Bool := false
  journal : List (Nat × Int) := []
  assigned : Bool := false
  unassigned : Bool := false

/-- `adjust_reference_count` (refCounts.c). -/
def adjust_reference_count (g : geometry) (rc : ref_counts)
    (operation : reference_operation) (slab_journal_point : Option journal_point) :
    adjust_result :=
  if !rc.slab_open then
    { rc := rc, status := .error .VDO_INVALID_ADMIN_STATE }
  else
    match slab_block_number_from_pbn rc operation.pbn with
    | .error e => { rc := rc, status := .error e }
    | .ok slab_block_number =>
      let block_index := slab_block_number / COUNTS_PER_BLOCK g
      match update_reference_count g rc block_index slab_block_number
          slab_journal_point operation true with
      | (rc1, .error e) => { rc := rc1, status := .error e }
      | (rc1, .ok u) =>
        if u.provisional_decrement then
          { rc := rc1, status := .ok ()
            free_status_changed := u.free_status_changed
            provisional_decrement := true
            assigned := u.assigned, unassigned := u.unassigned }
        else
          let block := rc1.blocks.getD block_index default
          if block.is_dirty && decide (0 < block.slab_journal_lock) then
            -- The block is already dirty with a slab journal entry made since
            -- it was last clean: release the per-entry slab journal lock.
            if is_valid_journal_point slab_journal_point then
              { rc := rc1, status := .ok ()
                free_status_changed := u.free_status_changed
                journal := [((slab_journal_point.getD ⟨0, 0⟩).sequence_number, -1)]
                assigned := u.assigned, unassigned := u.unassigned }
            else
              -- ASSERT(is_valid_journal_point(...)) failed.
              { rc := rc1, status := .error .UDS_ASSERTION_FAILED
                free_status_changed := u.free_status_changed
                assigned := u.assigned, unassigned := u.unassigned }
          else
            -- Convert the per-entry slab journal lock to an uncommitted
            -- reference block lock, if there is a per-entry lock.
            let lock_value :=
              if is_valid_journal_point slab_journal_point then
                (slab_journal_point.getD ⟨0, 0⟩).sequence_number
              else 0
            let rc2 := { rc1 with
              blocks := rc1.blocks.set block_index
                { block with slab_journal_lock := lock_value } }
            { rc := dirty_block rc2 block_index, status := .ok ()
              free_status_changed := u.free_status_changed
              assigned := u.assigned, unassigned := u.unassigned }

/-- `adjust_reference_count_for_rebuild` (refCounts.c).  The
`reference_operation` is zero-initialized apart from its type, so it carries
no pbn lock; the journal point is NULL and `normal_operation` is false. -/
def adjust_reference_count_for_rebuild (g : geometry) (rc : ref_counts)
    (pbn : Nat) (operation : journal_operation) : ref_counts × Except vdo_error Unit :=
  match slab_block_number_from_pbn rc pbn with
  | .error e => (rc, .error e)
  | .ok slab_block_number =>
    let block_index := slab_block_number / COUNTS_PER_BLOCK g
    match update_reference_count g rc block_index slab_block_number none
        { type := operation, pbn := 0, lock := false } false with
    | (rc1, .error e) => (rc1, .error e)
    | (rc1, .ok _) => (dirty_block rc1 block_index, .ok ())

/-- `struct slab_journal_entry` (slabJournalInternals.h, modelled from the
spec §4.7: an entry is `(sbn, operation)` applied at an entry point). -/
structure slab_journal_entry where
  sbn : Nat
  operation : journal_operation
deriving DecidableEq, Repr

/-- `replay_reference_count_change` (refCounts.c). -/
def replay_reference_count_change (g : geometry) (rc : ref_counts)
    (entry_point : journal_point) (entry : slab_journal_entry) :
    ref_counts × Except vdo_error Unit :=
  let block_index := entry.sbn / COUNTS_PER_BLOCK g
  let block := rc.blocks.getD block_index default
  let sector := (entry.sbn % COUNTS_PER_BLOCK g) / g.COUNTS_PER_SECTOR
  if !before_journal_point (block.commit_points.getD sector ⟨0, 0⟩) entry_point then
    -- This entry is already reflected in the existing counts, so do nothing.
    (rc, .ok ())
  else
    match update_reference_count g rc block_index entry.sbn (some entry_point)
        { type := entry.operation, pbn := 0, lock := false } false with
    | (rc1, .error e) => (rc1, .error e)
    | (rc1, .ok _) => (dirty_block rc1 block_index, .ok ())

/-- `find_zero_byte_in_word` (refCounts.c): scan the eight bytes of a
little-endian word, low to high, for the first zero byte. -/
def find_zero_byte_in_word (counters : List Nat) (start_index fail_index : Nat) : Nat :=
  match (List.range BYTES_PER_WORD).find? (fun offset => nth counters (start_index + offset) == 0) with
  | some offset => start_index + offset
  | none => fail_index

/-- The word-stepping `while (next_counter < end_counter)` loop of
`find_free_block` (refCounts.c). -/
def find_free_block_loop (counters : List Nat) (end_index : Nat) (next_index : Nat) :
    Option Nat :=
  if next_index < end_index then
    let zero_index := find_zero_byte_in_word counters next_index end_index
    if zero_index < end_index then some zero_index
    else find_free_block_loop counters end_index (next_index + BYTES_PER_WORD)
  else none
termination_by end_index - next_index
decreasing_by simp only [BYTES_PER_WORD]; omega

/-- `find_free_block` (refCounts.c): one unaligned word scan followed by the
word-stepping loop; the zeroed padding past the array makes the overreads
benign (modelled by `nth`'s default of 0). -/
def find_free_block (counters : List Nat) (start_index end_index : Nat) : Option Nat :=
  let zero_index := find_zero_byte_in_word counters start_index end_index
  if zero_index < end_index then some zero_index
  else find_free_block_loop counters end_index (start_index + BYTES_PER_WORD)

/-- `search_current_reference_block` (refCounts.c). -/
def search_current_reference_block (g : geometry) (rc : ref_counts) : Option Nat :=
  -- Don't bother searching if the current block is known to be full.
  if (rc.blocks.getD rc.cursor_block default).allocated_count < COUNTS_PER_BLOCK g then
    find_free_block rc.counters rc.cursor_index rc.cursor_end_index
  else none

/-- The advance loop of `search_reference_blocks` (refCounts.c), with explicit
fuel: the cursor advances one block per iteration and wraps at the last block,
so `blocks.length` iterations always suffice (the fuel-exhausted branch is
unreachable from any state whose cursor points into the block vector). -/
def search_reference_blocks_from (g : geometry) :
    Nat → ref_counts → ref_counts × Option Nat
  | 0, rc => (rc, none)
  | fuel + 1, rc =>
    match search_current_reference_block g rc with
    | some free_index => (rc, some free_index)
    | none =>
      let advanced := advance_search_cursor g rc
      if advanced.2 then search_reference_blocks_from g fuel advanced.1
      else (advanced.1, none)

/-- `search_reference_blocks` (refCounts.c). -/
def search_reference_blocks (g : geometry) (rc : ref_counts) :
    ref_counts × Option Nat :=
  search_reference_blocks_from g rc.blocks.length rc

/-- `make_provisional_reference` (refCounts.c). -/
def make_provisional_reference (g : geometry) (rc : ref_counts)
    (slab_block_number : Nat) : ref_counts :=
  let rc1 := { rc with
    counters := rc.counters.set slab_block_number PROVISIONAL_REFERENCE_COUNT }
  let block_index := slab_block_number / COUNTS_PER_BLOCK g
  let block := rc1.blocks.getD block_index default
  { rc1 with
    blocks := rc1.blocks.set block_index
      { block with allocated_count := inc64 block.allocated_count }
    free_blocks := dec64 rc1.free_blocks }

/-- `allocate_unreferenced_block` (refCounts.c). -/
def allocate_unreferenced_block (g : geometry) (rc : ref_counts) :
    ref_counts × Except vdo_error Nat :=
  if !rc.slab_open then (rc, .error .VDO_INVALID_ADMIN_STATE)
  else
    match search_reference_blocks g rc with
    | (rc1, none) => (rc1, .error .VDO_NO_SPACE)
    | (rc1, some free_index) =>
      let rc2 := make_provisional_reference g rc1 free_index
      -- Update the search hint so the next search will start at the array
      -- index just past the free block we just found.
      let rc3 := { rc2 with cursor_index := free_index + 1 }
      (rc3, .ok (index_to_pbn rc3 free_index))

/-- `provisionally_reference_block` (refCounts.c).  The
`assign_provisional_reference(lock)` call on a non-null lock is external to
the state; the `lock` argument is kept for the signature. -/
def provisionally_reference_block (g : geometry) (rc : ref_counts)
    (pbn : Nat) (lock : Bool) : ref_counts × Except vdo_error Unit :=
  if !rc.slab_open then (rc, .error .VDO_INVALID_ADMIN_STATE)
  else
    match slab_block_number_from_pbn rc pbn with
    | .error e => (rc, .error e)
    | .ok slab_block_number =>
      if nth rc.counters slab_block_number = EMPTY_REFERENCE_COUNT then
        (make_provisional_reference g rc slab_block_number, .ok ())
      else (rc, .ok ())

/-- `reset_reference_counts` (refCounts.c): zero the first `block_count`
counter bytes, reset the free count and the journal point, zero every block's
`allocated_count`, and clear the dirty flag of every queued block while
draining the dirty queue (`notifyAllWaiters` with
`clear_dirty_reference_blocks`). -/
def reset_reference_counts (rc : ref_counts) : ref_counts :=
  let rc1 := { rc with
    counters := List.replicate rc.block_count 0
    free_blocks := rc.block_count
    slab_journal_point := ⟨0, 0⟩ }
  let rc2 := { rc1 with
    blocks := rc1.blocks.map (fun (b : reference_block) => { b with allocated_count := 0 }) }
  { rc2 with
    blocks := rc.dirty_queue.foldl
      (fun (bs : List reference_block) (j : Nat) =>
        bs.set j { bs.getD j default with is_dirty := false }) rc2.blocks
    dirty_queue := [] }

/-- Modelled from the spec: `struct packed_journal_point` (the packed header
is not in the source tree).  The spec §6 layout is `(sequence:u64 LE,
entry:u16 LE, pad:u16)`; the model keeps the two numeric fields already
reduced to their encoded widths. -/
structure packed_journal_point where
  sequence_number : Nat
  entry_count : Nat
deriving DecidableEq, Repr, Inhabited

/-- Modelled from the spec: `pack_journal_point`: store the fields
little-endian in their on-disk widths (u64 and u16). -/
def pack_journal_point (point : journal_point) : packed_journal_point :=
  { sequence_number := point.sequence_number % W64
    entry_count := point.entry_count % 65536 }

/-- Modelled from the spec: `unpack_journal_point`: read the stored fields
back. -/
def unpack_journal_point (packed : packed_journal_point) : journal_point :=
  { sequence_number := packed.sequence_number
    entry_count := packed.entry_count }

/-- Modelled from the spec: `struct packed_reference_sector` (§6): a commit
point followed by `COUNTS_PER_SECTOR` counter bytes. -/
structure packed_reference_sector where
  commit_point : packed_journal_point
  counts : List Nat
deriving DecidableEq, Repr, Inhabited

/-- Modelled from the spec: `struct packed_reference_block` (§6):
`SECTORS_PER_BLOCK` sectors. -/
structure packed_reference_block where
  sectors : List packed_reference_sector
deriving DecidableEq, Repr, Inhabited

/-- A fixed-length `memcpy` into a counter list: copy `n` bytes of `src`
(reading missing bytes as the buffer's zero fill) to `dst` starting at
`dst_start`. -/
def memcpy_counts (dst : List Nat) (dst_start : Nat) (src : List Nat) (n : Nat) :
    List Nat :=
  (List.range n).foldl (fun cs k => cs.set (dst_start + k) (nth src k)) dst

/-- `pack_reference_block` (refCounts.c), acting on the block's counter
window (`get_reference_counters_for_block` is the window
`counters[block_index * COUNTS_PER_BLOCK ..]`): every sector receives the
pack of the current `slab_journal_point` as its commit point, followed by its
`COUNTS_PER_SECTOR` counters. -/
def pack_reference_block (g : geometry) (slab_journal_point : journal_point)
    (counters : List Nat) : packed_reference_block :=
  let commit_point := pack_journal_point slab_journal_point
  { sectors := (List.range g.SECTORS_PER_BLOCK).map (fun i =>
      { commit_point := commit_point
        counts := (List.range g.COUNTS_PER_SECTOR).map
          (fun k => nth counters (i * g.COUNTS_PER_SECTOR + k)) }) }

/-- The in-memory targets `unpack_reference_block` writes: the block's counter
window, its per-sector commit points, the parent's `slab_journal_point`, and
the recomputed `allocated_count`. -/
structure unpacked_block where
  counters : List Nat
  commit_points : List journal_point
  slab_journal_point : journal_point
  allocated_count : Nat
deriving DecidableEq, Repr

/-- `unpack_reference_block` (refCounts.c): per sector, unpack the commit
point, copy the counter bytes into the window, and keep the latest commit
point as the parent's `slab_journal_point`; the torn-write check only logs a
warning and changes no state.  Finally recount `allocated_count` as the
non-EMPTY counters of the window. -/
def unpack_reference_block (g : geometry) (packed : packed_reference_block)
    (counters : List Nat) (commit_points : List journal_point)
    (slab_journal_point : journal_point) : unpacked_block :=
  let step := fun (st : List Nat × List journal_point × journal_point) (i : Nat) =>
    let sector := packed.sectors.getD i default
    let point := unpack_journal_point sector.commit_point
    let counters1 := memcpy_counts st.1 (i * g.COUNTS_PER_SECTOR) sector.counts
      g.COUNTS_PER_SECTOR
    let commit_points1 := st.2.1.set i point
    -- The slab_journal_point must be the latest point found in any sector.
    let sjp1 := if before_journal_point st.2.2 point then point else st.2.2
    (counters1, commit_points1, sjp1)
  let st := (List.range g.SECTORS_PER_BLOCK).foldl step
    (counters, commit_points, slab_journal_point)
  { counters := st.1
    commit_points := st.2.1
    slab_journal_point := st.2.2
    allocated_count :=
      (List.range (COUNTS_PER_BLOCK g)).countP (fun index => nth st.1 index != 0) }

/-- `clear_provisional_references` (refCounts.c), acting on the block's
counter window: reset every `PROVISIONAL` counter to `EMPTY`, decrementing
`allocated_count` for each. -/
def clear_provisional_references (g : geometry) (counters : List Nat)
    (allocated_count : Nat) : List Nat × Nat :=
  (List.range (COUNTS_PER_BLOCK g)).foldl
    (fun st j =>
      if nth st.1 j = PROVISIONAL_REFERENCE_COUNT then
        (st.1.set j EMPTY_REFERENCE_COUNT, dec64 st.2)
      else st)
    (counters, allocated_count)

/-- The in-memory state after the load of one reference block completes. -/
structure loaded_block where
  counters : List Nat
  commit_points : List journal_point
  slab_journal_point : journal_point
  allocated_count : Nat
  free_blocks : Nat
deriving DecidableEq, Repr

/-- `finish_reference_block_load` (refCounts.c), restricted to its state
changes on the block and the parent (the VIO return and `active_count`
bookkeeping concern only the I/O machinery): unpack the read buffer, clear
the provisional references, and subtract the block's `allocated_count` from
`free_blocks`. -/
def finish_reference_block_load (g : geometry) (packed : packed_reference_block)
    (counters : List Nat) (commit_points : List journal_point)
    (slab_journal_point : journal_point) (free_blocks : Nat) : loaded_block :=
  let u := unpack_reference_block g packed counters commit_points slab_journal_point
  let cleared := clear_provisional_references g u.counters u.allocated_count
  { counters := cleared.1
    commit_points := u.commit_points
    slab_journal_point := u.slab_journal_point
    allocated_count := cleared.2
    free_blocks := sub64 free_blocks cleared.2 }

/-! ### Counting machinery for the state invariants -/

/-- The number of indices `i` with `lo ≤ i < lo + n` whose counter satisfies
`p`. -/
def count_in_range (l : List Nat) (p : Nat → Bool) : Nat → Nat → Nat
  | _, 0 => 0
  | lo, n + 1 => (if p (nth l lo) then 1 else 0) + count_in_range l p (lo + 1) n

theorem count_in_range_le (l : List Nat) (p : Nat → Bool) :
    ∀ (n lo : Nat), count_in_range l p lo n ≤ n := by
  intro n
  induction n with
  | zero => intro lo; simp [count_in_range]
  | succ n ih =>
    intro lo
    have := ih (lo + 1)
    simp only [count_in_range]
    split <;> omega

theorem count_in_range_pos (l : List Nat) (p : Nat → Bool) :
    ∀ (n lo j : Nat), lo ≤ j → j < lo + n → p (nth l j) = true →
      1 ≤ count_in_range l p lo n := by
  intro n
  induction n with
  | zero => intro lo j h1 h2; omega
  | succ n ih =>
    intro lo j h1 h2 hp
    simp only [count_in_range]
    rcases Nat.eq_or_lt_of_le h1 with h | h
    · subst h; simp [hp]
    · have := ih (lo + 1) j h (by omega) hp
      omega

theorem count_in_range_congr {l l' : List Nat} (p : Nat → Bool) :
    ∀ (n lo : Nat), (∀ i, lo ≤ i → i < lo + n → nth l i = nth l' i) →
      count_in_range l p lo n = count_in_range l' p lo n := by
  intro n
  induction n with
  | zero => intro lo _; simp [count_in_range]
  | succ n ih =>
    intro lo h
    simp only [count_in_range]
    rw [h lo (le_refl _) (by omega), ih (lo + 1) (fun i h1 h2 => h i (by omega) (by omega))]

theorem count_in_range_set_outside {l : List Nat} (p : Nat → Bool)
    {n lo j : Nat} (v : Nat) (h : j < lo ∨ lo + n ≤ j) :
    count_in_range (l.set j v) p lo n = count_in_range l p lo n := by
  refine count_in_range_congr p n lo (fun i h1 h2 => ?_)
  exact nth_set_ne (by omega) v

theorem count_in_range_set_add {l : List Nat} (p : Nat → Bool) :
    ∀ (n lo : Nat) {j : Nat} (v : Nat), j < l.length → lo ≤ j → j < lo + n →
      count_in_range (l.set j v) p lo n + (if p (nth l j) then 1 else 0)
        = count_in_range l p lo n + (if p v then 1 else 0) := by
  intro n
  induction n with
  | zero => intro lo j v _ h1 h2; omega
  | succ n ih =>
    intro lo j v hlen h1 h2
    simp only [count_in_range]
    rcases Nat.eq_or_lt_of_le h1 with h | h
    · subst h
      rw [nth_set_self hlen,
        count_in_range_set_outside p v (by omega)]
      split <;> split <;> omega
    · rw [nth_set_ne (by omega) v]
      have := ih (lo + 1) v hlen h (by omega)
      omega

theorem count_in_range_set_true_false {l : List Nat} (p : Nat → Bool) {n lo j v : Nat}
    (hlen : j < l.length) (h1 : lo ≤ j) (h2 : j < lo + n)
    (hpj : p (nth l j) = true) (hpv : p v = false) :
    count_in_range (l.set j v) p lo n + 1 = count_in_range l p lo n := by
  have h := count_in_range_set_add p n lo v hlen h1 h2
  simpa [hpj, hpv] using h

theorem count_in_range_set_false_true {l : List Nat} (p : Nat → Bool) {n lo j v : Nat}
    (hlen : j < l.length) (h1 : lo ≤ j) (h2 : j < lo + n)
    (hpj : p (nth l j) = false) (hpv : p v = true) :
    count_in_range (l.set j v) p lo n = count_in_range l p lo n + 1 := by
  have h := count_in_range_set_add p n lo v hlen h1 h2
  simpa [hpj, hpv] using h

theorem count_in_range_set_same {l : List Nat} (p : Nat → Bool) {n lo j v : Nat}
    (hlen : j < l.length) (h1 : lo ≤ j) (h2 : j < lo + n)
    (hpv : p v = p (nth l j)) :
    count_in_range (l.set j v) p lo n = count_in_range l p lo n := by
  have h := count_in_range_set_add p n lo v hlen h1 h2
  simp only [hpv] at h
  omega

theorem count_in_range_split (l : List Nat) (p : Nat → Bool) :
    ∀ (a b lo : Nat), count_in_range l p lo (a + b)
      = count_in_range l p lo a + count_in_range l p (lo + a) b := by
  intro a
  induction a with
  | zero => intro b lo; simp [count_in_range]
  | succ a ih =>
    intro b lo
    have h : a + 1 + b = (a + b) + 1 := by omega
    rw [h]
    simp only [count_in_range]
    rw [ih b (lo + 1)]
    have h2 : lo + (a + 1) = lo + 1 + a := by omega
    rw [h2]
    ring

theorem count_in_range_all (l : List Nat) (p : Nat → Bool) :
    ∀ (n lo : Nat), (∀ i, lo ≤ i → i < lo + n → p (nth l i) = true) →
      count_in_range l p lo n = n := by
  intro n
  induction n with
  | zero => intro lo _; simp [count_in_range]
  | succ n ih =>
    intro lo h
    simp only [count_in_range]
    rw [h lo (le_refl _) (by omega),
      ih (lo + 1) (fun i h1 h2 => h i (by omega) (by omega))]
    simp [Nat.add_comm]

theorem count_in_range_none (l : List Nat) (p : Nat → Bool) :
    ∀ (n lo : Nat), (∀ i, lo ≤ i → i < lo + n → p (nth l i) = false) →
      count_in_range l p lo n = 0 := by
  intro n
  induction n with
  | zero => intro lo _; simp [count_in_range]
  | succ n ih =>
    intro lo h
    simp only [count_in_range]
    rw [h lo (le_refl _) (by omega),
      ih (lo + 1) (fun i h1 h2 => h i (by omega) (by omega))]
    simp

/-- Complementary counts over the same range sum to the range length. -/
theorem count_in_range_add_compl (l : List Nat) (p : Nat → Bool) :
    ∀ (n lo : Nat), count_in_range l p lo n
      + count_in_range l (fun c => !(p c)) lo n = n := by
  intro n
  induction n with
  | zero => intro lo; simp [count_in_range]
  | succ n ih =>
    intro lo
    simp only [count_in_range]
    have := ih (lo + 1)
    rcases Bool.eq_false_or_eq_true (p (nth l lo)) with h | h <;> simp [h] <;> omega

/-! ### Generic list-update lemmas -/

theorem getD_set_self {α : Type} {l : List α} {j : Nat} (h : j < l.length) (v d : α) :
    (l.set j v).getD j d = v := by
  simp [List.getD, List.getElem?_set_self, h]

theorem getD_set_ne {α : Type} {l : List α} {i j : Nat} (h : i ≠ j) (v d : α) :
    (l.set j v).getD i d = l.getD i d := by
  simp [List.getD, List.getElem?_set_ne (Ne.symm h)]

theorem set_getD_self {α : Type} : ∀ (l : List α) (j : Nat) (d : α),
    l.set j (l.getD j d) = l
  | [], _, _ => by simp
  | _ :: _, 0, _ => by simp [List.getD]
  | a :: l, j + 1, d => by simpa [List.getD] using set_getD_self l j d

/-! ### The reference-count state invariant (spec §8, invariants 1-3) -/

/-- The number of counters covered by reference block `j`: block `j` covers
indices `[j * COUNTS_PER_BLOCK, min ((j+1) * COUNTS_PER_BLOCK) block_count)`
(spec §4.1); the last block may be a runt. -/
def block_range_len (g : geometry) (rc : ref_counts) (j : Nat) : Nat :=
  minBlock ((j + 1) * COUNTS_PER_BLOCK g) rc.block_count - j * COUNTS_PER_BLOCK g

/-- The structural well-formedness and counting invariants of a `ref_counts`
state: the counter list covers `block_count` bytes (each a byte value), the
block vector covers the counters (with the last block a runt),
`free_blocks` counts the `EMPTY` counters, each block's `allocated_count`
counts its non-`EMPTY` counters, and the search cursor points into the block
vector with its window inside the slab. -/
structure ref_counts_invariant (g : geometry) (rc : ref_counts) : Prop where
  bc_pos : 0 < rc.block_count
  bc_lt : rc.block_count < W64
  cpb_pos : 0 < COUNTS_PER_BLOCK g
  counters_len : rc.counters.length = rc.block_count
  counters_byte : ∀ i, nth rc.counters i < 256
  blocks_cover : rc.block_count ≤ rc.blocks.length * COUNTS_PER_BLOCK g
  blocks_tight : (rc.blocks.length - 1) * COUNTS_PER_BLOCK g < rc.block_count
  free_eq : rc.free_blocks = count_in_range rc.counters (fun c => c == 0) 0 rc.block_count
  alloc_eq : ∀ j, j < rc.blocks.length →
    (rc.blocks.getD j default).allocated_count
      = count_in_range rc.counters (fun c => c != 0) (j * COUNTS_PER_BLOCK g)
          (block_range_len g rc j)
  cursor_block_lt : rc.cursor_block < rc.blocks.length
  cursor_end_eq : rc.cursor_end_index
      = minBlock ((rc.cursor_block + 1) * COUNTS_PER_BLOCK g) rc.block_count
  cursor_index_le : rc.cursor_index ≤ rc.cursor_end_index

/-- An in-range slab block number lies in the counter range of its own
reference block. -/
theorem sbn_in_own_block {g : geometry} {rc : ref_counts} {sbn : Nat}
    (hcpb : 0 < COUNTS_PER_BLOCK g) (hsbn : sbn < rc.block_count) :
    sbn / COUNTS_PER_BLOCK g * COUNTS_PER_BLOCK g ≤ sbn ∧
      sbn < sbn / COUNTS_PER_BLOCK g * COUNTS_PER_BLOCK g
        + block_range_len g rc (sbn / COUNTS_PER_BLOCK g) := by
  have h1 := Nat.div_add_mod sbn (COUNTS_PER_BLOCK g)
  have h1' : sbn / COUNTS_PER_BLOCK g * COUNTS_PER_BLOCK g
      = COUNTS_PER_BLOCK g * (sbn / COUNTS_PER_BLOCK g) := Nat.mul_comm _ _
  have h2 := Nat.mod_lt sbn hcpb
  constructor
  · omega
  · unfold block_range_len minBlock
    rw [Nat.add_mul, one_mul, Nat.min_def]
    split <;> omega

/-- An in-range slab block number indexes a block inside the block vector. -/
theorem sbn_block_lt {g : geometry} {rc : ref_counts} {sbn : Nat}
    (hcpb : 0 < COUNTS_PER_BLOCK g) (hcover : rc.block_count ≤ rc.blocks.length * COUNTS_PER_BLOCK g)
    (hsbn : sbn < rc.block_count) :
    sbn / COUNTS_PER_BLOCK g < rc.blocks.length :=
  (Nat.div_lt_iff_lt_mul hcpb).mpr (lt_of_lt_of_le hsbn hcover)

/-- A slab block number outside reference block `j` lies outside block `j`'s
counter range. -/
theorem sbn_outside_other_block {g : geometry} (rc : ref_counts) {sbn j : Nat}
    (hcpb : 0 < COUNTS_PER_BLOCK g) (hne : sbn / COUNTS_PER_BLOCK g ≠ j) :
    sbn < j * COUNTS_PER_BLOCK g ∨
      j * COUNTS_PER_BLOCK g + block_range_len g rc j ≤ sbn := by
  have h1 := Nat.div_add_mod sbn (COUNTS_PER_BLOCK g)
  have h1' : sbn / COUNTS_PER_BLOCK g * COUNTS_PER_BLOCK g
      = COUNTS_PER_BLOCK g * (sbn / COUNTS_PER_BLOCK g) := Nat.mul_comm _ _
  have h2 := Nat.mod_lt sbn hcpb
  by_cases hlt : sbn < j * COUNTS_PER_BLOCK g
  · exact Or.inl hlt
  · right
    unfold block_range_len minBlock
    have hj : j < sbn / COUNTS_PER_BLOCK g ∨ sbn / COUNTS_PER_BLOCK g < j := hne.symm.lt_or_lt
    rcases hj with hj | hj
    · -- j < sbn / cpb: (j+1) * cpb ≤ (sbn/cpb) * cpb ≤ sbn
      have h3 : (j + 1) * COUNTS_PER_BLOCK g ≤ sbn / COUNTS_PER_BLOCK g * COUNTS_PER_BLOCK g :=
        Nat.mul_le_mul_right _ hj
      rw [Nat.add_mul, one_mul] at h3 ⊢
      rw [Nat.min_def]
      split <;> omega
    · -- sbn/cpb < j: sbn < (sbn/cpb + 1) * cpb ≤ j * cpb, contradicting hlt
      exfalso
      have h3 : (sbn / COUNTS_PER_BLOCK g + 1) * COUNTS_PER_BLOCK g ≤ j * COUNTS_PER_BLOCK g :=
        Nat.mul_le_mul_right _ hj
      rw [Nat.add_mul, one_mul] at h3
      omega

/-- Invariant congruence: a state with the same counting data and cursor
satisfies the invariant. -/
theorem invariant_congr {g : geometry} {rc : ref_counts} (h : ref_counts_invariant g rc)
    (rc' : ref_counts)
    (hbc : rc'.block_count = rc.block_count) (hc : rc'.counters = rc.counters)
    (hf : rc'.free_blocks = rc.free_blocks) (hlen : rc'.blocks.length = rc.blocks.length)
    (halloc : ∀ i, i < rc'.blocks.length →
      (rc'.blocks.getD i default).allocated_count = (rc.blocks.getD i default).allocated_count)
    (hcb : rc'.cursor_block = rc.cursor_block) (hci : rc'.cursor_index = rc.cursor_index)
    (hce : rc'.cursor_end_index = rc.cursor_end_index) : ref_counts_invariant g rc' := by
  refine ⟨hbc ▸ h.bc_pos, hbc ▸ h.bc_lt, h.cpb_pos, by rw [hc, hbc]; exact h.counters_len,
    by rw [hc]; exact h.counters_byte, ?_, ?_, ?_, ?_, ?_, ?_, ?_⟩
  · rw [hbc, hlen]; exact h.blocks_cover
  · rw [hbc, hlen]; exact h.blocks_tight
  · rw [hf, hc, hbc]; exact h.free_eq
  · intro j hj
    rw [halloc j hj, hc]
    have : block_range_len g rc' j = block_range_len g rc j := by
      unfold block_range_len; rw [hbc]
    rw [this]
    exact h.alloc_eq j (hlen ▸ hj)
  · rw [hcb, hlen]; exact h.cursor_block_lt
  · rw [hce, hcb, hbc]; exact h.cursor_end_eq
  · rw [hci, hce]; exact h.cursor_index_le

theorem block_range_len_le (g : geometry) (rc : ref_counts) (j : Nat) :
    block_range_len g rc j ≤ rc.block_count := by
  unfold block_range_len minBlock
  rw [Nat.min_def]
  split <;> omega

theorem block_range_len_congr {g : geometry} {rc rc' : ref_counts}
    (h : rc'.block_count = rc.block_count) (j : Nat) :
    block_range_len g rc' j = block_range_len g rc j := by
  unfold block_range_len
  rw [h]

theorem invariant_free_le {g : geometry} {rc : ref_counts}
    (h : ref_counts_invariant g rc) : rc.free_blocks ≤ rc.block_count := by
  rw [h.free_eq]
  exact count_in_range_le _ _ _ _

theorem invariant_alloc_le {g : geometry} {rc : ref_counts}
    (h : ref_counts_invariant g rc) {j : Nat} (hj : j < rc.blocks.length) :
    (rc.blocks.getD j default).allocated_count ≤ block_range_len g rc j := by
  rw [h.alloc_eq j hj]
  exact count_in_range_le _ _ _ _
/-- Committing an update that turns an `EMPTY` counter into a non-`EMPTY`
one, incrementing the block's allocation count and decrementing the free
count, preserves the invariant. -/
theorem invariant_commit_alloc {g : geometry} {rc : ref_counts}
    (h : ref_counts_invariant g rc) {sbn : Nat} {out : update_outcome}
    (hsbn : sbn < rc.block_count)
    (h0 : nth rc.counters sbn = 0) (hv : out.counter ≠ 0) (hv8 : out.counter < 256)
    (ha : out.allocated_count
      = inc64 ((rc.blocks.getD (sbn / COUNTS_PER_BLOCK g) default).allocated_count))
    (hf : out.free_blocks = dec64 rc.free_blocks) :
    ref_counts_invariant g (commit_outcome rc (sbn / COUNTS_PER_BLOCK g) sbn out) := by
  have hlen : sbn < rc.counters.length := by rw [h.counters_len]; exact hsbn
  have hjlt : sbn / COUNTS_PER_BLOCK g < rc.blocks.length :=
    sbn_block_lt h.cpb_pos h.blocks_cover hsbn
  have hown := @sbn_in_own_block g rc sbn h.cpb_pos hsbn
  have hfeq := h.free_eq
  have haeq := h.alloc_eq _ hjlt
  -- the count of EMPTY counters drops by one
  have hfree : count_in_range (rc.counters.set sbn out.counter) (fun c => c == 0) 0
      rc.block_count + 1 = count_in_range rc.counters (fun c => c == 0) 0 rc.block_count :=
    count_in_range_set_true_false _ hlen (Nat.zero_le _) (by omega)
      (by simp [h0]) (by simp [hv])
  -- the count of non-EMPTY counters in the containing block rises by one
  have halloc : count_in_range (rc.counters.set sbn out.counter) (fun c => c != 0)
      (sbn / COUNTS_PER_BLOCK g * COUNTS_PER_BLOCK g)
      (block_range_len g rc (sbn / COUNTS_PER_BLOCK g))
      = count_in_range rc.counters (fun c => c != 0)
        (sbn / COUNTS_PER_BLOCK g * COUNTS_PER_BLOCK g)
        (block_range_len g rc (sbn / COUNTS_PER_BLOCK g)) + 1 :=
    count_in_range_set_false_true _ hlen hown.1 hown.2 (by simp [h0]) (by simp [hv])
  have hcnt_le := count_in_range_le (rc.counters.set sbn out.counter) (fun c => c != 0)
    (block_range_len g rc (sbn / COUNTS_PER_BLOCK g))
    (sbn / COUNTS_PER_BLOCK g * COUNTS_PER_BLOCK g)
  have hrange_le := block_range_len_le g rc (sbn / COUNTS_PER_BLOCK g)
  have hfree_pos : 1 ≤ count_in_range rc.counters (fun c => c == 0) 0 rc.block_count :=
    count_in_range_pos _ _ rc.block_count 0 sbn (Nat.zero_le _) (by omega) (by simp [h0])
  have hfc_le := count_in_range_le rc.counters (fun c => c == 0) rc.block_count 0
  have hbc_lt := h.bc_lt
  have hd : dec64 rc.free_blocks = rc.free_blocks - 1 :=
    dec64_eq_pred (by omega) (by omega)
  have hi1 : inc64 ((rc.blocks.getD (sbn / COUNTS_PER_BLOCK g) default).allocated_count)
      = (rc.blocks.getD (sbn / COUNTS_PER_BLOCK g) default).allocated_count + 1 :=
    inc64_eq_succ (by omega)
  refine ⟨h.bc_pos, h.bc_lt, h.cpb_pos, ?_, ?_, ?_, ?_, ?_, ?_, ?_, ?_, ?_⟩
  · simp [commit_outcome, h.counters_len]
  · intro i
    simp only [commit_outcome]
    by_cases hi : i = sbn
    · subst hi; rw [nth_set_self hlen]; exact hv8
    · rw [nth_set_ne hi]; exact h.counters_byte i
  · simpa [commit_outcome] using h.blocks_cover
  · simpa [commit_outcome] using h.blocks_tight
  · simp only [commit_outcome]
    rw [hf, hd]
    omega
  · intro j hj
    have hbrc : block_range_len g (commit_outcome rc (sbn / COUNTS_PER_BLOCK g) sbn out) j
        = block_range_len g rc j := block_range_len_congr rfl j
    rw [hbrc]
    simp only [commit_outcome, List.length_set] at hj ⊢
    by_cases hij : j = sbn / COUNTS_PER_BLOCK g
    · subst hij
      rw [getD_set_self hjlt]
      simp only
      rw [ha, hi1]
      omega
    · rw [getD_set_ne hij, h.alloc_eq j hj]
      exact (count_in_range_set_outside _ out.counter
        (sbn_outside_other_block rc h.cpb_pos (fun he => hij he.symm))).symm
  · simpa [commit_outcome] using h.cursor_block_lt
  · simpa [commit_outcome] using h.cursor_end_eq
  · simpa [commit_outcome] using h.cursor_index_le

/-- Committing an update that turns a non-`EMPTY` counter into `EMPTY`,
decrementing the block's allocation count and incrementing the free count,
preserves the invariant. -/
theorem invariant_commit_dealloc {g : geometry} {rc : ref_counts}
    (h : ref_counts_invariant g rc) {sbn : Nat} {out : update_outcome}
    (hsbn : sbn < rc.block_count)
    (h0 : nth rc.counters sbn ≠ 0) (hv : out.counter = 0)
    (ha : out.allocated_count
      = dec64 ((rc.blocks.getD (sbn / COUNTS_PER_BLOCK g) default).allocated_count))
    (hf : out.free_blocks = inc64 rc.free_blocks) :
    ref_counts_invariant g (commit_outcome rc (sbn / COUNTS_PER_BLOCK g) sbn out) := by
  have hlen : sbn < rc.counters.length := by rw [h.counters_len]; exact hsbn
  have hjlt : sbn / COUNTS_PER_BLOCK g < rc.blocks.length :=
    sbn_block_lt h.cpb_pos h.blocks_cover hsbn
  have hown := @sbn_in_own_block g rc sbn h.cpb_pos hsbn
  have hfeq := h.free_eq
  have haeq := h.alloc_eq _ hjlt
  -- the count of EMPTY counters rises by one
  have hfree : count_in_range (rc.counters.set sbn out.counter) (fun c => c == 0) 0
      rc.block_count = count_in_range rc.counters (fun c => c == 0) 0 rc.block_count + 1 :=
    count_in_range_set_false_true _ hlen (Nat.zero_le _) (by omega)
      (by simp [h0]) (by simp [hv])
  -- the count of non-EMPTY counters in the containing block drops by one
  have halloc : count_in_range (rc.counters.set sbn out.counter) (fun c => c != 0)
      (sbn / COUNTS_PER_BLOCK g * COUNTS_PER_BLOCK g)
      (block_range_len g rc (sbn / COUNTS_PER_BLOCK g)) + 1
      = count_in_range rc.counters (fun c => c != 0)
        (sbn / COUNTS_PER_BLOCK g * COUNTS_PER_BLOCK g)
        (block_range_len g rc (sbn / COUNTS_PER_BLOCK g)) :=
    count_in_range_set_true_false _ hlen hown.1 hown.2 (by simp [h0]) (by simp [hv])
  have hrange_le := block_range_len_le g rc (sbn / COUNTS_PER_BLOCK g)
  have hfc_le := count_in_range_le (rc.counters.set sbn out.counter) (fun c => c == 0)
    rc.block_count 0
  have hbc_lt := h.bc_lt
  have hcl : (rc.counters.set sbn out.counter).length = rc.counters.length :=
    List.length_set _ _ _
  have hi1 : inc64 rc.free_blocks = rc.free_blocks + 1 := by
    refine inc64_eq_succ ?_
    have := count_in_range_le rc.counters (fun c => c == 0) rc.block_count 0
    omega
  have halloc_pos : 1 ≤ count_in_range rc.counters (fun c => c != 0)
      (sbn / COUNTS_PER_BLOCK g * COUNTS_PER_BLOCK g)
      (block_range_len g rc (sbn / COUNTS_PER_BLOCK g)) :=
    count_in_range_pos _ _ _ _ sbn hown.1 hown.2 (by simp [h0])
  have halloc_le := count_in_range_le rc.counters (fun c => c != 0)
    (block_range_len g rc (sbn / COUNTS_PER_BLOCK g))
    (sbn / COUNTS_PER_BLOCK g * COUNTS_PER_BLOCK g)
  have hdc : dec64 ((rc.blocks.getD (sbn / COUNTS_PER_BLOCK g) default).allocated_count)
      = (rc.blocks.getD (sbn / COUNTS_PER_BLOCK g) default).allocated_count - 1 :=
    dec64_eq_pred (by omega) (by omega)
  refine ⟨h.bc_pos, h.bc_lt, h.cpb_pos, ?_, ?_, ?_, ?_, ?_, ?_, ?_, ?_, ?_⟩
  · simp [commit_outcome, h.counters_len]
  · intro i
    simp only [commit_outcome]
    by_cases hi : i = sbn
    · subst hi; rw [nth_set_self hlen, hv]; omega
    · rw [nth_set_ne hi]; exact h.counters_byte i
  · simpa [commit_outcome] using h.blocks_cover
  · simpa [commit_outcome] using h.blocks_tight
  · simp only [commit_outcome]
    rw [hf, hi1]
    omega
  · intro j hj
    have hbrc : block_range_len g (commit_outcome rc (sbn / COUNTS_PER_BLOCK g) sbn out) j
        = block_range_len g rc j := block_range_len_congr rfl j
    rw [hbrc]
    simp only [commit_outcome, List.length_set] at hj ⊢
    by_cases hij : j = sbn / COUNTS_PER_BLOCK g
    · subst hij
      rw [getD_set_self hjlt]
      simp only
      rw [ha, hdc]
      omega
    · rw [getD_set_ne hij, h.alloc_eq j hj]
      exact (count_in_range_set_outside _ out.counter
        (sbn_outside_other_block rc h.cpb_pos (fun he => hij he.symm))).symm
  · simpa [commit_outcome] using h.cursor_block_lt
  · simpa [commit_outcome] using h.cursor_end_eq
  · simpa [commit_outcome] using h.cursor_index_le

/-- Committing an update that keeps the `EMPTY`-ness of the counter and the
allocation and free counts unchanged preserves the invariant. -/
theorem invariant_commit_same {g : geometry} {rc : ref_counts}
    (h : ref_counts_invariant g rc) {sbn : Nat} {out : update_outcome}
    (hsbn : sbn < rc.block_count)
    (hsame : (out.counter == 0) = (nth rc.counters sbn == 0)) (hv8 : out.counter < 256)
    (ha : out.allocated_count
      = (rc.blocks.getD (sbn / COUNTS_PER_BLOCK g) default).allocated_count)
    (hf : out.free_blocks = rc.free_blocks) :
    ref_counts_invariant g (commit_outcome rc (sbn / COUNTS_PER_BLOCK g) sbn out) := by
  have hlen : sbn < rc.counters.length := by rw [h.counters_len]; exact hsbn
  have hjlt : sbn / COUNTS_PER_BLOCK g < rc.blocks.length :=
    sbn_block_lt h.cpb_pos h.blocks_cover hsbn
  have hown := @sbn_in_own_block g rc sbn h.cpb_pos hsbn
  have hfree : count_in_range (rc.counters.set sbn out.counter) (fun c => c == 0) 0
      rc.block_count = count_in_range rc.counters (fun c => c == 0) 0 rc.block_count :=
    count_in_range_set_same _ hlen (Nat.zero_le _) (by omega) hsame
  have hsame' : (out.counter != 0) = (nth rc.counters sbn != 0) := by
    simp only [bne, hsame]
  have halloc : count_in_range (rc.counters.set sbn out.counter) (fun c => c != 0)
      (sbn / COUNTS_PER_BLOCK g * COUNTS_PER_BLOCK g)
      (block_range_len g rc (sbn / COUNTS_PER_BLOCK g))
      = count_in_range rc.counters (fun c => c != 0)
        (sbn / COUNTS_PER_BLOCK g * COUNTS_PER_BLOCK g)
        (block_range_len g rc (sbn / COUNTS_PER_BLOCK g)) :=
    count_in_range_set_same _ hlen hown.1 hown.2 hsame'
  refine ⟨h.bc_pos, h.bc_lt, h.cpb_pos, ?_, ?_, ?_, ?_, ?_, ?_, ?_, ?_, ?_⟩
  · simp [commit_outcome, h.counters_len]
  · intro i
    simp only [commit_outcome]
    by_cases hi : i = sbn
    · subst hi; rw [nth_set_self hlen]; exact hv8
    · rw [nth_set_ne hi]; exact h.counters_byte i
  · simpa [commit_outcome] using h.blocks_cover
  · simpa [commit_outcome] using h.blocks_tight
  · simp only [commit_outcome]
    rw [hf, h.free_eq, hfree]
  · intro j hj
    have hbrc : block_range_len g (commit_outcome rc (sbn / COUNTS_PER_BLOCK g) sbn out) j
        = block_range_len g rc j := block_range_len_congr rfl j
    rw [hbrc]
    simp only [commit_outcome, List.length_set] at hj ⊢
    by_cases hij : j = sbn / COUNTS_PER_BLOCK g
    · subst hij
      rw [getD_set_self hjlt]
      simp only
      rw [ha, h.alloc_eq _ hjlt, halloc]
    · rw [getD_set_ne hij, h.alloc_eq j hj]
      exact (count_in_range_set_outside _ out.counter
        (sbn_outside_other_block rc h.cpb_pos (fun he => hij he.symm))).symm
  · simpa [commit_outcome] using h.cursor_block_lt
  · simpa [commit_outcome] using h.cursor_end_eq
  · simpa [commit_outcome] using h.cursor_index_le
/-! ### Explicit case equations for `update_reference_count` -/

theorem slab_block_number_ok {rc : ref_counts} {pbn sbn : Nat}
    (h : slab_block_number_from_pbn rc pbn = .ok sbn) :
    sbn < rc.block_count ∧ sbn = pbn - rc.slab_start ∧ rc.slab_start ≤ pbn := by
  unfold slab_block_number_from_pbn at h
  split at h
  · cases h
  · split at h
    · cases h
      refine ⟨by assumption, rfl, by omega⟩
    · cases h

theorem set_beyond {α : Type} : ∀ (l : List α) (j : Nat) (v : α), l.length ≤ j → l.set j v = l
  | [], _, _, _ => rfl
  | _ :: _, 0, _, h => by simp at h
  | a :: l, j + 1, v, h => by
    simp only [List.set]
    rw [set_beyond l j v (by simpa using h)]

section UpdateEquations

variable (g : geometry) (rc : ref_counts) (block_index sbn : Nat)
  (pt : Option journal_point) (p : Nat) (lk : Bool) (nrm : Bool)

theorem update_eq_inc_free (h : nth rc.counters sbn = 0) :
    update_reference_count g rc block_index sbn pt ⟨.DATA_INCREMENT, p, lk⟩ nrm
      = (advance_journal_point (commit_outcome rc block_index sbn
          { counter := 1
            allocated_count := inc64 (rc.blocks.getD block_index default).allocated_count
            free_blocks := dec64 rc.free_blocks
            free_status_changed := true
            unassigned := lk }) pt,
         .ok { free_status_changed := true, unassigned := lk }) := by
  simp [update_reference_count, reference_count_to_status, h, EMPTY_REFERENCE_COUNT,
    increment_for_data]

theorem update_eq_inc_prov (h : nth rc.counters sbn = 255) :
    update_reference_count g rc block_index sbn pt ⟨.DATA_INCREMENT, p, lk⟩ nrm
      = (advance_journal_point (commit_outcome rc block_index sbn
          { counter := 1
            allocated_count := (rc.blocks.getD block_index default).allocated_count
            free_blocks := rc.free_blocks
            free_status_changed := false
            unassigned := lk }) pt,
         .ok { free_status_changed := false, unassigned := lk }) := by
  simp [update_reference_count, reference_count_to_status, h, EMPTY_REFERENCE_COUNT,
    PROVISIONAL_REFERENCE_COUNT, increment_for_data]

theorem update_eq_inc_other (h0 : nth rc.counters sbn ≠ 0) (h255 : nth rc.counters sbn ≠ 255)
    (hlt : nth rc.counters sbn < 254) :
    update_reference_count g rc block_index sbn pt ⟨.DATA_INCREMENT, p, lk⟩ nrm
      = (advance_journal_point (commit_outcome rc block_index sbn
          { counter := inc8 (nth rc.counters sbn)
            allocated_count := (rc.blocks.getD block_index default).allocated_count
            free_blocks := rc.free_blocks
            free_status_changed := false
            unassigned := lk }) pt,
         .ok { free_status_changed := false, unassigned := lk }) := by
  by_cases h1 : nth rc.counters sbn = 1 <;>
    simp [update_reference_count, reference_count_to_status, h0, h255, h1,
      EMPTY_REFERENCE_COUNT, PROVISIONAL_REFERENCE_COUNT, MAXIMUM_REFERENCE_COUNT,
      increment_for_data, Nat.not_le.mpr hlt]

theorem update_eq_inc_max (h0 : nth rc.counters sbn ≠ 0) (h255 : nth rc.counters sbn ≠ 255)
    (hge : 254 ≤ nth rc.counters sbn) :
    update_reference_count g rc block_index sbn pt ⟨.DATA_INCREMENT, p, lk⟩ nrm
      = (rc, .error .VDO_REF_COUNT_INVALID) := by
  by_cases h1 : nth rc.counters sbn = 1
  · omega
  · simp [update_reference_count, reference_count_to_status, h0, h255, h1,
      EMPTY_REFERENCE_COUNT, PROVISIONAL_REFERENCE_COUNT, MAXIMUM_REFERENCE_COUNT,
      increment_for_data, hge]

theorem update_eq_dec_free (h : nth rc.counters sbn = 0) :
    update_reference_count g rc block_index sbn pt ⟨.DATA_DECREMENT, p, lk⟩ nrm
      = (rc, .error .VDO_REF_COUNT_INVALID) := by
  simp [update_reference_count, reference_count_to_status, h, EMPTY_REFERENCE_COUNT,
    decrement_for_data]

theorem update_eq_dec_prov_lock (h : nth rc.counters sbn = 255) (hlk : lk = true) :
    update_reference_count g rc block_index sbn pt ⟨.DATA_DECREMENT, p, lk⟩ nrm
      = (commit_outcome rc block_index sbn
          { counter := 255
            allocated_count := (rc.blocks.getD block_index default).allocated_count
            free_blocks := rc.free_blocks
            free_status_changed := false
            assigned := true },
         .ok { free_status_changed := false, provisional_decrement := true,
               assigned := true }) := by
  simp [update_reference_count, reference_count_to_status, h, hlk, EMPTY_REFERENCE_COUNT,
    PROVISIONAL_REFERENCE_COUNT, decrement_for_data]

theorem update_eq_dec_prov_nolock (h : nth rc.counters sbn = 255) (hlk : lk = false) :
    update_reference_count g rc block_index sbn pt ⟨.DATA_DECREMENT, p, lk⟩ nrm
      = (commit_outcome rc block_index sbn
          { counter := 0
            allocated_count := dec64 (rc.blocks.getD block_index default).allocated_count
            free_blocks := inc64 rc.free_blocks
            free_status_changed := true },
         .ok { free_status_changed := true, provisional_decrement := true }) := by
  simp [update_reference_count, reference_count_to_status, h, hlk, EMPTY_REFERENCE_COUNT,
    PROVISIONAL_REFERENCE_COUNT, decrement_for_data]

theorem update_eq_dec_single_lock (h : nth rc.counters sbn = 1) (hlk : lk = true) :
    update_reference_count g rc block_index sbn pt ⟨.DATA_DECREMENT, p, lk⟩ nrm
      = (advance_journal_point (commit_outcome rc block_index sbn
          { counter := 255
            allocated_count := (rc.blocks.getD block_index default).allocated_count
            free_blocks := rc.free_blocks
            free_status_changed := false
            assigned := true }) pt,
         .ok { free_status_changed := false, assigned := true }) := by
  simp [update_reference_count, reference_count_to_status, h, hlk, EMPTY_REFERENCE_COUNT,
    PROVISIONAL_REFERENCE_COUNT, decrement_for_data]

theorem update_eq_dec_single_nolock (h : nth rc.counters sbn = 1) (hlk : lk = false) :
    update_reference_count g rc block_index sbn pt ⟨.DATA_DECREMENT, p, lk⟩ nrm
      = (advance_journal_point (commit_outcome rc block_index sbn
          { counter := 0
            allocated_count := dec64 (rc.blocks.getD block_index default).allocated_count
            free_blocks := inc64 rc.free_blocks
            free_status_changed := true }) pt,
         .ok { free_status_changed := true }) := by
  simp [update_reference_count, reference_count_to_status, h, hlk, EMPTY_REFERENCE_COUNT,
    PROVISIONAL_REFERENCE_COUNT, decrement_for_data]

theorem update_eq_dec_shared (h0 : nth rc.counters sbn ≠ 0) (h1 : nth rc.counters sbn ≠ 1)
    (h255 : nth rc.counters sbn ≠ 255) :
    update_reference_count g rc block_index sbn pt ⟨.DATA_DECREMENT, p, lk⟩ nrm
      = (advance_journal_point (commit_outcome rc block_index sbn
          { counter := dec8 (nth rc.counters sbn)
            allocated_count := (rc.blocks.getD block_index default).allocated_count
            free_blocks := rc.free_blocks
            free_status_changed := false }) pt,
         .ok { free_status_changed := false }) := by
  simp [update_reference_count, reference_count_to_status, h0, h1, h255,
    EMPTY_REFERENCE_COUNT, PROVISIONAL_REFERENCE_COUNT, decrement_for_data]

theorem update_eq_bm_free_normal (h : nth rc.counters sbn = 0) (hn : nrm = true) :
    update_reference_count g rc block_index sbn pt ⟨.BLOCK_MAP_INCREMENT, p, lk⟩ nrm
      = (rc, .error .VDO_REF_COUNT_INVALID) := by
  simp [update_reference_count, reference_count_to_status, h, hn, EMPTY_REFERENCE_COUNT,
    increment_for_block_map]

theorem update_eq_bm_free_replay (h : nth rc.counters sbn = 0) (hn : nrm = false) :
    update_reference_count g rc block_index sbn pt ⟨.BLOCK_MAP_INCREMENT, p, lk⟩ nrm
      = (advance_journal_point (commit_outcome rc block_index sbn
          { counter := 254
            allocated_count := inc64 (rc.blocks.getD block_index default).allocated_count
            free_blocks := dec64 rc.free_blocks
            free_status_changed := true }) pt,
         .ok { free_status_changed := true }) := by
  simp [update_reference_count, reference_count_to_status, h, hn, EMPTY_REFERENCE_COUNT,
    MAXIMUM_REFERENCE_COUNT, increment_for_block_map]

theorem update_eq_bm_prov_normal (h : nth rc.counters sbn = 255) (hn : nrm = true) :
    update_reference_count g rc block_index sbn pt ⟨.BLOCK_MAP_INCREMENT, p, lk⟩ nrm
      = (advance_journal_point (commit_outcome rc block_index sbn
          { counter := 254
            allocated_count := (rc.blocks.getD block_index default).allocated_count
            free_blocks := rc.free_blocks
            free_status_changed := false
            unassigned := lk }) pt,
         .ok { free_status_changed := false, unassigned := lk }) := by
  simp [update_reference_count, reference_count_to_status, h, hn, EMPTY_REFERENCE_COUNT,
    PROVISIONAL_REFERENCE_COUNT, MAXIMUM_REFERENCE_COUNT, increment_for_block_map]

theorem update_eq_bm_prov_replay (h : nth rc.counters sbn = 255) (hn : nrm = false) :
    update_reference_count g rc block_index sbn pt ⟨.BLOCK_MAP_INCREMENT, p, lk⟩ nrm
      = (rc, .error .VDO_REF_COUNT_INVALID) := by
  simp [update_reference_count, reference_count_to_status, h, hn, EMPTY_REFERENCE_COUNT,
    PROVISIONAL_REFERENCE_COUNT, increment_for_block_map]

theorem update_eq_bm_other (h0 : nth rc.counters sbn ≠ 0) (h255 : nth rc.counters sbn ≠ 255) :
    update_reference_count g rc block_index sbn pt ⟨.BLOCK_MAP_INCREMENT, p, lk⟩ nrm
      = (rc, .error .VDO_REF_COUNT_INVALID) := by
  by_cases h1 : nth rc.counters sbn = 1 <;>
    simp [update_reference_count, reference_count_to_status, h0, h255, h1,
      EMPTY_REFERENCE_COUNT, PROVISIONAL_REFERENCE_COUNT, increment_for_block_map]

theorem update_eq_bm_dec :
    update_reference_count g rc block_index sbn pt ⟨.BLOCK_MAP_DECREMENT, p, lk⟩ nrm
      = ({ rc with read_only := true }, .error .VDO_NOT_IMPLEMENTED) := by
  simp [update_reference_count]

end UpdateEquations

/-! ### Invariant preservation through the operations -/

theorem inc8_lt (x : Nat) : inc8 x < 256 := Nat.mod_lt _ (by norm_num)

theorem dec8_lt (x : Nat) : dec8 x < 256 := Nat.mod_lt _ (by norm_num)

theorem getD_set_alloc (l : List reference_block) (j : Nat) (b : reference_block)
    (hb : b.allocated_count = (l.getD j default).allocated_count) (i : Nat) :
    ((l.set j b).getD i default).allocated_count = (l.getD i default).allocated_count := by
  by_cases hij : i = j
  · subst hij
    by_cases hj : i < l.length
    · rw [getD_set_self hj]; exact hb
    · rw [set_beyond l i b (by omega)]
  · rw [getD_set_ne hij]

theorem invariant_aux_set_block {g : geometry} {rc : ref_counts}
    (h : ref_counts_invariant g rc) (j : Nat) (b : reference_block)
    (hb : b.allocated_count = (rc.blocks.getD j default).allocated_count)
    (q : List Nat) (ro : Bool) :
    ref_counts_invariant g
      { rc with blocks := rc.blocks.set j b, dirty_queue := q, read_only := ro } :=
  invariant_congr h _ rfl rfl rfl (by simp) (fun i _ => getD_set_alloc rc.blocks j b hb i)
    rfl rfl rfl

theorem invariant_aux_q {g : geometry} {rc : ref_counts}
    (h : ref_counts_invariant g rc) (q : List Nat) (ro : Bool) :
    ref_counts_invariant g { rc with dirty_queue := q, read_only := ro } :=
  invariant_congr h _ rfl rfl rfl rfl (fun _ _ => rfl) rfl rfl rfl

theorem invariant_dirty_block {g : geometry} {rc : ref_counts}
    (h : ref_counts_invariant g rc) (j : Nat) :
    ref_counts_invariant g (dirty_block rc j) := by
  simp only [dirty_block]
  split
  · exact h
  · split
    · exact invariant_aux_set_block h j
        { rc.blocks.getD j default with is_dirty := true } rfl rc.dirty_queue rc.read_only
    · simp only [enqueue_dirty_block]
      split
      · exact invariant_aux_set_block h j
          { rc.blocks.getD j default with is_dirty := true } rfl rc.dirty_queue true
      · exact invariant_aux_set_block h j
          { rc.blocks.getD j default with is_dirty := true } rfl _ rc.read_only

theorem invariant_advance_journal {g : geometry} {rc : ref_counts}
    (h : ref_counts_invariant g rc) (pt : Option journal_point) :
    ref_counts_invariant g (advance_journal_point rc pt) := by
  unfold advance_journal_point
  split
  · exact invariant_congr h _ rfl rfl rfl rfl (fun _ _ => rfl) rfl rfl rfl
  · exact h

theorem invariant_update {g : geometry} {rc : ref_counts}
    (h : ref_counts_invariant g rc) {sbn : Nat} (hsbn : sbn < rc.block_count)
    (pt : Option journal_point) (op : reference_operation) (nrm : Bool) :
    ref_counts_invariant g
      (update_reference_count g rc (sbn / COUNTS_PER_BLOCK g) sbn pt op nrm).1 := by
  obtain ⟨ty, pv, lk⟩ := op
  have hbyte := h.counters_byte sbn
  cases ty with
  | DATA_INCREMENT =>
    by_cases h0 : nth rc.counters sbn = 0
    · rw [update_eq_inc_free g rc _ sbn pt pv lk nrm h0]
      apply invariant_advance_journal
      apply invariant_commit_alloc h hsbn h0
      · norm_num
      · norm_num
      · rfl
      · rfl
    · by_cases h255 : nth rc.counters sbn = 255
      · rw [update_eq_inc_prov g rc _ sbn pt pv lk nrm h255]
        apply invariant_advance_journal
        apply invariant_commit_same h hsbn
        · simp [h255]
        · norm_num
        · rfl
        · rfl
      · by_cases hlt : nth rc.counters sbn < 254
        · rw [update_eq_inc_other g rc _ sbn pt pv lk nrm h0 h255 hlt]
          apply invariant_advance_journal
          apply invariant_commit_same h hsbn
          · have hi8 : inc8 (nth rc.counters sbn) = nth rc.counters sbn + 1 :=
              inc8_eq_succ (by omega)
            simp [hi8, h0]
          · exact inc8_lt _
          · rfl
          · rfl
        · rw [update_eq_inc_max g rc _ sbn pt pv lk nrm h0 h255 (by omega)]
          exact h
  | DATA_DECREMENT =>
    by_cases h0 : nth rc.counters sbn = 0
    · rw [update_eq_dec_free g rc _ sbn pt pv lk nrm h0]
      exact h
    · by_cases h255 : nth rc.counters sbn = 255
      · cases lk with
        | true =>
          rw [update_eq_dec_prov_lock g rc _ sbn pt pv true nrm h255 rfl]
          apply invariant_commit_same h hsbn
          · simp [h255]
          · norm_num
          · rfl
          · rfl
        | false =>
          rw [update_eq_dec_prov_nolock g rc _ sbn pt pv false nrm h255 rfl]
          apply invariant_commit_dealloc h hsbn h0
          · rfl
          · rfl
          · rfl
      · by_cases h1 : nth rc.counters sbn = 1
        · cases lk with
          | true =>
            rw [update_eq_dec_single_lock g rc _ sbn pt pv true nrm h1 rfl]
            apply invariant_advance_journal
            apply invariant_commit_same h hsbn
            · simp [h1]
            · norm_num
            · rfl
            · rfl
          | false =>
            rw [update_eq_dec_single_nolock g rc _ sbn pt pv false nrm h1 rfl]
            apply invariant_advance_journal
            apply invariant_commit_dealloc h hsbn h0
            · rfl
            · rfl
            · rfl
        · rw [update_eq_dec_shared g rc _ sbn pt pv lk nrm h0 h1 h255]
          apply invariant_advance_journal
          apply invariant_commit_same h hsbn
          · have hd8 : dec8 (nth rc.counters sbn) = nth rc.counters sbn - 1 :=
              dec8_eq_pred (by omega) (by omega)
            have hne : nth rc.counters sbn - 1 ≠ 0 := by omega
            simp [hd8, hne, h0]
          · exact dec8_lt _
          · rfl
          · rfl
  | BLOCK_MAP_INCREMENT =>
    by_cases h0 : nth rc.counters sbn = 0
    · cases nrm with
      | true =>
        rw [update_eq_bm_free_normal g rc _ sbn pt pv lk true h0 rfl]
        exact h
      | false =>
        rw [update_eq_bm_free_replay g rc _ sbn pt pv lk false h0 rfl]
        apply invariant_advance_journal
        apply invariant_commit_alloc h hsbn h0
        · norm_num
        · norm_num
        · rfl
        · rfl
    · by_cases h255 : nth rc.counters sbn = 255
      · cases nrm with
        | true =>
          rw [update_eq_bm_prov_normal g rc _ sbn pt pv lk true h255 rfl]
          apply invariant_advance_journal
          apply invariant_commit_same h hsbn
          · simp [h255]
          · norm_num
          · rfl
          · rfl
        | false =>
          rw [update_eq_bm_prov_replay g rc _ sbn pt pv lk false h255 rfl]
          exact h
      · rw [update_eq_bm_other g rc _ sbn pt pv lk nrm h0 h255]
        exact h
  | BLOCK_MAP_DECREMENT =>
    rw [update_eq_bm_dec g rc _ sbn pt pv lk nrm]
    exact invariant_aux_q h rc.dirty_queue true

theorem invariant_adjust {g : geometry} {rc : ref_counts}
    (h : ref_counts_invariant g rc) (op : reference_operation)
    (pt : Option journal_point) :
    ref_counts_invariant g (adjust_reference_count g rc op pt).rc := by
  simp only [adjust_reference_count]
  split
  · exact h
  · split
    · exact h
    · rename_i sbn heq
      have hsbn := (slab_block_number_ok heq).1
      split
      · rename_i rc1 e hupd
        have h1 := invariant_update h hsbn pt op true
        rw [hupd] at h1
        exact h1
      · rename_i rc1 u hupd
        have h1 := invariant_update h hsbn pt op true
        rw [hupd] at h1
        have h2 : ref_counts_invariant g rc1 := h1
        split
        · exact h2
        · split
          · split
            · exact h2
            · exact h2
          · exact invariant_dirty_block
              (invariant_aux_set_block h2 (sbn / COUNTS_PER_BLOCK g)
                { rc1.blocks.getD (sbn / COUNTS_PER_BLOCK g) default with
                  slab_journal_lock :=
                    if is_valid_journal_point pt = true then
                      (pt.getD ⟨0, 0⟩).sequence_number
                    else 0 } rfl rc1.dirty_queue rc1.read_only)
              (sbn / COUNTS_PER_BLOCK g)

theorem invariant_rebuild {g : geometry} {rc : ref_counts}
    (h : ref_counts_invariant g rc) (pbn : Nat) (op : journal_operation) :
    ref_counts_invariant g (adjust_reference_count_for_rebuild g rc pbn op).1 := by
  simp only [adjust_reference_count_for_rebuild]
  split
  · exact h
  · rename_i sbn heq
    have hsbn := (slab_block_number_ok heq).1
    split
    · rename_i rc1 e hupd
      have h1 := invariant_update h hsbn none ⟨op, 0, false⟩ false
      rw [hupd] at h1
      exact h1
    · rename_i rc1 u hupd
      have h1 := invariant_update h hsbn none ⟨op, 0, false⟩ false
      rw [hupd] at h1
      exact invariant_dirty_block h1 _

theorem invariant_replay {g : geometry} {rc : ref_counts}
    (h : ref_counts_invariant g rc) (entry_point : journal_point)
    (entry : slab_journal_entry) (hsbn : entry.sbn < rc.block_count) :
    ref_counts_invariant g (replay_reference_count_change g rc entry_point entry).1 := by
  simp only [replay_reference_count_change]
  split
  · exact h
  · split
    · rename_i rc1 e hupd
      have h1 := invariant_update h hsbn (some entry_point) ⟨entry.operation, 0, false⟩ false
      rw [hupd] at h1
      exact h1
    · rename_i rc1 u hupd
      have h1 := invariant_update h hsbn (some entry_point) ⟨entry.operation, 0, false⟩ false
      rw [hupd] at h1
      exact invariant_dirty_block h1 _

theorem make_provisional_eq_commit (g : geometry) (rc : ref_counts) (sbn : Nat) :
    make_provisional_reference g rc sbn
      = commit_outcome rc (sbn / COUNTS_PER_BLOCK g) sbn
        { counter := PROVISIONAL_REFERENCE_COUNT
          allocated_count :=
            inc64 (rc.blocks.getD (sbn / COUNTS_PER_BLOCK g) default).allocated_count
          free_blocks := dec64 rc.free_blocks
          free_status_changed := false } := rfl

theorem invariant_make_provisional {g : geometry} {rc : ref_counts}
    (h : ref_counts_invariant g rc) {sbn : Nat} (hsbn : sbn < rc.block_count)
    (h0 : nth rc.counters sbn = 0) :
    ref_counts_invariant g (make_provisional_reference g rc sbn) := by
  rw [make_provisional_eq_commit]
  apply invariant_commit_alloc h hsbn h0
  · norm_num [PROVISIONAL_REFERENCE_COUNT]
  · norm_num [PROVISIONAL_REFERENCE_COUNT]
  · rfl
  · rfl

theorem invariant_provisionally {g : geometry} {rc : ref_counts}
    (h : ref_counts_invariant g rc) (pbn : Nat) (lock : Bool) :
    ref_counts_invariant g (provisionally_reference_block g rc pbn lock).1 := by
  simp only [provisionally_reference_block]
  split
  · exact h
  · split
    · exact h
    · rename_i sbn heq
      split
      · rename_i h0
        exact invariant_make_provisional h (slab_block_number_ok heq).1 h0
      · exact h

theorem nth_replicate : ∀ (n i : Nat), nth (List.replicate n 0) i = 0
  | 0, 0 => rfl
  | 0, _ + 1 => rfl
  | _ + 1, 0 => rfl
  | n + 1, i + 1 => nth_replicate n i

theorem foldl_clear_length (q : List Nat) : ∀ (bs : List reference_block),
    (q.foldl (fun (bs : List reference_block) (j : Nat) =>
      bs.set j { bs.getD j default with is_dirty := false }) bs).length = bs.length := by
  induction q with
  | nil => intro bs; rfl
  | cons j q ih =>
    intro bs
    simp only [List.foldl_cons]
    rw [ih]
    exact List.length_set _ _ _

theorem foldl_clear_alloc (q : List Nat) : ∀ (bs : List reference_block) (i : Nat),
    ((q.foldl (fun (bs : List reference_block) (j : Nat) =>
      bs.set j { bs.getD j default with is_dirty := false }) bs).getD i default).allocated_count
      = ((bs.getD i default)).allocated_count := by
  induction q with
  | nil => intro bs i; rfl
  | cons j q ih =>
    intro bs i
    simp only [List.foldl_cons]
    rw [ih]
    exact getD_set_alloc bs j { bs.getD j default with is_dirty := false } rfl i

theorem getD_map_allocated (l : List reference_block) (j : Nat) (hj : j < l.length) :
    ((l.map (fun (b : reference_block) => { b with allocated_count := 0 })).getD j
      default).allocated_count = 0 := by
  have hj' : j < (l.map (fun (b : reference_block) => { b with allocated_count := 0 })).length := by
    simpa using hj
  rw [List.getD_eq_getElem _ _ hj', List.getElem_map]

theorem invariant_reset {g : geometry} {rc : ref_counts}
    (h : ref_counts_invariant g rc) :
    ref_counts_invariant g (reset_reference_counts rc) := by
  have hlen : (reset_reference_counts rc).blocks.length = rc.blocks.length := by
    simp only [reset_reference_counts]
    rw [foldl_clear_length]
    simp
  refine ⟨h.bc_pos, h.bc_lt, h.cpb_pos, ?_, ?_, ?_, ?_, ?_, ?_, ?_, ?_, ?_⟩
  · simp [reset_reference_counts]
  · intro i
    simp only [reset_reference_counts]
    rw [nth_replicate]
    omega
  · rw [hlen]; exact h.blocks_cover
  · rw [hlen]; exact h.blocks_tight
  · show rc.block_count = _
    rw [count_in_range_all]
    · rfl
    · intro i _ _
      simp only [reset_reference_counts]
      rw [nth_replicate]
      rfl
  · intro j hj
    rw [hlen] at hj
    simp only [reset_reference_counts]
    rw [foldl_clear_alloc, getD_map_allocated _ _ hj]
    rw [count_in_range_none]
    intro i _ _
    rw [nth_replicate]
    rfl
  · show rc.cursor_block < _
    rw [hlen]; exact h.cursor_block_lt
  · exact h.cursor_end_eq
  · exact h.cursor_index_le

/-! ### The free-block search -/

theorem find_zero_byte_lt {c : List Nat} {s e : Nat}
    (h : find_zero_byte_in_word c s e < e) :
    nth c (find_zero_byte_in_word c s e) = 0 ∧ s ≤ find_zero_byte_in_word c s e := by
  unfold find_zero_byte_in_word at *
  cases hf : (List.range BYTES_PER_WORD).find? (fun offset => nth c (s + offset) == 0) with
  | none =>
    rw [hf] at h
    exact absurd h (lt_irrefl e)
  | some off =>
    have hp := List.find?_some hf
    refine ⟨?_, ?_⟩
    · show nth c (s + off) = 0
      simpa using hp
    · show s ≤ s + off
      omega

theorem find_free_block_loop_spec (c : List Nat) (e : Nat) :
    ∀ (fuel next i : Nat), e - next ≤ fuel → find_free_block_loop c e next = some i →
      next ≤ i ∧ i < e ∧ nth c i = 0 := by
  intro fuel
  induction fuel with
  | zero =>
    intro next i hle h
    rw [find_free_block_loop] at h
    rw [if_neg (by omega)] at h
    cases h
  | succ fuel ih =>
    intro next i hle h
    rw [find_free_block_loop] at h
    by_cases hlt : next < e
    · rw [if_pos hlt] at h
      by_cases hz : find_zero_byte_in_word c next e < e
      · rw [if_pos hz] at h
        cases h
        have hzb := find_zero_byte_lt hz
        exact ⟨hzb.2, hz, hzb.1⟩
      · rw [if_neg hz] at h
        have hB : BYTES_PER_WORD = 8 := rfl
        have hr := ih (next + BYTES_PER_WORD) i (by omega) h
        exact ⟨by omega, hr.2.1, hr.2.2⟩
    · rw [if_neg hlt] at h
      cases h

theorem find_free_block_spec {c : List Nat} {s e i : Nat}
    (h : find_free_block c s e = some i) : s ≤ i ∧ i < e ∧ nth c i = 0 := by
  unfold find_free_block at h
  by_cases hz : find_zero_byte_in_word c s e < e
  · rw [if_pos hz] at h
    cases h
    have hzb := find_zero_byte_lt hz
    exact ⟨hzb.2, hz, hzb.1⟩
  · rw [if_neg hz] at h
    have hB : BYTES_PER_WORD = 8 := rfl
    have hr := find_free_block_loop_spec c e e (s + BYTES_PER_WORD) i (by omega) h
    exact ⟨by omega, hr.2.1, hr.2.2⟩

theorem search_current_spec {g : geometry} {rc : ref_counts} {i : Nat}
    (h : search_current_reference_block g rc = some i) :
    rc.cursor_index ≤ i ∧ i < rc.cursor_end_index ∧ nth rc.counters i = 0 := by
  unfold search_current_reference_block at h
  split at h
  · exact find_free_block_spec h
  · cases h

/-- The fields of the state the search never modifies. -/
def cursor_only (a b : ref_counts) : Prop :=
  b.block_count = a.block_count ∧ b.counters = a.counters ∧ b.free_blocks = a.free_blocks ∧
  b.blocks = a.blocks ∧ b.slab_start = a.slab_start ∧ b.origin = a.origin ∧
  b.slab_open = a.slab_open ∧ b.slab_journal_point = a.slab_journal_point ∧
  b.dirty_queue = a.dirty_queue ∧ b.read_only = a.read_only

theorem cursor_only_refl (a : ref_counts) : cursor_only a a :=
  ⟨rfl, rfl, rfl, rfl, rfl, rfl, rfl, rfl, rfl, rfl⟩

theorem cursor_only_trans {a b c : ref_counts} (h1 : cursor_only a b)
    (h2 : cursor_only b c) : cursor_only a c := by
  obtain ⟨e1, e2, e3, e4, e5, e6, e7, e8, e9, e10⟩ := h1
  obtain ⟨f1, f2, f3, f4, f5, f6, f7, f8, f9, f10⟩ := h2
  exact ⟨f1.trans e1, f2.trans e2, f3.trans e3, f4.trans e4, f5.trans e5,
    f6.trans e6, f7.trans e7, f8.trans e8, f9.trans e9, f10.trans e10⟩

theorem cursor_only_reset (g : geometry) (rc : ref_counts) :
    cursor_only rc (reset_search_cursor g rc) := cursor_only_refl rc

theorem cursor_only_advance (g : geometry) (rc : ref_counts) :
    cursor_only rc (advance_search_cursor g rc).1 := by
  simp only [advance_search_cursor]
  split
  · exact ⟨rfl, rfl, rfl, rfl, rfl, rfl, rfl, rfl, rfl, rfl⟩
  · split
    · exact ⟨rfl, rfl, rfl, rfl, rfl, rfl, rfl, rfl, rfl, rfl⟩
    · exact ⟨rfl, rfl, rfl, rfl, rfl, rfl, rfl, rfl, rfl, rfl⟩

theorem blocks_length_pos {g : geometry} {rc : ref_counts}
    (h : ref_counts_invariant g rc) : 0 < rc.blocks.length := by
  rcases Nat.eq_zero_or_pos rc.blocks.length with h0 | h0
  · have := h.blocks_cover
    rw [h0] at this
    simp at this
    have := h.bc_pos
    omega
  · exact h0

theorem invariant_reset_cursor {g : geometry} {rc : ref_counts}
    (h : ref_counts_invariant g rc) :
    ref_counts_invariant g (reset_search_cursor g rc) := by
  refine ⟨h.bc_pos, h.bc_lt, h.cpb_pos, h.counters_len, h.counters_byte, h.blocks_cover,
    h.blocks_tight, h.free_eq, h.alloc_eq, ?_, ?_, ?_⟩
  · exact @blocks_length_pos g rc h
  · show minBlock (COUNTS_PER_BLOCK g) rc.block_count
      = minBlock ((0 + 1) * COUNTS_PER_BLOCK g) rc.block_count
    rw [Nat.zero_add, Nat.one_mul]
  · exact Nat.zero_le _

theorem invariant_advance_cursor {g : geometry} {rc : ref_counts}
    (h : ref_counts_invariant g rc) :
    ref_counts_invariant g (advance_search_cursor g rc).1 := by
  have hcb := h.cursor_block_lt
  have hcov := h.blocks_cover
  have htight := h.blocks_tight
  have hend := h.cursor_end_eq
  have hile := h.cursor_index_le
  simp only [advance_search_cursor]
  split
  · exact invariant_reset_cursor h
  · rename_i hne
    split
    · rename_i hlast
      refine ⟨h.bc_pos, h.bc_lt, h.cpb_pos, h.counters_len, h.counters_byte, h.blocks_cover,
        h.blocks_tight, h.free_eq, h.alloc_eq, ?_, ?_, ?_⟩
      · show rc.cursor_block + 1 < rc.blocks.length
        omega
      · show rc.block_count
          = minBlock ((rc.cursor_block + 1 + 1) * COUNTS_PER_BLOCK g) rc.block_count
        have hge : rc.block_count ≤ (rc.cursor_block + 1 + 1) * COUNTS_PER_BLOCK g := by
          have : rc.cursor_block + 1 + 1 = rc.blocks.length := by omega
          rw [this]
          exact hcov
        unfold minBlock
        rw [Nat.min_def]
        split <;> omega
      · show rc.cursor_end_index ≤ rc.block_count
        rw [hend]
        unfold minBlock
        rw [Nat.min_def]
        split <;> omega
    · rename_i hnotlast
      have hlt2 : rc.cursor_block + 1 + 1 ≤ rc.blocks.length - 1 := by omega
      have ht1 : (rc.cursor_block + 1 + 1) * COUNTS_PER_BLOCK g
          ≤ (rc.blocks.length - 1) * COUNTS_PER_BLOCK g :=
        Nat.mul_le_mul_right _ hlt2
      have ht2 : (rc.cursor_block + 1) * COUNTS_PER_BLOCK g
          ≤ (rc.cursor_block + 1 + 1) * COUNTS_PER_BLOCK g :=
        Nat.mul_le_mul_right _ (by omega)
      refine ⟨h.bc_pos, h.bc_lt, h.cpb_pos, h.counters_len, h.counters_byte, h.blocks_cover,
        h.blocks_tight, h.free_eq, h.alloc_eq, ?_, ?_, ?_⟩
      · show rc.cursor_block + 1 < rc.blocks.length
        omega
      · show rc.cursor_end_index + COUNTS_PER_BLOCK g
          = minBlock ((rc.cursor_block + 1 + 1) * COUNTS_PER_BLOCK g) rc.block_count
        have he1 : rc.cursor_end_index = (rc.cursor_block + 1) * COUNTS_PER_BLOCK g := by
          rw [hend]
          unfold minBlock
          rw [Nat.min_def]
          split <;> omega
        have hmul : (rc.cursor_block + 1 + 1) * COUNTS_PER_BLOCK g
            = (rc.cursor_block + 1) * COUNTS_PER_BLOCK g + COUNTS_PER_BLOCK g := by
          rw [Nat.add_mul, Nat.one_mul]
        unfold minBlock
        rw [Nat.min_def]
        split <;> omega
      · show rc.cursor_end_index ≤ rc.cursor_end_index + COUNTS_PER_BLOCK g
        omega

theorem advance_true_index {g : geometry} {rc : ref_counts}
    (h : (advance_search_cursor g rc).2 = true) :
    (advance_search_cursor g rc).1.cursor_index = rc.cursor_end_index := by
  simp only [advance_search_cursor] at h ⊢
  split at h
  · exact Bool.noConfusion h
  · rename_i hc
    rw [if_neg hc]
    split <;> rfl

theorem search_from_spec (g : geometry) :
    ∀ (fuel : Nat) {rc : ref_counts}, ref_counts_invariant g rc →
      ref_counts_invariant g (search_reference_blocks_from g fuel rc).1
      ∧ cursor_only rc (search_reference_blocks_from g fuel rc).1
      ∧ ∀ i, (search_reference_blocks_from g fuel rc).2 = some i →
          rc.cursor_index ≤ i
          ∧ i < (search_reference_blocks_from g fuel rc).1.cursor_end_index
          ∧ i < rc.block_count ∧ nth rc.counters i = 0 := by
  intro fuel
  induction fuel with
  | zero =>
    intro rc h
    exact ⟨h, cursor_only_refl rc, fun i hi => by cases hi⟩
  | succ fuel ih =>
    intro rc h
    simp only [search_reference_blocks_from]
    cases hcur : search_current_reference_block g rc with
    | some i0 =>
      refine ⟨h, cursor_only_refl rc, ?_⟩
      intro i hi
      cases hi
      have hs := search_current_spec hcur
      have hend := h.cursor_end_eq
      refine ⟨hs.1, hs.2.1, ?_, hs.2.2⟩
      have : rc.cursor_end_index ≤ rc.block_count := by
        rw [hend]; unfold minBlock; rw [Nat.min_def]; split <;> omega
      omega
    | none =>
      simp only
      cases hadv : (advance_search_cursor g rc).2 with
      | false =>
        simp only [hadv, Bool.false_eq_true, if_false]
        exact ⟨invariant_advance_cursor h, cursor_only_advance g rc, fun i hi => by cases hi⟩
      | true =>
        simp only [hadv, if_true]
        have hinv1 := @invariant_advance_cursor g rc h
        have hco1 := cursor_only_advance g rc
        obtain ⟨hi2, hc2, hs2⟩ := ih hinv1
        refine ⟨hi2, cursor_only_trans hco1 hc2, ?_⟩
        intro i hi
        obtain ⟨ha1, ha2, ha3, ha4⟩ := hs2 i hi
        have hidx := advance_true_index hadv
        have hile := h.cursor_index_le
        refine ⟨by omega, ha2, ?_, ?_⟩
        · rw [hco1.1] at ha3; exact ha3
        · rw [hco1.2.1] at ha4; exact ha4

theorem search_spec {g : geometry} {rc : ref_counts} (h : ref_counts_invariant g rc) :
    ref_counts_invariant g (search_reference_blocks g rc).1
    ∧ cursor_only rc (search_reference_blocks g rc).1
    ∧ ∀ i, (search_reference_blocks g rc).2 = some i →
        rc.cursor_index ≤ i ∧ i < (search_reference_blocks g rc).1.cursor_end_index
        ∧ i < rc.block_count ∧ nth rc.counters i = 0 :=
  search_from_spec g rc.blocks.length h

theorem invariant_with_cursor_index {g : geometry} {rc : ref_counts}
    (h : ref_counts_invariant g rc) {ci : Nat} (hle : ci ≤ rc.cursor_end_index) :
    ref_counts_invariant g { rc with cursor_index := ci } :=
  ⟨h.bc_pos, h.bc_lt, h.cpb_pos, h.counters_len, h.counters_byte, h.blocks_cover,
    h.blocks_tight, h.free_eq, h.alloc_eq, h.cursor_block_lt, h.cursor_end_eq, hle⟩

theorem invariant_allocate {g : geometry} {rc : ref_counts}
    (h : ref_counts_invariant g rc) :
    ref_counts_invariant g (allocate_unreferenced_block g rc).1 := by
  unfold allocate_unreferenced_block
  split
  · exact h
  · obtain ⟨hinv1, hco1, hsome⟩ := search_spec h
    split
    · rename_i rc1 hsr
      rw [hsr] at hinv1
      exact hinv1
    · rename_i rc1 fi hsr
      rw [hsr] at hinv1 hco1
      obtain ⟨hle, hlt_end, hlt_bc, hzero⟩ := by
        have := hsome fi
        rw [hsr] at this
        exact this rfl
      have hbc1 : rc1.block_count = rc.block_count := hco1.1
      have hc1 : rc1.counters = rc.counters := hco1.2.1
      have hend2 : fi < rc1.cursor_end_index := hlt_end
      have hbc2 : fi < rc1.block_count := by rw [hbc1]; exact hlt_bc
      have hinv2 : ref_counts_invariant g (make_provisional_reference g rc1 fi) :=
        invariant_make_provisional hinv1 hbc2 (by rw [hc1]; exact hzero)
      refine invariant_with_cursor_index hinv2 ?_
      show fi + 1 ≤ rc1.cursor_end_index
      omega

/-! ### Reachability and the global counting invariant (claim C1) -/

theorem getD_replicate {α : Type} (b d : α) :
    ∀ (n j : Nat), j < n → (List.replicate n b).getD j d = b
  | 0, _, h => absurd h (Nat.not_lt_zero _)
  | _ + 1, 0, _ => rfl
  | n + 1, j + 1, h => getD_replicate b d n j (by omega)

theorem invariant_make {g : geometry} (block_count slab_start origin : Nat)
    (slab_open : Bool) (hbc : 0 < block_count) (hw : block_count < W64)
    (hcpb : 0 < COUNTS_PER_BLOCK g) :
    ref_counts_invariant g (make_ref_counts g block_count slab_start origin slab_open) := by
  have h1 := Nat.div_add_mod (block_count + COUNTS_PER_BLOCK g - 1) (COUNTS_PER_BLOCK g)
  have h1' : (block_count + COUNTS_PER_BLOCK g - 1) / COUNTS_PER_BLOCK g * COUNTS_PER_BLOCK g
      = COUNTS_PER_BLOCK g * ((block_count + COUNTS_PER_BLOCK g - 1) / COUNTS_PER_BLOCK g) :=
    Nat.mul_comm _ _
  have h2 := Nat.mod_lt (block_count + COUNTS_PER_BLOCK g - 1) hcpb
  have hlen : (make_ref_counts g block_count slab_start origin slab_open).blocks.length
      = (block_count + COUNTS_PER_BLOCK g - 1) / COUNTS_PER_BLOCK g := by
    simp [make_ref_counts, get_saved_reference_count_size, computeBucketCount]
  have hrbc_pos : 0 < (block_count + COUNTS_PER_BLOCK g - 1) / COUNTS_PER_BLOCK g := by
    rcases Nat.eq_zero_or_pos ((block_count + COUNTS_PER_BLOCK g - 1) / COUNTS_PER_BLOCK g)
      with h0 | h0
    · rw [h0] at h1
      omega
    · exact h0
  refine ⟨hbc, hw, hcpb, ?_, ?_, ?_, ?_, ?_, ?_, ?_, ?_, ?_⟩
  · simp [make_ref_counts]
  · intro i
    show nth (List.replicate block_count 0) i < 256
    rw [nth_replicate]
    omega
  · rw [hlen]
    show block_count ≤ _ * COUNTS_PER_BLOCK g
    omega
  · rw [hlen]
    show (_ - 1) * COUNTS_PER_BLOCK g < block_count
    rw [Nat.sub_mul, Nat.one_mul]
    omega
  · show block_count = count_in_range (List.replicate block_count 0) (fun c => c == 0) 0 _
    rw [count_in_range_all]
    · rfl
    · intro i _ _
      rw [nth_replicate]
      rfl
  · intro j hj
    rw [hlen] at hj
    have hb : (make_ref_counts g block_count slab_start origin slab_open).blocks
        = List.replicate ((block_count + COUNTS_PER_BLOCK g - 1) / COUNTS_PER_BLOCK g)
            ({ commit_points := List.replicate g.SECTORS_PER_BLOCK ⟨0, 0⟩ } : reference_block) :=
      rfl
    rw [hb, getD_replicate _ _ _ j hj]
    rw [count_in_range_none]
    intro i _ _
    show ((fun c => c != 0) (nth (List.replicate block_count 0) i)) = false
    rw [nth_replicate]
    rfl
  · show 0 < _
    rw [hlen]
    exact hrbc_pos
  · show minBlock (COUNTS_PER_BLOCK g) block_count
      = minBlock ((0 + 1) * COUNTS_PER_BLOCK g) block_count
    rw [Nat.zero_add, Nat.one_mul]
  · exact Nat.zero_le _

/-- The states reachable from a freshly made `ref_counts` by the mutating
operations of refCounts.c (plus external changes of the slab's admin state).
The hypotheses of `make` reflect the C types: a nonempty slab whose
`block_count` is a `uint64_t`, with positive on-disk geometry; `replay`
requires in-range slab journal entries, which is the caller's contract of
`replay_reference_count_change` (the C code does not range-check `entry.sbn`). -/
inductive reachable (g : geometry) : ref_counts → Prop where
  | make (block_count slab_start origin : Nat) (slab_open : Bool)
      (hbc : 0 < block_count) (hw : block_count < W64) (hg : 0 < COUNTS_PER_BLOCK g) :
      reachable g (make_ref_counts g block_count slab_start origin slab_open)
  | set_admin {rc : ref_counts} (b : Bool) :
      reachable g rc → reachable g { rc with slab_open := b }
  | adjust {rc : ref_counts} (op : reference_operation) (pt : Option journal_point) :
      reachable g rc → reachable g (adjust_reference_count g rc op pt).rc
  | alloc {rc : ref_counts} :
      reachable g rc → reachable g (allocate_unreferenced_block g rc).1
  | provisional {rc : ref_counts} (pbn : Nat) (lock : Bool) :
      reachable g rc → reachable g (provisionally_reference_block g rc pbn lock).1
  | rebuild {rc : ref_counts} (pbn : Nat) (op : journal_operation) :
      reachable g rc → reachable g (adjust_reference_count_for_rebuild g rc pbn op).1
  | replay {rc : ref_counts} (entry_point : journal_point) (entry : slab_journal_entry)
      (hsbn : entry.sbn < rc.block_count) :
      reachable g rc → reachable g (replay_reference_count_change g rc entry_point entry).1
  | reset {rc : ref_counts} :
      reachable g rc → reachable g (reset_reference_counts rc)

theorem reachable_invariant {g : geometry} {rc : ref_counts}
    (h : reachable g rc) : ref_counts_invariant g rc := by
  induction h with
  | make bc ss o so hbc hw hg => exact invariant_make bc ss o so hbc hw hg
  | set_admin b _ ih =>
    exact invariant_congr ih _ rfl rfl rfl rfl (fun _ _ => rfl) rfl rfl rfl
  | adjust op pt _ ih => exact invariant_adjust ih op pt
  | alloc _ ih => exact invariant_allocate ih
  | provisional pbn lock _ ih => exact invariant_provisionally ih pbn lock
  | rebuild pbn op _ ih => exact invariant_rebuild ih pbn op
  | replay entry_point entry hsbn _ ih => exact invariant_replay ih entry_point entry hsbn
  | reset _ ih => exact invariant_reset ih

theorem range_map_getD_alloc : ∀ (l : List reference_block),
    ((List.range l.length).map (fun j => (l.getD j default).allocated_count)).sum
      = (l.map (fun (b : reference_block) => b.allocated_count)).sum := by
  intro l
  induction l with
  | nil => rfl
  | cons b t ih =>
    rw [List.length_cons, List.range_succ_eq_map]
    simp only [List.map_cons, List.map_map, List.sum_cons]
    have hfn : ((fun j => (((b :: t).getD j default)).allocated_count) ∘ Nat.succ)
        = fun j => ((t.getD j default)).allocated_count := rfl
    rw [hfn, ih]
    rfl

theorem sum_alloc_prefix {g : geometry} {rc : ref_counts}
    (h : ref_counts_invariant g rc) :
    ∀ m, m ≤ rc.blocks.length →
      ((List.range m).map (fun j => (rc.blocks.getD j default).allocated_count)).sum
        = count_in_range rc.counters (fun c => c != 0) 0
            (minBlock (m * COUNTS_PER_BLOCK g) rc.block_count) := by
  intro m
  induction m with
  | zero =>
    intro _
    simp [count_in_range, minBlock]
  | succ m ih =>
    intro hm
    have hmlt : m < rc.blocks.length := by omega
    have hmle : m ≤ rc.blocks.length - 1 := by omega
    have ht : m * COUNTS_PER_BLOCK g ≤ (rc.blocks.length - 1) * COUNTS_PER_BLOCK g :=
      Nat.mul_le_mul_right _ hmle
    have htight := h.blocks_tight
    have hmbc : m * COUNTS_PER_BLOCK g < rc.block_count := by omega
    have hmul : (m + 1) * COUNTS_PER_BLOCK g
        = m * COUNTS_PER_BLOCK g + COUNTS_PER_BLOCK g := by
      rw [Nat.add_mul, Nat.one_mul]
    have hmb : minBlock (m * COUNTS_PER_BLOCK g) rc.block_count
        = m * COUNTS_PER_BLOCK g := by
      unfold minBlock
      rw [Nat.min_def]
      split <;> omega
    have hsplit : minBlock ((m + 1) * COUNTS_PER_BLOCK g) rc.block_count
        = m * COUNTS_PER_BLOCK g + block_range_len g rc m := by
      unfold block_range_len minBlock
      rw [hmul, Nat.min_def]
      split <;> omega
    rw [List.range_succ, List.map_append, List.sum_append, ih (by omega)]
    simp only [List.map_cons, List.map_nil, List.sum_cons, List.sum_nil, Nat.add_zero]
    rw [h.alloc_eq m hmlt, hsplit, count_in_range_split, hmb, Nat.zero_add]

theorem sum_allocated {g : geometry} {rc : ref_counts}
    (h : ref_counts_invariant g rc) :
    (rc.blocks.map (fun (b : reference_block) => b.allocated_count)).sum + rc.free_blocks
      = rc.block_count := by
  have hs := sum_alloc_prefix h rc.blocks.length (le_refl _)
  rw [range_map_getD_alloc] at hs
  have hmin : minBlock (rc.blocks.length * COUNTS_PER_BLOCK g) rc.block_count
      = rc.block_count := by
    unfold minBlock
    have := h.blocks_cover
    rw [Nat.min_def]
    split <;> omega
  rw [hmin] at hs
  have hc := count_in_range_add_compl rc.counters (fun c => c == 0) rc.block_count 0
  have hbne : count_in_range rc.counters (fun c => !((fun x => x == 0) c)) 0 rc.block_count
      = count_in_range rc.counters (fun c => c != 0) 0 rc.block_count := rfl
  rw [hbne] at hc
  rw [hs, h.free_eq]
  omega

/-- C1: in every state reachable from a fresh `make_ref_counts` state by any
sequence of `adjust_reference_count`, `allocate_unreferenced_block`,
`provisionally_reference_block`, rebuild/replay adjustments and
`reset_reference_counts`: `free_blocks` counts the counters equal to `EMPTY`;
every reference block's `allocated_count` counts the non-`EMPTY` counters
whose index lies in its range; and the blocks' allocated counts plus
`free_blocks` sum to `block_count`. -/
theorem claim_C1 {g : geometry} {rc : ref_counts} (h : reachable g rc) :
    rc.free_blocks
      = count_in_range rc.counters (fun c => c == EMPTY_REFERENCE_COUNT) 0 rc.block_count
    ∧ (∀ j, j < rc.blocks.length →
        (rc.blocks.getD j default).allocated_count
          = count_in_range rc.counters (fun c => c != EMPTY_REFERENCE_COUNT)
              (j * COUNTS_PER_BLOCK g) (block_range_len g rc j))
    ∧ (rc.blocks.map (fun (b : reference_block) => b.allocated_count)).sum + rc.free_blocks
        = rc.block_count := by
  have hi := reachable_invariant h
  exact ⟨hi.free_eq, hi.alloc_eq, sum_allocated hi⟩

/-- Witness for C1 at a concrete reachable state: a 3-block slab with
4-counter reference blocks, after one allocation. -/
theorem claim_C1_witness :
    (allocate_unreferenced_block ⟨1, 4⟩
        (make_ref_counts ⟨1, 4⟩ 3 10 20 true)).1.free_blocks
      = count_in_range
          (allocate_unreferenced_block ⟨1, 4⟩
            (make_ref_counts ⟨1, 4⟩ 3 10 20 true)).1.counters
          (fun c => c == EMPTY_REFERENCE_COUNT) 0
          (allocate_unreferenced_block ⟨1, 4⟩
            (make_ref_counts ⟨1, 4⟩ 3 10 20 true)).1.block_count
    ∧ (∀ j, j < (allocate_unreferenced_block ⟨1, 4⟩
          (make_ref_counts ⟨1, 4⟩ 3 10 20 true)).1.blocks.length →
        ((allocate_unreferenced_block ⟨1, 4⟩
            (make_ref_counts ⟨1, 4⟩ 3 10 20 true)).1.blocks.getD j default).allocated_count
          = count_in_range
              (allocate_unreferenced_block ⟨1, 4⟩
                (make_ref_counts ⟨1, 4⟩ 3 10 20 true)).1.counters
              (fun c => c != EMPTY_REFERENCE_COUNT) (j * COUNTS_PER_BLOCK ⟨1, 4⟩)
              (block_range_len ⟨1, 4⟩
                (allocate_unreferenced_block ⟨1, 4⟩
                  (make_ref_counts ⟨1, 4⟩ 3 10 20 true)).1 j))
    ∧ ((allocate_unreferenced_block ⟨1, 4⟩
          (make_ref_counts ⟨1, 4⟩ 3 10 20 true)).1.blocks.map
        (fun (b : reference_block) => b.allocated_count)).sum
        + (allocate_unreferenced_block ⟨1, 4⟩
            (make_ref_counts ⟨1, 4⟩ 3 10 20 true)).1.free_blocks
        = (allocate_unreferenced_block ⟨1, 4⟩
            (make_ref_counts ⟨1, 4⟩ 3 10 20 true)).1.block_count :=
  claim_C1 (reachable.alloc
    (reachable.make 3 10 20 true (by norm_num) (by norm_num [W64])
      (by norm_num [COUNTS_PER_BLOCK])))


/-! ### Shape of `adjust_reference_count` around a completed update -/

theorem advance_journal_counters (rc : ref_counts) (pt : Option journal_point) :
    (advance_journal_point rc pt).counters = rc.counters := by
  unfold advance_journal_point
  split <;> rfl

theorem advance_journal_free (rc : ref_counts) (pt : Option journal_point) :
    (advance_journal_point rc pt).free_blocks = rc.free_blocks := by
  unfold advance_journal_point
  split <;> rfl

theorem advance_journal_blocks (rc : ref_counts) (pt : Option journal_point) :
    (advance_journal_point rc pt).blocks = rc.blocks := by
  unfold advance_journal_point
  split <;> rfl

theorem advance_journal_valid (rc : ref_counts) {pt : Option journal_point}
    (hv : is_valid_journal_point pt = true) :
    (advance_journal_point rc pt).slab_journal_point = pt.getD ⟨0, 0⟩ := by
  unfold advance_journal_point
  rw [if_pos hv]

theorem commit_counters (rc : ref_counts) (bi sbn : Nat) (out : update_outcome)
    (h : sbn < rc.counters.length) :
    nth (commit_outcome rc bi sbn out).counters sbn = out.counter :=
  nth_set_self h _

theorem commit_free (rc : ref_counts) (bi sbn : Nat) (out : update_outcome) :
    (commit_outcome rc bi sbn out).free_blocks = out.free_blocks := rfl

theorem commit_alloc (rc : ref_counts) (bi sbn : Nat) (out : update_outcome)
    (h : bi < rc.blocks.length) :
    ((commit_outcome rc bi sbn out).blocks.getD bi default).allocated_count
      = out.allocated_count := by
  have hb : (commit_outcome rc bi sbn out).blocks
      = rc.blocks.set bi
          { rc.blocks.getD bi default with allocated_count := out.allocated_count } := rfl
  rw [hb, getD_set_self h]

/-- `dirty_block` changes only the dirty flag, the dirty queue, and possibly
the read-only flag. -/
theorem dirty_block_shape (rc : ref_counts) (i : Nat) :
    (dirty_block rc i).counters = rc.counters ∧
    (dirty_block rc i).free_blocks = rc.free_blocks ∧
    (dirty_block rc i).slab_journal_point = rc.slab_journal_point ∧
    (∀ j, ((dirty_block rc i).blocks.getD j default).allocated_count
      = ((rc.blocks.getD j default)).allocated_count) := by
  simp only [dirty_block, enqueue_dirty_block]
  split
  · exact ⟨rfl, rfl, rfl, fun _ => rfl⟩
  · split
    · exact ⟨rfl, rfl, rfl, fun j =>
        getD_set_alloc rc.blocks i { rc.blocks.getD i default with is_dirty := true } rfl j⟩
    · split
      · exact ⟨rfl, rfl, rfl, fun j =>
          getD_set_alloc rc.blocks i { rc.blocks.getD i default with is_dirty := true } rfl j⟩
      · exact ⟨rfl, rfl, rfl, fun j =>
          getD_set_alloc rc.blocks i { rc.blocks.getD i default with is_dirty := true } rfl j⟩

/-- When the underlying update fails, `adjust_reference_count` reports the
error and performs no journal-lock bookkeeping. -/
theorem adjust_err_shape {g : geometry} {rc rc1 : ref_counts} {op : reference_operation}
    {pt : Option journal_point} {sbn : Nat} {e : vdo_error}
    (hopen : rc.slab_open = true)
    (hsbn : slab_block_number_from_pbn rc op.pbn = .ok sbn)
    (hupd : update_reference_count g rc (sbn / COUNTS_PER_BLOCK g) sbn pt op true
      = (rc1, .error e)) :
    adjust_reference_count g rc op pt = { rc := rc1, status := .error e } := by
  simp only [adjust_reference_count]
  split
  · rename_i hno
    simp [hopen] at hno
  · split
    · rename_i e' heq
      rw [hsbn] at heq
      simp at heq
    · rename_i sbn' heq
      rw [hsbn] at heq
      have hs : sbn' = sbn := by
        injection heq with hs'
        exact hs'.symm
      subst hs
      split
      · rename_i rc1' e' hupd'
        rw [hupd] at hupd'
        injection hupd' with ha hb
        injection hb with hb'
        subst ha
        subst hb'
        rfl
      · rename_i rc1' u' hupd'
        rw [hupd] at hupd'
        injection hupd' with ha hb
        simp at hb

/-- When the underlying update succeeds with the provisional-decrement flag,
`adjust_reference_count` short-circuits: no journal adjustment, no lock
transfer, and no dirtying. -/
theorem adjust_prov_shape {g : geometry} {rc rc1 : ref_counts} {op : reference_operation}
    {pt : Option journal_point} {sbn : Nat} {u : update_result}
    (hopen : rc.slab_open = true)
    (hsbn : slab_block_number_from_pbn rc op.pbn = .ok sbn)
    (hupd : update_reference_count g rc (sbn / COUNTS_PER_BLOCK g) sbn pt op true
      = (rc1, .ok u))
    (hpd : u.provisional_decrement = true) :
    adjust_reference_count g rc op pt
      = { rc := rc1, status := .ok (), free_status_changed := u.free_status_changed,
          provisional_decrement := true, assigned := u.assigned,
          unassigned := u.unassigned } := by
  simp only [adjust_reference_count]
  split
  · rename_i hno
    simp [hopen] at hno
  · split
    · rename_i e' heq
      rw [hsbn] at heq
      simp at heq
    · rename_i sbn' heq
      rw [hsbn] at heq
      have hs : sbn' = sbn := by
        injection heq with hs'
        exact hs'.symm
      subst hs
      split
      · rename_i rc1' e' hupd'
        rw [hupd] at hupd'
        injection hupd' with ha hb
        simp at hb
      · rename_i rc1' u' hupd'
        rw [hupd] at hupd'
        injection hupd' with ha hb
        injection hb with hb'
        subst ha
        subst hb'
        rw [if_pos hpd]

/-- When the underlying update succeeds without the provisional-decrement
flag, `adjust_reference_count` passes the update's state changes and
out-parameters through unchanged; its own postlude touches only the target
block's `slab_journal_lock`/dirty state and the dirty queue, and it returns
success except on the journal-point assertion failure. -/
theorem adjust_ok_shape {g : geometry} {rc rc1 : ref_counts} {op : reference_operation}
    {pt : Option journal_point} {sbn : Nat} {u : update_result}
    (hopen : rc.slab_open = true)
    (hsbn : slab_block_number_from_pbn rc op.pbn = .ok sbn)
    (hupd : update_reference_count g rc (sbn / COUNTS_PER_BLOCK g) sbn pt op true
      = (rc1, .ok u))
    (hpd : u.provisional_decrement = false) :
    (adjust_reference_count g rc op pt).rc.counters = rc1.counters ∧
    (adjust_reference_count g rc op pt).rc.free_blocks = rc1.free_blocks ∧
    (∀ j, ((adjust_reference_count g rc op pt).rc.blocks.getD j default).allocated_count
      = ((rc1.blocks.getD j default)).allocated_count) ∧
    (adjust_reference_count g rc op pt).rc.slab_journal_point = rc1.slab_journal_point ∧
    (adjust_reference_count g rc op pt).free_status_changed = u.free_status_changed ∧
    (adjust_reference_count g rc op pt).assigned = u.assigned ∧
    (adjust_reference_count g rc op pt).unassigned = u.unassigned ∧
    ((adjust_reference_count g rc op pt).status = .ok ()
      ∨ (adjust_reference_count g rc op pt).status = .error .UDS_ASSERTION_FAILED) := by
  simp only [adjust_reference_count]
  split
  · rename_i hno
    simp [hopen] at hno
  · split
    · rename_i e' heq
      rw [hsbn] at heq
      simp at heq
    · rename_i sbn' heq
      rw [hsbn] at heq
      have hs : sbn' = sbn := by
        injection heq with hs'
        exact hs'.symm
      subst hs
      split
      · rename_i rc1' e' hupd'
        rw [hupd] at hupd'
        injection hupd' with ha hb
        simp at hb
      · rename_i rc1' u' hupd'
        rw [hupd] at hupd'
        injection hupd' with ha hb
        injection hb with hb'
        subst ha
        subst hb'
        rw [if_neg (by simp [hpd])]
        split
        · split
          · exact ⟨rfl, rfl, fun _ => rfl, rfl, rfl, rfl, rfl, Or.inl rfl⟩
          · exact ⟨rfl, rfl, fun _ => rfl, rfl, rfl, rfl, rfl, Or.inr rfl⟩
        · refine ⟨(dirty_block_shape _ _).1, (dirty_block_shape _ _).2.1, ?_,
            (dirty_block_shape _ _).2.2.1, rfl, rfl, rfl, Or.inl rfl⟩
          intro j
          rw [(dirty_block_shape _ _).2.2.2 j]
          exact getD_set_alloc rc1.blocks (sbn' / COUNTS_PER_BLOCK g)
            { rc1.blocks.getD (sbn' / COUNTS_PER_BLOCK g) default with
              slab_journal_lock :=
                if is_valid_journal_point pt = true then
                  (pt.getD ⟨0, 0⟩).sequence_number
                else 0 } rfl j

/-! ### C2: the DATA_INCREMENT transition table -/

/-- Modelled from the spec: the DATA_INCREMENT rows of the §4.4 transition
table, together with the lock rule ("on success with a non-null lock,
`unassign_provisional_reference(lock)`"), read off the result of
`adjust_reference_count` on an in-range pbn of an open slab. -/
def spec_data_increment_table (g : geometry) (rc : ref_counts) (pbn : Nat)
    (lk : Bool) (pt : Option journal_point) : Prop :=
  let sbn := pbn - rc.slab_start
  let j := sbn / COUNTS_PER_BLOCK g
  let c := nth rc.counters sbn
  let r := adjust_reference_count g rc { type := .DATA_INCREMENT, pbn := pbn, lock := lk } pt
  (c = EMPTY_REFERENCE_COUNT →
      nth r.rc.counters sbn = 1
      ∧ (r.rc.blocks.getD j default).allocated_count
          = inc64 ((rc.blocks.getD j default)).allocated_count
      ∧ r.rc.free_blocks = dec64 rc.free_blocks
      ∧ r.free_status_changed = true)
  ∧ (c = PROVISIONAL_REFERENCE_COUNT →
      nth r.rc.counters sbn = 1
      ∧ (r.rc.blocks.getD j default).allocated_count
          = ((rc.blocks.getD j default)).allocated_count
      ∧ r.rc.free_blocks = rc.free_blocks
      ∧ r.free_status_changed = false)
  ∧ (c ≠ EMPTY_REFERENCE_COUNT → c ≠ PROVISIONAL_REFERENCE_COUNT →
      c < MAXIMUM_REFERENCE_COUNT →
      nth r.rc.counters sbn = c + 1
      ∧ (r.rc.blocks.getD j default).allocated_count
          = ((rc.blocks.getD j default)).allocated_count
      ∧ r.rc.free_blocks = rc.free_blocks
      ∧ r.free_status_changed = false)
  ∧ (c = MAXIMUM_REFERENCE_COUNT →
      r.status = .error .VDO_REF_COUNT_INVALID ∧ r.rc = rc)
  ∧ (r.status = .ok () → lk = true → r.unassigned = true)

/-- C2: `adjust_reference_count` with DATA_INCREMENT on an in-range pbn of an
open slab follows the spec's transition table: a FREE counter becomes 1 with
the block's `allocated_count` incremented, `free_blocks` decremented and
`free_status_changed` true; a PROVISIONAL counter becomes 1 with
`free_status_changed` false; a SINGLE or SHARED counter below MAXIMUM is
incremented by one; a counter at MAXIMUM yields `VDO_REF_COUNT_INVALID` and
leaves the state unchanged; and every success with a non-null pbn lock
unassigns the lock's provisional reference. -/
theorem claim_C2 {g : geometry} {rc : ref_counts} {pbn : Nat} {lk : Bool}
    {pt : Option journal_point}
    (h : ref_counts_invariant g rc) (hopen : rc.slab_open = true)
    (hlo : rc.slab_start ≤ pbn) (hhi : pbn - rc.slab_start < rc.block_count) :
    spec_data_increment_table g rc pbn lk pt := by
  have hsbnok : slab_block_number_from_pbn rc
      (reference_operation.mk .DATA_INCREMENT pbn lk).pbn = .ok (pbn - rc.slab_start) := by
    show slab_block_number_from_pbn rc pbn = _
    unfold slab_block_number_from_pbn
    rw [if_neg (by omega), if_pos hhi]
  have hclen : pbn - rc.slab_start < rc.counters.length := by
    rw [h.counters_len]
    exact hhi
  have hblt : (pbn - rc.slab_start) / COUNTS_PER_BLOCK g < rc.blocks.length :=
    sbn_block_lt h.cpb_pos h.blocks_cover hhi
  simp only [spec_data_increment_table]
  refine ⟨?_, ?_, ?_, ?_, ?_⟩
  · intro h0
    have hupd := update_eq_inc_free g rc ((pbn - rc.slab_start) / COUNTS_PER_BLOCK g)
      (pbn - rc.slab_start) pt pbn lk true h0
    obtain ⟨hco, hfr, hal, -, hfs, -, -, -⟩ := adjust_ok_shape hopen hsbnok hupd rfl
    refine ⟨?_, ?_, ?_, ?_⟩
    · rw [hco, advance_journal_counters, commit_counters _ _ _ _ hclen]
    · rw [hal ((pbn - rc.slab_start) / COUNTS_PER_BLOCK g), advance_journal_blocks,
        commit_alloc _ _ _ _ hblt]
    · rw [hfr, advance_journal_free, commit_free]
    · rw [hfs]
  · intro h255
    have hupd := update_eq_inc_prov g rc ((pbn - rc.slab_start) / COUNTS_PER_BLOCK g)
      (pbn - rc.slab_start) pt pbn lk true h255
    obtain ⟨hco, hfr, hal, -, hfs, -, -, -⟩ := adjust_ok_shape hopen hsbnok hupd rfl
    refine ⟨?_, ?_, ?_, ?_⟩
    · rw [hco, advance_journal_counters, commit_counters _ _ _ _ hclen]
    · rw [hal ((pbn - rc.slab_start) / COUNTS_PER_BLOCK g), advance_journal_blocks,
        commit_alloc _ _ _ _ hblt]
    · rw [hfr, advance_journal_free, commit_free]
    · rw [hfs]
  · intro h0 h255 hlt
    have hupd := update_eq_inc_other g rc ((pbn - rc.slab_start) / COUNTS_PER_BLOCK g)
      (pbn - rc.slab_start) pt pbn lk true h0 h255 hlt
    obtain ⟨hco, hfr, hal, -, hfs, -, -, -⟩ := adjust_ok_shape hopen hsbnok hupd rfl
    refine ⟨?_, ?_, ?_, ?_⟩
    · rw [hco, advance_journal_counters, commit_counters _ _ _ _ hclen]
      show inc8 (nth rc.counters (pbn - rc.slab_start))
        = nth rc.counters (pbn - rc.slab_start) + 1
      exact inc8_eq_succ (by
        have := hlt
        unfold MAXIMUM_REFERENCE_COUNT at this
        omega)
    · rw [hal ((pbn - rc.slab_start) / COUNTS_PER_BLOCK g), advance_journal_blocks,
        commit_alloc _ _ _ _ hblt]
    · rw [hfr, advance_journal_free, commit_free]
    · rw [hfs]
  · intro h254
    have h254' : nth rc.counters (pbn - rc.slab_start) = 254 := h254
    have hupd := update_eq_inc_max g rc ((pbn - rc.slab_start) / COUNTS_PER_BLOCK g)
      (pbn - rc.slab_start) pt pbn lk true (by omega) (by omega) (by omega)
    rw [adjust_err_shape hopen hsbnok hupd]
    exact ⟨rfl, rfl⟩
  · intro hok hlk
    by_cases h0 : nth rc.counters (pbn - rc.slab_start) = 0
    · have hupd := update_eq_inc_free g rc ((pbn - rc.slab_start) / COUNTS_PER_BLOCK g)
        (pbn - rc.slab_start) pt pbn lk true h0
      obtain ⟨-, -, -, -, -, -, hun, -⟩ := adjust_ok_shape hopen hsbnok hupd rfl
      rw [hun, hlk]
    · by_cases h255 : nth rc.counters (pbn - rc.slab_start) = 255
      · have hupd := update_eq_inc_prov g rc ((pbn - rc.slab_start) / COUNTS_PER_BLOCK g)
          (pbn - rc.slab_start) pt pbn lk true h255
        obtain ⟨-, -, -, -, -, -, hun, -⟩ := adjust_ok_shape hopen hsbnok hupd rfl
        rw [hun, hlk]
      · by_cases hge : 254 ≤ nth rc.counters (pbn - rc.slab_start)
        · have hupd := update_eq_inc_max g rc ((pbn - rc.slab_start) / COUNTS_PER_BLOCK g)
            (pbn - rc.slab_start) pt pbn lk true h0 h255 hge
          rw [adjust_err_shape hopen hsbnok hupd] at hok
          simp at hok
        · have hupd := update_eq_inc_other g rc ((pbn - rc.slab_start) / COUNTS_PER_BLOCK g)
            (pbn - rc.slab_start) pt pbn lk true h0 h255 (by omega)
          obtain ⟨-, -, -, -, -, -, hun, -⟩ := adjust_ok_shape hopen hsbnok hupd rfl
          rw [hun, hlk]

theorem claim_C2_witness :
    spec_data_increment_table ⟨1, 4⟩ (make_ref_counts ⟨1, 4⟩ 3 10 20 true) 11 true none :=
  claim_C2 (invariant_make 3 10 20 true (by norm_num) (by norm_num [W64])
      (by norm_num [COUNTS_PER_BLOCK])) rfl (by decide) (by decide)

/-! ### C3: the DATA_DECREMENT transition table -/

/-- Modelled from the spec: the DATA_DECREMENT rows of the §4.4 transition
table, the lock rule ("PROVISIONAL or SINGLE, lock present:
`assign_provisional_reference(lock)`"), and the provisional-decrement flag,
read off the result of `adjust_reference_count` on an in-range pbn of an
open slab. -/
def spec_data_decrement_table (g : geometry) (rc : ref_counts) (pbn : Nat)
    (lk : Bool) (pt : Option journal_point) : Prop :=
  let sbn := pbn - rc.slab_start
  let j := sbn / COUNTS_PER_BLOCK g
  let c := nth rc.counters sbn
  let r := adjust_reference_count g rc { type := .DATA_DECREMENT, pbn := pbn, lock := lk } pt
  (c = EMPTY_REFERENCE_COUNT →
      r.status = .error .VDO_REF_COUNT_INVALID ∧ r.rc = rc)
  ∧ ((c = PROVISIONAL_REFERENCE_COUNT ∨ c = 1) → lk = true →
      nth r.rc.counters sbn = PROVISIONAL_REFERENCE_COUNT
      ∧ (r.rc.blocks.getD j default).allocated_count
          = ((rc.blocks.getD j default)).allocated_count
      ∧ r.rc.free_blocks = rc.free_blocks
      ∧ r.free_status_changed = false
      ∧ r.assigned = true)
  ∧ ((c = PROVISIONAL_REFERENCE_COUNT ∨ c = 1) → lk = false →
      nth r.rc.counters sbn = EMPTY_REFERENCE_COUNT
      ∧ (r.rc.blocks.getD j default).allocated_count
          = dec64 ((rc.blocks.getD j default)).allocated_count
      ∧ r.rc.free_blocks = inc64 rc.free_blocks
      ∧ r.free_status_changed = true)
  ∧ (c ≠ EMPTY_REFERENCE_COUNT → c ≠ 1 → c ≠ PROVISIONAL_REFERENCE_COUNT →
      nth r.rc.counters sbn = c - 1
      ∧ (r.rc.blocks.getD j default).allocated_count
          = ((rc.blocks.getD j default)).allocated_count
      ∧ r.rc.free_blocks = rc.free_blocks
      ∧ r.free_status_changed = false)
  ∧ (c = PROVISIONAL_REFERENCE_COUNT → r.provisional_decrement = true)

/-- C3: `adjust_reference_count` with DATA_DECREMENT on an in-range pbn of an
open slab follows the spec's transition table: a FREE counter yields
`VDO_REF_COUNT_INVALID` and leaves the state unchanged; a PROVISIONAL or
SINGLE counter with a pbn lock becomes PROVISIONAL, assigning the lock's
provisional reference, with `free_status_changed` false; a PROVISIONAL or
SINGLE counter with no lock becomes EMPTY with the block's `allocated_count`
decremented, `free_blocks` incremented and `free_status_changed` true; a
SHARED counter is decremented by one; and a decrement of a PROVISIONAL
counter is flagged as a provisional decrement. -/
theorem claim_C3 {g : geometry} {rc : ref_counts} {pbn : Nat} {lk : Bool}
    {pt : Option journal_point}
    (h : ref_counts_invariant g rc) (hopen : rc.slab_open = true)
    (hlo : rc.slab_start ≤ pbn) (hhi : pbn - rc.slab_start < rc.block_count) :
    spec_data_decrement_table g rc pbn lk pt := by
  have hsbnok : slab_block_number_from_pbn rc
      (reference_operation.mk .DATA_DECREMENT pbn lk).pbn = .ok (pbn - rc.slab_start) := by
    show slab_block_number_from_pbn rc pbn = _
    unfold slab_block_number_from_pbn
    rw [if_neg (by omega), if_pos hhi]
  have hclen : pbn - rc.slab_start < rc.counters.length := by
    rw [h.counters_len]
    exact hhi
  have hblt : (pbn - rc.slab_start) / COUNTS_PER_BLOCK g < rc.blocks.length :=
    sbn_block_lt h.cpb_pos h.blocks_cover hhi
  simp only [spec_data_decrement_table]
  refine ⟨?_, ?_, ?_, ?_, ?_⟩
  · intro h0
    have hupd := update_eq_dec_free g rc ((pbn - rc.slab_start) / COUNTS_PER_BLOCK g)
      (pbn - rc.slab_start) pt pbn lk true h0
    rw [adjust_err_shape hopen hsbnok hupd]
    exact ⟨rfl, rfl⟩
  · intro hc hlk
    rcases hc with h255 | h1
    · have hupd := update_eq_dec_prov_lock g rc ((pbn - rc.slab_start) / COUNTS_PER_BLOCK g)
        (pbn - rc.slab_start) pt pbn lk true h255 hlk
      rw [adjust_prov_shape hopen hsbnok hupd rfl]
      exact ⟨commit_counters rc _ _ _ hclen, commit_alloc rc _ _ _ hblt, rfl, rfl, rfl⟩
    · have hupd := update_eq_dec_single_lock g rc ((pbn - rc.slab_start) / COUNTS_PER_BLOCK g)
        (pbn - rc.slab_start) pt pbn lk true h1 hlk
      obtain ⟨hco, hfr, hal, -, hfs, hA, -, -⟩ := adjust_ok_shape hopen hsbnok hupd rfl
      refine ⟨?_, ?_, ?_, ?_, ?_⟩
      · rw [hco, advance_journal_counters, commit_counters _ _ _ _ hclen]
        rfl
      · rw [hal ((pbn - rc.slab_start) / COUNTS_PER_BLOCK g), advance_journal_blocks,
          commit_alloc _ _ _ _ hblt]
      · rw [hfr, advance_journal_free, commit_free]
      · rw [hfs]
      · rw [hA]
  · intro hc hlk
    rcases hc with h255 | h1
    · have hupd := update_eq_dec_prov_nolock g rc ((pbn - rc.slab_start) / COUNTS_PER_BLOCK g)
        (pbn - rc.slab_start) pt pbn lk true h255 hlk
      rw [adjust_prov_shape hopen hsbnok hupd rfl]
      exact ⟨commit_counters rc _ _ _ hclen, commit_alloc rc _ _ _ hblt, rfl, rfl⟩
    · have hupd := update_eq_dec_single_nolock g rc ((pbn - rc.slab_start) / COUNTS_PER_BLOCK g)
        (pbn - rc.slab_start) pt pbn lk true h1 hlk
      obtain ⟨hco, hfr, hal, -, hfs, -, -, -⟩ := adjust_ok_shape hopen hsbnok hupd rfl
      refine ⟨?_, ?_, ?_, ?_⟩
      · rw [hco, advance_journal_counters, commit_counters _ _ _ _ hclen]
        rfl
      · rw [hal ((pbn - rc.slab_start) / COUNTS_PER_BLOCK g), advance_journal_blocks,
          commit_alloc _ _ _ _ hblt]
      · rw [hfr, advance_journal_free, commit_free]
      · rw [hfs]
  · intro h0 h1 h255
    have h0' : nth rc.counters (pbn - rc.slab_start) ≠ 0 := h0
    have hupd := update_eq_dec_shared g rc ((pbn - rc.slab_start) / COUNTS_PER_BLOCK g)
      (pbn - rc.slab_start) pt pbn lk true h0 h1 h255
    obtain ⟨hco, hfr, hal, -, hfs, -, -, -⟩ := adjust_ok_shape hopen hsbnok hupd rfl
    refine ⟨?_, ?_, ?_, ?_⟩
    · rw [hco, advance_journal_counters, commit_counters _ _ _ _ hclen]
      show dec8 (nth rc.counters (pbn - rc.slab_start))
        = nth rc.counters (pbn - rc.slab_start) - 1
      exact dec8_eq_pred (by omega) (h.counters_byte _)
    · rw [hal ((pbn - rc.slab_start) / COUNTS_PER_BLOCK g), advance_journal_blocks,
        commit_alloc _ _ _ _ hblt]
    · rw [hfr, advance_journal_free, commit_free]
    · rw [hfs]
  · intro h255
    by_cases hlk : lk = true
    · have hupd := update_eq_dec_prov_lock g rc ((pbn - rc.slab_start) / COUNTS_PER_BLOCK g)
        (pbn - rc.slab_start) pt pbn lk true h255 hlk
      rw [adjust_prov_shape hopen hsbnok hupd rfl]
    · have hlkf : lk = false := by
        cases lk
        · rfl
        · exact absurd rfl hlk
      have hupd := update_eq_dec_prov_nolock g rc ((pbn - rc.slab_start) / COUNTS_PER_BLOCK g)
        (pbn - rc.slab_start) pt pbn lk true h255 hlkf
      rw [adjust_prov_shape hopen hsbnok hupd rfl]

theorem claim_C3_witness :
    spec_data_decrement_table ⟨1, 4⟩ (make_ref_counts ⟨1, 4⟩ 3 10 20 true) 12 false none :=
  claim_C3 (invariant_make 3 10 20 true (by norm_num) (by norm_num [W64])
      (by norm_num [COUNTS_PER_BLOCK])) rfl (by decide) (by decide)

/-! ### C4: the journal interaction of `adjust_reference_count` -/

theorem getD_set_lock (l : List reference_block) (j : Nat) (b : reference_block)
    (hb : b.slab_journal_lock = (l.getD j default).slab_journal_lock) (i : Nat) :
    ((l.set j b).getD i default).slab_journal_lock
      = ((l.getD i default)).slab_journal_lock := by
  by_cases hij : i = j
  · subst hij
    by_cases hj : i < l.length
    · rw [getD_set_self hj]
      exact hb
    · rw [set_beyond l i b (by omega)]
  · rw [getD_set_ne hij]

theorem dirty_block_lock (rc : ref_counts) (i j : Nat) :
    ((dirty_block rc i).blocks.getD j default).slab_journal_lock
      = ((rc.blocks.getD j default)).slab_journal_lock := by
  simp only [dirty_block, enqueue_dirty_block]
  split
  · rfl
  · split
    · exact getD_set_lock rc.blocks i
        { rc.blocks.getD i default with is_dirty := true } rfl j
    · split
      · exact getD_set_lock rc.blocks i
          { rc.blocks.getD i default with is_dirty := true } rfl j
      · exact getD_set_lock rc.blocks i
          { rc.blocks.getD i default with is_dirty := true } rfl j

theorem dirty_block_dirty (rc : ref_counts) (i : Nat) (hi : i < rc.blocks.length) :
    ((dirty_block rc i).blocks.getD i default).is_dirty = true := by
  simp only [dirty_block, enqueue_dirty_block]
  split
  · rename_i hd
    exact hd
  · split
    · show ((rc.blocks.set i
          { rc.blocks.getD i default with is_dirty := true }).getD i default).is_dirty = true
      rw [getD_set_self hi]
    · split
      · show ((rc.blocks.set i
            { rc.blocks.getD i default with is_dirty := true }).getD i default).is_dirty = true
        rw [getD_set_self hi]
      · show ((rc.blocks.set i
            { rc.blocks.getD i default with is_dirty := true }).getD i default).is_dirty = true
        rw [getD_set_self hi]

/-- Any successful, non-provisional-decrement update ends by advancing the
`slab_journal_point` to a valid supplied journal point. -/
theorem update_ok_advances {g : geometry} {rc rc1 : ref_counts} {bi sbn : Nat}
    {pt : Option journal_point} {op : reference_operation} {nrm : Bool} {u : update_result}
    (hupd : update_reference_count g rc bi sbn pt op nrm = (rc1, .ok u))
    (hpd : u.provisional_decrement = false)
    (hv : is_valid_journal_point pt = true) :
    rc1.slab_journal_point = pt.getD ⟨0, 0⟩ := by
  simp only [update_reference_count] at hupd
  split at hupd
  · split at hupd
    · injection hupd with ha hb
      simp at hb
    · injection hupd with ha hb
      rw [← ha]
      exact advance_journal_valid _ hv
  · split at hupd
    · injection hupd with ha hb
      simp at hb
    · split at hupd
      · injection hupd with ha hb
        injection hb with hb'
        rw [← hb'] at hpd
        simp at hpd
      · injection hupd with ha hb
        rw [← ha]
        exact advance_journal_valid _ hv
  · split at hupd
    · injection hupd with ha hb
      simp at hb
    · injection hupd with ha hb
      rw [← ha]
      exact advance_journal_valid _ hv
  · injection hupd with ha hb
    simp at hb

/-- When the update succeeds without a provisional decrement, the target
block is already dirty with a slab journal lock, and the journal point is
valid, `adjust_reference_count` releases the per-entry journal lock. -/
theorem adjust_dirty_lock_shape {g : geometry} {rc rc1 : ref_counts}
    {op : reference_operation} {pt : Option journal_point} {sbn : Nat} {u : update_result}
    (hopen : rc.slab_open = true)
    (hsbn : slab_block_number_from_pbn rc op.pbn = .ok sbn)
    (hupd : update_reference_count g rc (sbn / COUNTS_PER_BLOCK g) sbn pt op true
      = (rc1, .ok u))
    (hpd : u.provisional_decrement = false)
    (hdb : ((rc1.blocks.getD (sbn / COUNTS_PER_BLOCK g) default).is_dirty
      && decide (0 < (rc1.blocks.getD (sbn / COUNTS_PER_BLOCK g) default).slab_journal_lock))
        = true)
    (hv : is_valid_journal_point pt = true) :
    adjust_reference_count g rc op pt
      = { rc := rc1, status := .ok (), free_status_changed := u.free_status_changed,
          journal := [((pt.getD ⟨0, 0⟩).sequence_number, -1)],
          assigned := u.assigned, unassigned := u.unassigned } := by
  simp only [adjust_reference_count]
  split
  · rename_i hno
    simp [hopen] at hno
  · split
    · rename_i e' heq
      rw [hsbn] at heq
      simp at heq
    · rename_i sbn' heq
      rw [hsbn] at heq
      have hs : sbn' = sbn := by
        injection heq with hs'
        exact hs'.symm
      subst hs
      split
      · rename_i rc1' e' hupd'
        rw [hupd] at hupd'
        injection hupd' with ha hb
        simp at hb
      · rename_i rc1' u' hupd'
        rw [hupd] at hupd'
        injection hupd' with ha hb
        injection hb with hb'
        subst ha
        subst hb'
        rw [if_neg (by simp [hpd])]
        rw [if_pos hdb]

/-- Same situation with an invalid journal point: the `ASSERT` fires. -/
theorem adjust_assert_shape {g : geometry} {rc rc1 : ref_counts}
    {op : reference_operation} {pt : Option journal_point} {sbn : Nat} {u : update_result}
    (hopen : rc.slab_open = true)
    (hsbn : slab_block_number_from_pbn rc op.pbn = .ok sbn)
    (hupd : update_reference_count g rc (sbn / COUNTS_PER_BLOCK g) sbn pt op true
      = (rc1, .ok u))
    (hpd : u.provisional_decrement = false)
    (hdb : ((rc1.blocks.getD (sbn / COUNTS_PER_BLOCK g) default).is_dirty
      && decide (0 < (rc1.blocks.getD (sbn / COUNTS_PER_BLOCK g) default).slab_journal_lock))
        = true)
    (hnv : is_valid_journal_point pt = false) :
    adjust_reference_count g rc op pt
      = { rc := rc1, status := .error .UDS_ASSERTION_FAILED,
          free_status_changed := u.free_status_changed,
          assigned := u.assigned, unassigned := u.unassigned } := by
  simp only [adjust_reference_count]
  split
  · rename_i hno
    simp [hopen] at hno
  · split
    · rename_i e' heq
      rw [hsbn] at heq
      simp at heq
    · rename_i sbn' heq
      rw [hsbn] at heq
      have hs : sbn' = sbn := by
        injection heq with hs'
        exact hs'.symm
      subst hs
      split
      · rename_i rc1' e' hupd'
        rw [hupd] at hupd'
        injection hupd' with ha hb
        simp at hb
      · rename_i rc1' u' hupd'
        rw [hupd] at hupd'
        injection hupd' with ha hb
        injection hb with hb'
        subst ha
        subst hb'
        rw [if_neg (by simp [hpd]), if_pos hdb, if_neg (by simp [hnv])]

/-- When the update succeeds without a provisional decrement and the target
block is clean or unlocked, `adjust_reference_count` installs the per-entry
lock (or 0) as the block's journal lock and dirties the block. -/
theorem adjust_clean_shape {g : geometry} {rc rc1 : ref_counts}
    {op : reference_operation} {pt : Option journal_point} {sbn : Nat} {u : update_result}
    (hopen : rc.slab_open = true)
    (hsbn : slab_block_number_from_pbn rc op.pbn = .ok sbn)
    (hupd : update_reference_count g rc (sbn / COUNTS_PER_BLOCK g) sbn pt op true
      = (rc1, .ok u))
    (hpd : u.provisional_decrement = false)
    (hdb : ((rc1.blocks.getD (sbn / COUNTS_PER_BLOCK g) default).is_dirty
      && decide (0 < (rc1.blocks.getD (sbn / COUNTS_PER_BLOCK g) default).slab_journal_lock))
        = false) :
    adjust_reference_count g rc op pt
      = { rc :=
            dirty_block
              ({ rc1 with
                  blocks :=
                    rc1.blocks.set (sbn / COUNTS_PER_BLOCK g)
                      ({ rc1.blocks.getD (sbn / COUNTS_PER_BLOCK g) default with
                          slab_journal_lock :=
                            if is_valid_journal_point pt = true then
                              (pt.getD ⟨0, 0⟩).sequence_number
                            else 0 }) })
              (sbn / COUNTS_PER_BLOCK g),
          status := .ok (), free_status_changed := u.free_status_changed,
          assigned := u.assigned, unassigned := u.unassigned } := by
  simp only [adjust_reference_count]
  split
  · rename_i hno
    simp [hopen] at hno
  · split
    · rename_i e' heq
      rw [hsbn] at heq
      simp at heq
    · rename_i sbn' heq
      rw [hsbn] at heq
      have hs : sbn' = sbn := by
        injection heq with hs'
        exact hs'.symm
      subst hs
      split
      · rename_i rc1' e' hupd'
        rw [hupd] at hupd'
        injection hupd' with ha hb
        simp at hb
      · rename_i rc1' u' hupd'
        rw [hupd] at hupd'
        injection hupd' with ha hb
        injection hb with hb'
        subst ha
        subst hb'
        rw [if_neg (by simp [hpd])]
        rw [if_neg (by intro hc; rw [hdb] at hc; simp at hc)]

/-- Decidable equality for `Except` results, used to evaluate the embedding
on concrete inputs. -/
instance {e a : Type} [DecidableEq e] [DecidableEq a] : DecidableEq (Except e a) :=
  fun x y =>
    match x, y with
    | .ok v, .ok w =>
      if h : v = w then .isTrue (by rw [h])
      else .isFalse (by intro hc; injection hc; contradiction)
    | .error v, .error w =>
      if h : v = w then .isTrue (by rw [h])
      else .isFalse (by intro hc; injection hc; contradiction)
    | .ok _, .error _ => .isFalse (by intro hc; exact Except.noConfusion hc)
    | .error _, .ok _ => .isFalse (by intro hc; exact Except.noConfusion hc)

/-- A one-block slab holding a single provisional reference, about to receive
the data decrement that releases it. -/
def c4_state : ref_counts :=
  { block_count := 1
    counters := [255]
    free_blocks := 0
    blocks := [{ commit_points := [⟨0, 0⟩] }]
    slab_start := 10
    origin := 20
    slab_open := true
    slab_journal_point := ⟨0, 0⟩
    cursor_block := 0
    cursor_index := 0
    cursor_end_index := 1
    dirty_queue := []
    read_only := false }

/-- C4 counterexample: a successful `adjust_reference_count` (the decrement of
a provisional reference) given a valid journal point after which the
`slab_journal_point` is NOT advanced to it and the target block is neither
dirtied nor journal-locked: the claim's "for every successful update" is
false because a provisional decrement returns before the journal-point
advance and the journal-lock bookkeeping. -/
theorem claim_C4_counterexample :
    (adjust_reference_count ⟨1, 4⟩ c4_state ⟨.DATA_DECREMENT, 10, false⟩
        (some ⟨5, 0⟩)).status = .ok ()
    ∧ is_valid_journal_point (some (⟨5, 0⟩ : journal_point)) = true
    ∧ (adjust_reference_count ⟨1, 4⟩ c4_state ⟨.DATA_DECREMENT, 10, false⟩
        (some ⟨5, 0⟩)).rc.slab_journal_point ≠ ⟨5, 0⟩
    ∧ ((adjust_reference_count ⟨1, 4⟩ c4_state ⟨.DATA_DECREMENT, 10, false⟩
        (some ⟨5, 0⟩)).rc.blocks.getD 0 default).is_dirty = false
    ∧ ((adjust_reference_count ⟨1, 4⟩ c4_state ⟨.DATA_DECREMENT, 10, false⟩
        (some ⟨5, 0⟩)).rc.blocks.getD 0 default).slab_journal_lock = 0 := by
  decide

/-- Modelled from the spec (amended): the journal interaction of
`adjust_reference_count`, restricted to updates that complete without the
provisional-decrement short-circuit (`rc1` is the state and `bi` the target
block right after `update_reference_count`): a valid journal point is
installed as the `slab_journal_point`; a dirty block with a journal lock
keeps its state, releasing the per-entry journal lock (the journal point
being valid is then forced by an assertion); otherwise the block's journal
lock becomes the entry's sequence number (or 0 with no valid point) and the
block is dirtied. -/
def spec_journal_interaction (g : geometry) (rc1 : ref_counts)
    (pt : Option journal_point) (sbn : Nat) (r : adjust_result) : Prop :=
  let bi := sbn / COUNTS_PER_BLOCK g
  let blk := rc1.blocks.getD bi default
  (is_valid_journal_point pt = true → r.rc.slab_journal_point = pt.getD ⟨0, 0⟩)
  ∧ (blk.is_dirty = true ∧ 0 < blk.slab_journal_lock →
      (is_valid_journal_point pt = true →
        r.journal = [((pt.getD ⟨0, 0⟩).sequence_number, -1)] ∧ r.rc = rc1)
      ∧ (is_valid_journal_point pt = false →
        r.status = .error .UDS_ASSERTION_FAILED))
  ∧ (¬(blk.is_dirty = true ∧ 0 < blk.slab_journal_lock) →
      r.journal = []
      ∧ (r.rc.blocks.getD bi default).slab_journal_lock
          = (if is_valid_journal_point pt = true then
              (pt.getD ⟨0, 0⟩).sequence_number
            else 0)
      ∧ (r.rc.blocks.getD bi default).is_dirty = true)

/-- C4 (amended): for every `adjust_reference_count` call on an open slab
whose underlying `update_reference_count` succeeds without a provisional
decrement, the spec's journal interaction holds.  (As stated the claim is
false: a successful provisional decrement skips both the journal-point
advance and the lock bookkeeping; see the counterexample.) -/
theorem claim_C4 {g : geometry} {rc rc1 : ref_counts} {op : reference_operation}
    {pt : Option journal_point} {sbn : Nat} {u : update_result}
    (hopen : rc.slab_open = true)
    (hsbn : slab_block_number_from_pbn rc op.pbn = .ok sbn)
    (hupd : update_reference_count g rc (sbn / COUNTS_PER_BLOCK g) sbn pt op true
      = (rc1, .ok u))
    (hpd : u.provisional_decrement = false)
    (hbi : sbn / COUNTS_PER_BLOCK g < rc1.blocks.length) :
    spec_journal_interaction g rc1 pt sbn (adjust_reference_count g rc op pt) := by
  simp only [spec_journal_interaction]
  refine ⟨?_, ?_, ?_⟩
  · intro hv
    obtain ⟨-, -, -, hsp, -, -, -, -⟩ := adjust_ok_shape hopen hsbn hupd hpd
    rw [hsp]
    exact update_ok_advances hupd hpd hv
  · intro hdl
    have hdb : ((rc1.blocks.getD (sbn / COUNTS_PER_BLOCK g) default).is_dirty
        && decide (0 < (rc1.blocks.getD
            (sbn / COUNTS_PER_BLOCK g) default).slab_journal_lock)) = true := by
      rw [hdl.1, Bool.true_and]
      exact decide_eq_true hdl.2
    constructor
    · intro hv
      rw [adjust_dirty_lock_shape hopen hsbn hupd hpd hdb hv]
      exact ⟨rfl, rfl⟩
    · intro hnv
      rw [adjust_assert_shape hopen hsbn hupd hpd hdb hnv]
  · intro hnd
    have hdb : ((rc1.blocks.getD (sbn / COUNTS_PER_BLOCK g) default).is_dirty
        && decide (0 < (rc1.blocks.getD
            (sbn / COUNTS_PER_BLOCK g) default).slab_journal_lock)) = false := by
      cases hd : (rc1.blocks.getD (sbn / COUNTS_PER_BLOCK g) default).is_dirty
      · rw [Bool.false_and]
      · rw [Bool.true_and]
        exact decide_eq_false (fun hl => hnd ⟨hd, hl⟩)
    rw [adjust_clean_shape hopen hsbn hupd hpd hdb]
    refine ⟨rfl, ?_, ?_⟩
    · rw [dirty_block_lock]
      show ((rc1.blocks.set (sbn / COUNTS_PER_BLOCK g)
          ({ rc1.blocks.getD (sbn / COUNTS_PER_BLOCK g) default with
              slab_journal_lock :=
                if is_valid_journal_point pt = true then
                  (pt.getD ⟨0, 0⟩).sequence_number
                else 0 })).getD (sbn / COUNTS_PER_BLOCK g) default).slab_journal_lock
        = if is_valid_journal_point pt = true then
            (pt.getD ⟨0, 0⟩).sequence_number
          else 0
      rw [getD_set_self hbi]
    · exact dirty_block_dirty _ _ (by simpa using hbi)

theorem claim_C4_witness :
    spec_journal_interaction ⟨1, 4⟩
      (update_reference_count ⟨1, 4⟩ (make_ref_counts ⟨1, 4⟩ 3 10 20 true) 0 0
        (some ⟨7, 0⟩) ⟨.DATA_INCREMENT, 10, false⟩ true).1
      (some ⟨7, 0⟩) 0
      (adjust_reference_count ⟨1, 4⟩ (make_ref_counts ⟨1, 4⟩ 3 10 20 true)
        ⟨.DATA_INCREMENT, 10, false⟩ (some ⟨7, 0⟩)) :=
  @claim_C4 ⟨1, 4⟩ (make_ref_counts ⟨1, 4⟩ 3 10 20 true)
    (update_reference_count ⟨1, 4⟩ (make_ref_counts ⟨1, 4⟩ 3 10 20 true) 0 0
      (some ⟨7, 0⟩) ⟨.DATA_INCREMENT, 10, false⟩ true).1
    ⟨.DATA_INCREMENT, 10, false⟩ (some ⟨7, 0⟩) 0 { free_status_changed := true }
    rfl (by decide) (by decide) (by decide) (by decide)

/-! ### C5: `allocate_unreferenced_block` -/

theorem getD_set_dirty (l : List reference_block) (j : Nat) (b : reference_block)
    (hb : b.is_dirty = (l.getD j default).is_dirty) (i : Nat) :
    ((l.set j b).getD i default).is_dirty = ((l.getD i default)).is_dirty := by
  by_cases hij : i = j
  · subst hij
    by_cases hj : i < l.length
    · rw [getD_set_self hj]
      exact hb
    · rw [set_beyond l i b (by omega)]
  · rw [getD_set_ne hij]

/-- `allocate_unreferenced_block` on an open slab whose search misses. -/
theorem allocate_none_eq {g : geometry} {rc rc1 : ref_counts}
    (hopen : rc.slab_open = true)
    (hsr : search_reference_blocks g rc = (rc1, none)) :
    allocate_unreferenced_block g rc = (rc1, .error .VDO_NO_SPACE) := by
  simp only [allocate_unreferenced_block]
  split
  · rename_i hno
    rw [hopen] at hno
    simp at hno
  · split
    · rename_i rc1' hsr'
      rw [hsr] at hsr'
      injection hsr' with ha hb
      subst ha
      rfl
    · rename_i rc1' fi hsr'
      rw [hsr] at hsr'
      injection hsr' with ha hb
      simp at hb

/-- `allocate_unreferenced_block` on an open slab whose search hits. -/
theorem allocate_some_eq {g : geometry} {rc rc1 : ref_counts} {found : Nat}
    (hopen : rc.slab_open = true)
    (hsr : search_reference_blocks g rc = (rc1, some found)) :
    allocate_unreferenced_block g rc
      = ({ make_provisional_reference g rc1 found with cursor_index := found + 1 },
         .ok (index_to_pbn
           ({ make_provisional_reference g rc1 found with cursor_index := found + 1 })
           found)) := by
  simp only [allocate_unreferenced_block]
  split
  · rename_i hno
    rw [hopen] at hno
    simp at hno
  · split
    · rename_i rc1' hsr'
      rw [hsr] at hsr'
      injection hsr' with ha hb
      simp at hb
    · rename_i rc1' fi hsr'
      rw [hsr] at hsr'
      injection hsr' with ha hb
      injection hb with hb'
      subst ha
      subst hb'
      rfl

/-- Modelled from the spec: the `allocate()` contract of §4.5 — refuse unless
the slab is open; report `NO_SPACE` when the sweep from the search cursor to
the end of the slab sees no `EMPTY` counter; and on a hit at array index
`found`, write `PROVISIONAL` into that counter, bump the containing block's
`allocated_count`, decrement `free_blocks`, advance the cursor past the hit,
return `slab start + found`, and touch neither dirty state nor the journal. -/
def spec_allocate (g : geometry) (rc : ref_counts) : Prop :=
  (rc.slab_open = false →
    allocate_unreferenced_block g rc = (rc, .error .VDO_INVALID_ADMIN_STATE))
  ∧ (rc.slab_open = true →
      (∀ i, rc.cursor_index ≤ i → i < rc.block_count →
        nth rc.counters i ≠ EMPTY_REFERENCE_COUNT) →
      (allocate_unreferenced_block g rc).2 = .error .VDO_NO_SPACE)
  ∧ (rc.slab_open = true →
      ∀ rc1 found, search_reference_blocks g rc = (rc1, some found) →
        (allocate_unreferenced_block g rc).2 = .ok (rc.slab_start + found)
        ∧ (allocate_unreferenced_block g rc).1.counters
            = rc.counters.set found PROVISIONAL_REFERENCE_COUNT
        ∧ (((allocate_unreferenced_block g rc).1.blocks.getD
              (found / COUNTS_PER_BLOCK g) default)).allocated_count
            = inc64 ((rc.blocks.getD (found / COUNTS_PER_BLOCK g) default)).allocated_count
        ∧ (allocate_unreferenced_block g rc).1.free_blocks = dec64 rc.free_blocks
        ∧ (allocate_unreferenced_block g rc).1.cursor_index = found + 1
        ∧ (∀ j, (((allocate_unreferenced_block g rc).1.blocks.getD j default)).is_dirty
            = ((rc.blocks.getD j default)).is_dirty)
        ∧ (allocate_unreferenced_block g rc).1.dirty_queue = rc.dirty_queue
        ∧ (allocate_unreferenced_block g rc).1.slab_journal_point = rc.slab_journal_point)

/-- C5: `allocate_unreferenced_block` follows the spec's allocation contract:
`VDO_INVALID_ADMIN_STATE` on a closed slab; `VDO_NO_SPACE` when no counter
from the search cursor to the end of the slab is `EMPTY`; and on a hit the
provisional reservation is made in memory only (counter set to `PROVISIONAL`,
`allocated_count` up, `free_blocks` down, cursor just past the hit, pbn =
slab start + index) with no dirtying and no journal interaction. -/
theorem claim_C5 {g : geometry} {rc : ref_counts} (h : ref_counts_invariant g rc) :
    spec_allocate g rc := by
  refine ⟨?_, ?_, ?_⟩
  · intro hno
    simp only [allocate_unreferenced_block, hno]
    rfl
  · intro hopen hnone
    cases hsr : search_reference_blocks g rc with
    | mk rc1 o =>
      cases o with
      | none =>
        rw [allocate_none_eq hopen hsr]
      | some i =>
        exfalso
        have hs := (search_spec h).2.2 i
        rw [hsr] at hs
        obtain ⟨h1, -, h3, h4⟩ := hs rfl
        exact hnone i h1 h3 h4
  · intro hopen rc1 found hsr
    obtain ⟨hinv1, hco, hsome⟩ := search_spec h
    rw [hsr] at hinv1 hco
    obtain ⟨hle, hlt_end, hlt_bc, hzero⟩ := by
      have := hsome found
      rw [hsr] at this
      exact this rfl
    obtain ⟨hbc, hcnt, hfree, hblocks, hsl, -, -, hsjp, hq, -⟩ := hco
    have hjlt : found / COUNTS_PER_BLOCK g < rc1.blocks.length :=
      sbn_block_lt hinv1.cpb_pos hinv1.blocks_cover (by rw [hbc]; exact hlt_bc)
    have hall := allocate_some_eq hopen hsr
    rw [hall]
    refine ⟨?_, ?_, ?_, ?_, rfl, ?_, ?_, ?_⟩
    · show Except.ok (rc1.slab_start + found) = Except.ok (rc.slab_start + found)
      rw [hsl]
    · show rc1.counters.set found PROVISIONAL_REFERENCE_COUNT
        = rc.counters.set found PROVISIONAL_REFERENCE_COUNT
      rw [hcnt]
    · show ((make_provisional_reference g rc1 found).blocks.getD
          (found / COUNTS_PER_BLOCK g) default).allocated_count
        = inc64 ((rc.blocks.getD (found / COUNTS_PER_BLOCK g) default)).allocated_count
      rw [make_provisional_eq_commit, commit_alloc rc1 _ _ _ hjlt]
      show inc64 ((rc1.blocks.getD (found / COUNTS_PER_BLOCK g) default)).allocated_count
        = inc64 ((rc.blocks.getD (found / COUNTS_PER_BLOCK g) default)).allocated_count
      rw [hblocks]
    · show (make_provisional_reference g rc1 found).free_blocks = dec64 rc.free_blocks
      rw [make_provisional_eq_commit, commit_free]
      show dec64 rc1.free_blocks = dec64 rc.free_blocks
      rw [hfree]
    · intro j
      show (((rc1.blocks.set (found / COUNTS_PER_BLOCK g)
          ({ rc1.blocks.getD (found / COUNTS_PER_BLOCK g) default with
              allocated_count :=
                inc64 ((rc1.blocks.getD
                  (found / COUNTS_PER_BLOCK g) default)).allocated_count })).getD
            j default)).is_dirty
        = ((rc.blocks.getD j default)).is_dirty
      rw [getD_set_dirty rc1.blocks (found / COUNTS_PER_BLOCK g)
        ({ rc1.blocks.getD (found / COUNTS_PER_BLOCK g) default with
            allocated_count :=
              inc64 ((rc1.blocks.getD
                (found / COUNTS_PER_BLOCK g) default)).allocated_count })
        rfl j, hblocks]
    · show rc1.dirty_queue = rc.dirty_queue
      exact hq
    · show rc1.slab_journal_point = rc.slab_journal_point
      exact hsjp

theorem claim_C5_witness :
    spec_allocate ⟨1, 4⟩ (make_ref_counts ⟨1, 4⟩ 3 10 20 true) :=
  claim_C5 (invariant_make 3 10 20 true (by norm_num) (by norm_num [W64])
    (by norm_num [COUNTS_PER_BLOCK]))

/-! ### C6: the BLOCK_MAP_INCREMENT table -/

/-- Modelled from the spec: the BLOCK_MAP_INCREMENT rows of the §4.4
transition table, read off `increment_for_block_map` (the `lock` flag models
a non-null pbn lock; `unassigned` records the
`unassign_provisional_reference` call). -/
def spec_block_map_increment_table (allocated_count free_blocks : Nat) (lock : Bool)
    (counter : Nat) : Prop :=
  (counter = EMPTY_REFERENCE_COUNT →
    increment_for_block_map allocated_count free_blocks
        (reference_count_to_status counter) lock true counter
      = .error .VDO_REF_COUNT_INVALID)
  ∧ (counter = EMPTY_REFERENCE_COUNT →
    increment_for_block_map allocated_count free_blocks
        (reference_count_to_status counter) lock false counter
      = .ok { counter := MAXIMUM_REFERENCE_COUNT
              allocated_count := inc64 allocated_count
              free_blocks := dec64 free_blocks
              free_status_changed := true })
  ∧ (counter = PROVISIONAL_REFERENCE_COUNT →
    increment_for_block_map allocated_count free_blocks
        (reference_count_to_status counter) lock true counter
      = .ok { counter := MAXIMUM_REFERENCE_COUNT
              allocated_count := allocated_count
              free_blocks := free_blocks
              free_status_changed := false
              unassigned := lock })
  ∧ (counter = PROVISIONAL_REFERENCE_COUNT →
    increment_for_block_map allocated_count free_blocks
        (reference_count_to_status counter) lock false counter
      = .error .VDO_REF_COUNT_INVALID)
  ∧ (counter ≠ EMPTY_REFERENCE_COUNT → counter ≠ PROVISIONAL_REFERENCE_COUNT →
    ∀ nrm, increment_for_block_map allocated_count free_blocks
        (reference_count_to_status counter) lock nrm counter
      = .error .VDO_REF_COUNT_INVALID)

/-- C6: `increment_for_block_map` follows the spec's transition table: a FREE
counter is an error in normal operation but becomes MAXIMUM (allocating the
block) during replay or rebuild; a PROVISIONAL counter becomes MAXIMUM in
normal operation (unassigning the lock's provisional reference) but is an
error during replay; and every other old status is an error. -/
theorem claim_C6 (allocated_count free_blocks : Nat) (lock : Bool) (counter : Nat) :
    spec_block_map_increment_table allocated_count free_blocks lock counter := by
  refine ⟨?_, ?_, ?_, ?_, ?_⟩
  · intro h0
    simp [increment_for_block_map, reference_count_to_status, h0, EMPTY_REFERENCE_COUNT]
  · intro h0
    simp [increment_for_block_map, reference_count_to_status, h0, EMPTY_REFERENCE_COUNT,
      MAXIMUM_REFERENCE_COUNT]
  · intro h255
    simp [increment_for_block_map, reference_count_to_status, h255, EMPTY_REFERENCE_COUNT,
      PROVISIONAL_REFERENCE_COUNT, MAXIMUM_REFERENCE_COUNT]
  · intro h255
    simp [increment_for_block_map, reference_count_to_status, h255, EMPTY_REFERENCE_COUNT,
      PROVISIONAL_REFERENCE_COUNT]
  · intro h0 h255 nrm
    have h0' : counter ≠ 0 := h0
    have h255' : counter ≠ 255 := h255
    by_cases h1 : counter = 1 <;>
      simp [increment_for_block_map, reference_count_to_status, h0', h255', h1,
        EMPTY_REFERENCE_COUNT, PROVISIONAL_REFERENCE_COUNT]

/-! ### C7: allocation followed by an unlocked data decrement is the identity -/

/-- Modelled from the spec: the provisional-reversal law of §8 — after a
successful allocation returning pbn `p`, a DATA_DECREMENT of `p` with no
lock succeeds as a provisional decrement that restores the counters, every
block's `allocated_count`, and `free_blocks`, taking no journal lock and
dirtying nothing. -/
def spec_provisional_reversal (g : geometry) (rc : ref_counts) (p : Nat)
    (pt : Option journal_point) : Prop :=
  let rca := (allocate_unreferenced_block g rc).1
  let r := adjust_reference_count g rca
    { type := .DATA_DECREMENT, pbn := p, lock := false } pt
  r.status = .ok ()
  ∧ r.provisional_decrement = true
  ∧ r.journal = []
  ∧ r.rc.counters = rc.counters
  ∧ r.rc.free_blocks = rc.free_blocks
  ∧ (∀ j, ((r.rc.blocks.getD j default)).allocated_count
      = ((rc.blocks.getD j default)).allocated_count)
  ∧ (∀ j, ((r.rc.blocks.getD j default)).is_dirty = ((rc.blocks.getD j default)).is_dirty)
  ∧ r.rc.dirty_queue = rc.dirty_queue

/-- C7: in every well-formed open-slab state in which
`allocate_unreferenced_block` succeeds returning PBN `p`, immediately
adjusting `p` with DATA_DECREMENT and no lock restores the counters, the
per-block allocation counts and the free count to their pre-allocation
values; the update is a provisional decrement, so no slab journal reference
is taken and no block is dirtied. -/
theorem claim_C7 {g : geometry} {rc : ref_counts} {p : Nat} {pt : Option journal_point}
    (h : ref_counts_invariant g rc) (hopen : rc.slab_open = true)
    (halloc : (allocate_unreferenced_block g rc).2 = .ok p) :
    spec_provisional_reversal g rc p pt := by
  cases hsr : search_reference_blocks g rc with
  | mk rc1 o =>
    cases o with
    | none =>
      rw [allocate_none_eq hopen hsr] at halloc
      simp at halloc
    | some found =>
      obtain ⟨hinv1, hco, hsome⟩ := search_spec h
      rw [hsr] at hinv1 hco
      obtain ⟨hle, hlt_end, hlt_bc, hzero⟩ := by
        have := hsome found
        rw [hsr] at this
        exact this rfl
      obtain ⟨hcbc, hcnt, hfree, hblocks, hsl, -, hso, hsjp, hq, -⟩ := hco
      have hall := allocate_some_eq hopen hsr
      rw [hall] at halloc
      have hp : Except.ok (rc1.slab_start + found) = Except.ok p := halloc
      injection hp with hp'
      subst hp'
      simp only [spec_provisional_reversal]
      have hall1 : (allocate_unreferenced_block g rc).1
          = ({ make_provisional_reference g rc1 found with cursor_index := found + 1 }) := by
        rw [hall]
      rw [hall1]
      set bi := found / COUNTS_PER_BLOCK g with hbidef
      set rca := ({ make_provisional_reference g rc1 found with
        cursor_index := found + 1 } : ref_counts) with hrcadef
      have hopen_a : rca.slab_open = true := by
        show rc1.slab_open = true
        rw [hso]
        exact hopen
      have hlen1 : found < rc1.counters.length := by
        rw [hinv1.counters_len, hcbc]
        exact hlt_bc
      have hcnt_a : nth rca.counters found = 255 := by
        show nth (rc1.counters.set found PROVISIONAL_REFERENCE_COUNT) found = 255
        exact nth_set_self hlen1 PROVISIONAL_REFERENCE_COUNT
      have hsbn_a : slab_block_number_from_pbn rca
          (reference_operation.mk .DATA_DECREMENT (rc1.slab_start + found) false).pbn
            = .ok found := by
        show slab_block_number_from_pbn rca (rc1.slab_start + found) = .ok found
        unfold slab_block_number_from_pbn
        have hst : rca.slab_start = rc1.slab_start := rfl
        have hbc' : rca.block_count = rc1.block_count := rfl
        rw [hst, hbc']
        rw [if_neg (by omega), if_pos (by rw [hcbc]; omega)]
        have harith : rc1.slab_start + found - rc1.slab_start = found := by omega
        rw [harith]
      have hupd := update_eq_dec_prov_nolock g rca bi found pt
        (rc1.slab_start + found) false true hcnt_a rfl
      have hshape := adjust_prov_shape hopen_a hsbn_a hupd rfl
      set OUT : update_outcome := { counter := 0, allocated_count := dec64 ((rca.blocks.getD bi default)).allocated_count, free_blocks := inc64 rca.free_blocks, free_status_changed := true } with hOUTdef
      have hbilen : bi < rc.blocks.length :=
        sbn_block_lt h.cpb_pos h.blocks_cover hlt_bc
      have hBnew : rca.blocks.getD bi default
          = ({ rc.blocks.getD bi default with
              allocated_count := inc64 ((rc.blocks.getD bi default)).allocated_count }) := by
        have h1' : rca.blocks = rc.blocks.set bi
            ({ rc.blocks.getD bi default with
              allocated_count := inc64 ((rc.blocks.getD bi default)).allocated_count }) := by
          show rc1.blocks.set bi
              ({ rc1.blocks.getD bi default with
                allocated_count := inc64 ((rc1.blocks.getD bi default)).allocated_count })
            = _
          rw [hblocks]
        rw [h1']
        exact getD_set_self hbilen _ _
      have hx : ((rc.blocks.getD bi default)).allocated_count < W64 :=
        lt_of_le_of_lt (le_trans (invariant_alloc_le h hbilen) (block_range_len_le g rc bi))
          h.bc_lt
      have hOUTalloc : OUT.allocated_count = ((rc.blocks.getD bi default)).allocated_count := by
        show dec64 ((rca.blocks.getD bi default)).allocated_count = _
        rw [hBnew]
        show dec64 (inc64 ((rc.blocks.getD bi default)).allocated_count) = _
        exact dec64_inc64 hx
      have hblocks_final : (commit_outcome rca bi found OUT).blocks = rc.blocks := by
        show rca.blocks.set bi
            ({ rca.blocks.getD bi default with allocated_count := OUT.allocated_count })
          = rc.blocks
        have h1' : rca.blocks = rc.blocks.set bi
            ({ rc.blocks.getD bi default with
              allocated_count := inc64 ((rc.blocks.getD bi default)).allocated_count }) := by
          show rc1.blocks.set bi
              ({ rc1.blocks.getD bi default with
                allocated_count := inc64 ((rc1.blocks.getD bi default)).allocated_count })
            = _
          rw [hblocks]
        rw [hBnew, hOUTalloc, h1', List.set_set]
        exact set_getD_self rc.blocks bi default
      have hcnt_final : (commit_outcome rca bi found OUT).counters = rc.counters := by
        show rca.counters.set found OUT.counter = rc.counters
        have hc1 : rca.counters = rc.counters.set found PROVISIONAL_REFERENCE_COUNT := by
          show rc1.counters.set found PROVISIONAL_REFERENCE_COUNT = _
          rw [hcnt]
        have hc2 : OUT.counter = nth rc.counters found := by
          show EMPTY_REFERENCE_COUNT = nth rc.counters found
          rw [hzero]
          rfl
        rw [hc1, hc2, List.set_set]
        exact set_nth_self rc.counters found
      have hfW : rc.free_blocks < W64 := lt_of_le_of_lt (invariant_free_le h) h.bc_lt
      have hfree_final : (commit_outcome rca bi found OUT).free_blocks = rc.free_blocks := by
        show inc64 (dec64 rc1.free_blocks) = rc.free_blocks
        rw [hfree]
        exact inc64_dec64 hfW
      have hq_final : (commit_outcome rca bi found OUT).dirty_queue = rc.dirty_queue := by
        show rc1.dirty_queue = rc.dirty_queue
        exact hq
      refine ⟨?_, ?_, ?_, ?_, ?_, ?_, ?_, ?_⟩
      · rw [hshape]
      · rw [hshape]
      · rw [hshape]
      · rw [hshape]
        exact hcnt_final
      · rw [hshape]
        exact hfree_final
      · intro j
        rw [hshape]
        exact congrArg (fun (l : List reference_block) =>
          ((l.getD j default)).allocated_count) hblocks_final
      · intro j
        rw [hshape]
        exact congrArg (fun (l : List reference_block) =>
          ((l.getD j default)).is_dirty) hblocks_final
      · rw [hshape]
        exact hq_final

theorem claim_C7_witness :
    spec_provisional_reversal ⟨1, 4⟩ (make_ref_counts ⟨1, 4⟩ 3 10 20 true) 10 none :=
  claim_C7 (invariant_make 3 10 20 true (by norm_num) (by norm_num [W64])
    (by norm_num [COUNTS_PER_BLOCK])) rfl (by decide)

/-! ### C8: the pack/unpack round trip -/

theorem nth_map_range (f : Nat → Nat) {n k : Nat} (h : k < n) :
    nth ((List.range n).map f) k = f k := by
  have hk : k < ((List.range n).map f).length := by simpa using h
  show ((List.range n).map f).getD k 0 = f k
  rw [List.getD_eq_getElem _ _ hk, List.getElem_map, List.getElem_range]

theorem getD_map_range {α : Type} [Inhabited α] (f : Nat → α) {n i : Nat} (h : i < n) :
    ((List.range n).map f).getD i default = f i := by
  have hk : i < ((List.range n).map f).length := by simpa using h
  rw [List.getD_eq_getElem _ _ hk, List.getElem_map, List.getElem_range]

/-- Copying bytes that already equal the destination's is the identity. -/
theorem memcpy_id (bl : List Nat) (off : Nat) :
    ∀ (n : Nat) (src : List Nat), (∀ k, k < n → nth src k = nth bl (off + k)) →
      memcpy_counts bl off src n = bl := by
  intro n
  induction n with
  | zero => intro src _; rfl
  | succ m ih =>
    intro src hsrc
    unfold memcpy_counts
    rw [List.range_succ, List.foldl_append]
    have hpre : (List.range m).foldl (fun cs k => cs.set (off + k) (nth src k)) bl = bl := by
      have h1 := ih src (fun k hk => hsrc k (by omega))
      unfold memcpy_counts at h1
      exact h1
    rw [hpre]
    simp only [List.foldl_cons, List.foldl_nil]
    rw [hsrc m (by omega)]
    exact set_nth_self bl (off + m)

theorem foldl_set_len {α : Type} (v : α) :
    ∀ (m : Nat) (l : List α),
      ((List.range m).foldl (fun cps j => cps.set j v) l).length = l.length := by
  intro m
  induction m with
  | zero => intro l; rfl
  | succ m ih =>
    intro l
    rw [List.range_succ, List.foldl_append]
    simp only [List.foldl_cons, List.foldl_nil]
    rw [List.length_set]
    exact ih l

theorem foldl_set_getD {α : Type} [Inhabited α] (v : α) :
    ∀ (m : Nat) (l : List α) (i : Nat), i < m → i < l.length →
      ((List.range m).foldl (fun cps j => cps.set j v) l).getD i default = v := by
  intro m
  induction m with
  | zero => intro l i hi _; omega
  | succ m ih =>
    intro l i hi hl
    rw [List.range_succ, List.foldl_append]
    simp only [List.foldl_cons, List.foldl_nil]
    by_cases him : i = m
    · subst him
      have : i < ((List.range i).foldl (fun cps j => cps.set j v) l).length := by
        rw [foldl_set_len]
        exact hl
      exact getD_set_self this v default
    · rw [getD_set_ne him]
      exact ih l i (by omega) hl

/-- The true pack/unpack round trip: the counter bytes come back verbatim
(`PROVISIONAL` values included), every sector commit point is replaced by the
`slab_journal_point` that was stamped at pack time, and the allocated count
is recounted from the counters. -/
theorem unpack_pack (g : geometry) (sjp : journal_point) (bl : List Nat)
    (cp0 : List journal_point)
    (hsjp : unpack_journal_point (pack_journal_point sjp) = sjp) :
    unpack_reference_block g (pack_reference_block g sjp bl) bl cp0 sjp
      = { counters := bl
          commit_points := (List.range g.SECTORS_PER_BLOCK).foldl
            (fun cps i => cps.set i sjp) cp0
          slab_journal_point := sjp
          allocated_count := (List.range (COUNTS_PER_BLOCK g)).countP
            (fun index => nth bl index != 0) } := by
  have hfold : ∀ m, m ≤ g.SECTORS_PER_BLOCK →
      (List.range m).foldl
        (fun (st : List Nat × List journal_point × journal_point) (i : Nat) =>
          (memcpy_counts st.1 (i * g.COUNTS_PER_SECTOR)
             ((pack_reference_block g sjp bl).sectors.getD i default).counts
             g.COUNTS_PER_SECTOR,
           st.2.1.set i (unpack_journal_point
             ((pack_reference_block g sjp bl).sectors.getD i default).commit_point),
           if before_journal_point st.2.2 (unpack_journal_point
               ((pack_reference_block g sjp bl).sectors.getD i default).commit_point) then
             unpack_journal_point
               ((pack_reference_block g sjp bl).sectors.getD i default).commit_point
           else st.2.2))
        (bl, cp0, sjp)
      = (bl, (List.range m).foldl (fun cps i => cps.set i sjp) cp0, sjp) := by
    intro m
    induction m with
    | zero => intro _; rfl
    | succ m ih =>
      intro hm
      rw [List.range_succ, List.foldl_append, List.foldl_append, ih (by omega)]
      simp only [List.foldl_cons, List.foldl_nil]
      have hsec : (pack_reference_block g sjp bl).sectors.getD m default
          = { commit_point := pack_journal_point sjp,
              counts := (List.range g.COUNTS_PER_SECTOR).map
                (fun k => nth bl (m * g.COUNTS_PER_SECTOR + k)) } := by
        show ((List.range g.SECTORS_PER_BLOCK).map _).getD m default = _
        exact getD_map_range _ (by omega)
      rw [hsec]
      simp only [hsjp]
      rw [memcpy_id bl (m * g.COUNTS_PER_SECTOR) g.COUNTS_PER_SECTOR _
        (fun k hk => nth_map_range _ hk)]
      split <;> rfl
  have hF := hfold g.SECTORS_PER_BLOCK (le_refl _)
  simp only [unpack_reference_block]
  rw [hF]

/-- C8 counterexample: after packing a block whose window holds a
`PROVISIONAL` (255) counter and unpacking it, the counter is still 255 (not
normalized to `EMPTY`), and a sector's commit point has been replaced by the
packed `slab_journal_point` rather than preserved. -/
theorem claim_C8_counterexample :
    nth (unpack_reference_block ⟨2, 2⟩
      (pack_reference_block ⟨2, 2⟩ ⟨3, 1⟩ [255, 0, 0, 0])
      [255, 0, 0, 0] [⟨1, 0⟩, ⟨2, 0⟩] ⟨3, 1⟩).counters 0 = 255
    ∧ (unpack_reference_block ⟨2, 2⟩
      (pack_reference_block ⟨2, 2⟩ ⟨3, 1⟩ [255, 0, 0, 0])
      [255, 0, 0, 0] [⟨1, 0⟩, ⟨2, 0⟩] ⟨3, 1⟩).commit_points.getD 0 default
        ≠ (⟨1, 0⟩ : journal_point) := by
  decide

/-- Modelled from the spec (amended): the pack/unpack round trip for a block
window `bl` with in-memory commit points `cp0` under slab journal point
`sjp`: the counters come back verbatim (PROVISIONAL included — normalization
to EMPTY happens later, in `clear_provisional_references`), every sector's
commit point becomes `sjp` (the value stamped by `pack_reference_block`),
the `slab_journal_point` is unchanged, and `allocated_count` is recounted as
the non-EMPTY counters of the window. -/
def spec_pack_unpack_roundtrip (g : geometry) (sjp : journal_point) (bl : List Nat)
    (cp0 : List journal_point) : Prop :=
  let u := unpack_reference_block g (pack_reference_block g sjp bl) bl cp0 sjp
  u.counters = bl
  ∧ (∀ i, i < g.SECTORS_PER_BLOCK → u.commit_points.getD i default = sjp)
  ∧ u.slab_journal_point = sjp
  ∧ u.allocated_count
      = (List.range (COUNTS_PER_BLOCK g)).countP (fun index => nth bl index != 0)

/-- C8 (amended): packing a reference block and immediately unpacking the
buffer restores the counter bytes exactly — including `PROVISIONAL` ones,
which are NOT normalized here — recounts `allocated_count` from them, and
stamps the packed `slab_journal_point` into every sector commit point, so
the in-memory commit points are overwritten rather than preserved.  (As
stated the claim is false on both counts; see the counterexample.) -/
theorem claim_C8 {g : geometry} {sjp : journal_point} {bl : List Nat}
    {cp0 : List journal_point}
    (hseq : sjp.sequence_number < W64) (hent : sjp.entry_count < 65536)
    (hcp : cp0.length = g.SECTORS_PER_BLOCK) :
    spec_pack_unpack_roundtrip g sjp bl cp0 := by
  have hsjp : unpack_journal_point (pack_journal_point sjp) = sjp := by
    have h1 : sjp.sequence_number % W64 = sjp.sequence_number := Nat.mod_eq_of_lt hseq
    have h2 : sjp.entry_count % 65536 = sjp.entry_count := Nat.mod_eq_of_lt hent
    show ({ sequence_number := sjp.sequence_number % W64,
            entry_count := sjp.entry_count % 65536 } : journal_point) = sjp
    rw [h1, h2]
  simp only [spec_pack_unpack_roundtrip]
  rw [unpack_pack g sjp bl cp0 hsjp]
  refine ⟨rfl, ?_, rfl, rfl⟩
  intro i hi
  exact foldl_set_getD sjp g.SECTORS_PER_BLOCK cp0 i hi (by rw [hcp]; exact hi)

theorem claim_C8_witness :
    spec_pack_unpack_roundtrip ⟨2, 2⟩ ⟨3, 1⟩ [255, 0, 0, 0] [⟨1, 0⟩, ⟨2, 0⟩] :=
  claim_C8 (by norm_num [W64]) (by norm_num) (by decide)

/-! ### C9: finishing a reference block load -/

theorem countP_range_eq (l : List Nat) (p : Nat → Bool) :
    ∀ n, (List.range n).countP (fun i => p (nth l i)) = count_in_range l p 0 n := by
  intro n
  induction n with
  | zero => rfl
  | succ n ih =>
    rw [List.range_succ, List.countP_append, ih]
    have hs := count_in_range_split l p n 1 0
    rw [hs]
    simp [count_in_range, List.countP_cons]

theorem count_split_255 (l : List Nat) :
    ∀ (n lo : Nat), count_in_range l (fun c => c != 0) lo n
      = count_in_range l (fun c => c != 0 && c != 255) lo n
        + count_in_range l (fun c => c == 255) lo n := by
  intro n
  induction n with
  | zero => intro lo; simp [count_in_range]
  | succ n ih =>
    intro lo
    simp only [count_in_range]
    have hr := ih (lo + 1)
    by_cases h255 : nth l lo = 255 <;> by_cases h0 : nth l lo = 0 <;>
      simp [h255, h0] <;> omega

theorem clear_fold_len (cs : List Nat) (ac : Nat) :
    ∀ m, (((List.range m).foldl
        (fun (st : List Nat × Nat) (j : Nat) =>
          if nth st.1 j = PROVISIONAL_REFERENCE_COUNT then
            (st.1.set j EMPTY_REFERENCE_COUNT, dec64 st.2)
          else st)
        (cs, ac)).1).length = cs.length := by
  intro m
  induction m with
  | zero => rfl
  | succ m ih =>
    rw [List.range_succ, List.foldl_append]
    simp only [List.foldl_cons, List.foldl_nil]
    split
    · rw [List.length_set]
      exact ih
    · exact ih

/-- The clearing fold of `clear_provisional_references`: counters at positions
not yet processed are untouched, processed `PROVISIONAL` counters are zeroed,
and the allocated count drops by the number of `PROVISIONAL` counters seen. -/
theorem clear_fold (cs : List Nat) (ac : Nat) (hac : ac < W64) :
    ∀ m,
      (∀ i, m ≤ i → nth (((List.range m).foldl
          (fun (st : List Nat × Nat) (j : Nat) =>
            if nth st.1 j = PROVISIONAL_REFERENCE_COUNT then
              (st.1.set j EMPTY_REFERENCE_COUNT, dec64 st.2)
            else st)
          (cs, ac)).1) i = nth cs i)
      ∧ (∀ i, i < m → nth (((List.range m).foldl
          (fun (st : List Nat × Nat) (j : Nat) =>
            if nth st.1 j = PROVISIONAL_REFERENCE_COUNT then
              (st.1.set j EMPTY_REFERENCE_COUNT, dec64 st.2)
            else st)
          (cs, ac)).1) i = if nth cs i = 255 then 0 else nth cs i)
      ∧ (count_in_range cs (fun c => c == 255) 0 m ≤ ac →
          ((List.range m).foldl
            (fun (st : List Nat × Nat) (j : Nat) =>
              if nth st.1 j = PROVISIONAL_REFERENCE_COUNT then
                (st.1.set j EMPTY_REFERENCE_COUNT, dec64 st.2)
              else st)
            (cs, ac)).2
          = ac - count_in_range cs (fun c => c == 255) 0 m) := by
  intro m
  induction m with
  | zero =>
    refine ⟨fun i _ => rfl, fun i hi => absurd hi (Nat.not_lt_zero i), fun _ => ?_⟩
    simp [count_in_range]
  | succ m ih =>
    obtain ⟨ih1, ih2, ih3⟩ := ih
    have hsplit := count_in_range_split cs (fun c => c == 255) m 1 0
    have hz : (0 : Nat) + m = m := by omega
    rw [hz] at hsplit
    rw [List.range_succ, List.foldl_append]
    simp only [List.foldl_cons, List.foldl_nil]
    by_cases hcm : nth cs m = 255
    · have hcond : nth (((List.range m).foldl
          (fun (st : List Nat × Nat) (j : Nat) =>
            if nth st.1 j = PROVISIONAL_REFERENCE_COUNT then
              (st.1.set j EMPTY_REFERENCE_COUNT, dec64 st.2)
            else st)
          (cs, ac)).1) m = PROVISIONAL_REFERENCE_COUNT := by
        rw [ih1 m (le_refl m)]
        exact hcm
      rw [if_pos hcond]
      have hmlen : m < cs.length := by
        rcases Nat.lt_or_ge m cs.length with hlt | hge
        · exact hlt
        · exfalso
          have hd : nth cs m = 0 := by
            unfold nth
            exact List.getD_eq_default _ _ hge
          omega
      have hone : count_in_range cs (fun c => c == 255) m 1 = 1 := by
        simp [count_in_range, hcm]
      refine ⟨?_, ?_, ?_⟩
      · intro i hi
        rw [nth_set_ne (by omega)]
        exact ih1 i (by omega)
      · intro i hi
        by_cases him : i = m
        · subst him
          have hlen' : i < (((List.range i).foldl
              (fun (st : List Nat × Nat) (j : Nat) =>
                if nth st.1 j = PROVISIONAL_REFERENCE_COUNT then
                  (st.1.set j EMPTY_REFERENCE_COUNT, dec64 st.2)
                else st)
              (cs, ac)).1).length := by
            rw [clear_fold_len]
            exact hmlen
          rw [nth_set_self hlen', if_pos hcm]
          rfl
        · rw [nth_set_ne him]
          exact ih2 i (by omega)
      · intro hcnt
        rw [hsplit] at hcnt ⊢
        rw [hone] at hcnt ⊢
        have hprev : count_in_range cs (fun c => c == 255) 0 m ≤ ac := by omega
        rw [ih3 hprev]
        have hd := dec64_eq_pred (x := ac - count_in_range cs (fun c => c == 255) 0 m)
          (by omega) (by omega)
        rw [hd]
        omega
    · have hcond : ¬(nth (((List.range m).foldl
          (fun (st : List Nat × Nat) (j : Nat) =>
            if nth st.1 j = PROVISIONAL_REFERENCE_COUNT then
              (st.1.set j EMPTY_REFERENCE_COUNT, dec64 st.2)
            else st)
          (cs, ac)).1) m = PROVISIONAL_REFERENCE_COUNT) := by
        rw [ih1 m (le_refl m)]
        exact hcm
      rw [if_neg hcond]
      have hzero : count_in_range cs (fun c => c == 255) m 1 = 0 := by
        simp [count_in_range, hcm]
      refine ⟨?_, ?_, ?_⟩
      · intro i hi
        exact ih1 i (by omega)
      · intro i hi
        by_cases him : i = m
        · subst him
          rw [if_neg hcm]
          exact ih1 i (le_refl i)
        · exact ih2 i (by omega)
      · intro hcnt
        rw [hsplit] at hcnt ⊢
        rw [hzero] at hcnt ⊢
        have hprev : count_in_range cs (fun c => c == 255) 0 m ≤ ac := by omega
        rw [ih3 hprev]
        omega

/-- Modelled from the spec: the load postconditions of §5/§8 — after
`finish_reference_block_load` (unpack, then clearing of provisional
references) no counter of the block window is `PROVISIONAL`; the block's
`allocated_count` equals the number of counters read from disk that are
neither `EMPTY` nor `PROVISIONAL`; and `free_blocks` drops by exactly that
count. -/
def spec_block_load (g : geometry) (packed : packed_reference_block)
    (counters : List Nat) (cp0 : List journal_point) (sjp : journal_point)
    (free_blocks : Nat) : Prop :=
  let u := unpack_reference_block g packed counters cp0 sjp
  let L := finish_reference_block_load g packed counters cp0 sjp free_blocks
  (∀ i, i < COUNTS_PER_BLOCK g → nth L.counters i ≠ PROVISIONAL_REFERENCE_COUNT)
  ∧ L.allocated_count = (List.range (COUNTS_PER_BLOCK g)).countP
      (fun i => nth u.counters i != EMPTY_REFERENCE_COUNT
        && nth u.counters i != PROVISIONAL_REFERENCE_COUNT)
  ∧ (L.allocated_count ≤ free_blocks → free_blocks < W64 →
      L.free_blocks = free_blocks - L.allocated_count)

/-- C9: after a reference block load completes, no counter of the block's
window equals `PROVISIONAL` (255); the block's `allocated_count` counts
exactly the loaded counters that are neither `EMPTY` nor `PROVISIONAL`; and
`free_blocks` decreases by exactly that count. -/
theorem claim_C9 {g : geometry} {packed : packed_reference_block}
    {counters : List Nat} {cp0 : List journal_point} {sjp : journal_point}
    {free_blocks : Nat} (hcpb : COUNTS_PER_BLOCK g < W64) :
    spec_block_load g packed counters cp0 sjp free_blocks := by
  simp only [spec_block_load]
  set u := unpack_reference_block g packed counters cp0 sjp with hu
  have hA : u.allocated_count
      = count_in_range u.counters (fun c => c != 0) 0 (COUNTS_PER_BLOCK g) := by
    show (List.range (COUNTS_PER_BLOCK g)).countP (fun i => nth u.counters i != 0)
      = count_in_range u.counters (fun c => c != 0) 0 (COUNTS_PER_BLOCK g)
    exact countP_range_eq u.counters (fun c => c != 0) (COUNTS_PER_BLOCK g)
  have hacW : u.allocated_count < W64 := by
    rw [hA]
    exact lt_of_le_of_lt (count_in_range_le _ _ _ _) hcpb
  obtain ⟨hc1, hc2, hc3⟩ := clear_fold u.counters u.allocated_count hacW (COUNTS_PER_BLOCK g)
  have hsp := count_split_255 u.counters (COUNTS_PER_BLOCK g) 0
  have hcnt255 : count_in_range u.counters (fun c => c == 255) 0 (COUNTS_PER_BLOCK g)
      ≤ u.allocated_count := by
    rw [hA]
    omega
  refine ⟨?_, ?_, ?_⟩
  · intro i hi
    show nth (((List.range (COUNTS_PER_BLOCK g)).foldl
        (fun (st : List Nat × Nat) (j : Nat) =>
          if nth st.1 j = PROVISIONAL_REFERENCE_COUNT then
            (st.1.set j EMPTY_REFERENCE_COUNT, dec64 st.2)
          else st)
        (u.counters, u.allocated_count)).1) i ≠ PROVISIONAL_REFERENCE_COUNT
    rw [hc2 i hi]
    split
    · norm_num [PROVISIONAL_REFERENCE_COUNT]
    · rename_i hne
      exact hne
  · show ((List.range (COUNTS_PER_BLOCK g)).foldl
        (fun (st : List Nat × Nat) (j : Nat) =>
          if nth st.1 j = PROVISIONAL_REFERENCE_COUNT then
            (st.1.set j EMPTY_REFERENCE_COUNT, dec64 st.2)
          else st)
        (u.counters, u.allocated_count)).2
      = (List.range (COUNTS_PER_BLOCK g)).countP
          (fun i => nth u.counters i != 0 && nth u.counters i != 255)
    have hpc := countP_range_eq u.counters (fun c => c != 0 && c != 255)
      (COUNTS_PER_BLOCK g)
    have hfinal : ((List.range (COUNTS_PER_BLOCK g)).foldl
        (fun (st : List Nat × Nat) (j : Nat) =>
          if nth st.1 j = PROVISIONAL_REFERENCE_COUNT then
            (st.1.set j EMPTY_REFERENCE_COUNT, dec64 st.2)
          else st)
        (u.counters, u.allocated_count)).2
      = count_in_range u.counters (fun c => c != 0 && c != 255) 0 (COUNTS_PER_BLOCK g) := by
      rw [hc3 hcnt255, hA]
      omega
    exact hfinal.trans hpc.symm
  · intro hle hfw
    show sub64 free_blocks (((List.range (COUNTS_PER_BLOCK g)).foldl
        (fun (st : List Nat × Nat) (j : Nat) =>
          if nth st.1 j = PROVISIONAL_REFERENCE_COUNT then
            (st.1.set j EMPTY_REFERENCE_COUNT, dec64 st.2)
          else st)
        (u.counters, u.allocated_count)).2)
      = free_blocks - (((List.range (COUNTS_PER_BLOCK g)).foldl
        (fun (st : List Nat × Nat) (j : Nat) =>
          if nth st.1 j = PROVISIONAL_REFERENCE_COUNT then
            (st.1.set j EMPTY_REFERENCE_COUNT, dec64 st.2)
          else st)
        (u.counters, u.allocated_count)).2)
    exact sub64_eq_sub hle hfw

theorem claim_C9_witness :
    spec_block_load ⟨2, 2⟩ (pack_reference_block ⟨2, 2⟩ ⟨3, 1⟩ [1, 0, 255, 3])
      [0, 0, 0, 0] [⟨0, 0⟩, ⟨0, 0⟩] ⟨0, 0⟩ 5 :=
  claim_C9 (by norm_num [COUNTS_PER_BLOCK, W64])

/-! ### C10: `get_available_references` -/

/-- Modelled from the spec (implicit claim): `get_available_references`
returns 0 for a pbn outside the slab's data blocks instead of an error, and
for an in-range pbn returns `MAXIMUM` minus the counter, a `PROVISIONAL`
counter being treated as a single reference (yielding 253). -/
def spec_available_references (rc : ref_counts) (pbn : Nat) : Prop :=
  ((pbn < rc.slab_start ∨ rc.block_count ≤ pbn - rc.slab_start) →
    get_available_references rc pbn = 0)
  ∧ (rc.slab_start ≤ pbn → pbn - rc.slab_start < rc.block_count →
      (nth rc.counters (pbn - rc.slab_start) = PROVISIONAL_REFERENCE_COUNT →
        get_available_references rc pbn = MAXIMUM_REFERENCE_COUNT - 1)
      ∧ (nth rc.counters (pbn - rc.slab_start) ≠ PROVISIONAL_REFERENCE_COUNT →
        get_available_references rc pbn
          = MAXIMUM_REFERENCE_COUNT - nth rc.counters (pbn - rc.slab_start)))

/-- C10: `get_available_references` yields 0 rather than an out-of-range
error for every pbn that does not map to a data block of the slab, and for
an in-range pbn yields `MAXIMUM_REFERENCE_COUNT` (254) minus the counter,
with a `PROVISIONAL` (255) counter counted as one reference, so 253. -/
theorem claim_C10 (rc : ref_counts) (pbn : Nat) : spec_available_references rc pbn := by
  refine ⟨?_, ?_⟩
  · intro hout
    unfold get_available_references get_reference_counter slab_block_number_from_pbn
    by_cases hlt : pbn < rc.slab_start
    · rw [if_pos hlt]
      rfl
    · rcases hout with hlt' | hge
      · exact absurd hlt' hlt
      · rw [if_neg hlt, if_neg (by omega)]
        rfl
  · intro hle hlt
    have hsbn : slab_block_number_from_pbn rc pbn = .ok (pbn - rc.slab_start) := by
      unfold slab_block_number_from_pbn
      rw [if_neg (by omega), if_pos hlt]
    constructor
    · intro h255
      unfold get_available_references get_reference_counter
      rw [hsbn]
      simp only [Except.map]
      rw [if_pos h255]
    · intro h255
      unfold get_available_references get_reference_counter
      rw [hsbn]
      simp only [Except.map]
      rw [if_neg h255]

end VdoRefCounts
